import Mathlib

/-!
The bitcoind-backed chain notifier (package `bitcoindnotify`).

A shallow embedding of `chainntnfs/bitcoindnotify/bitcoind.go` and the
properties of its dispatcher and registration entry points.

Conventions of the embedding.

* Go `int32`/`uint32`/`uint64` values are `Int`/`Nat` with an explicit
  wrap-around wherever the source does arithmetic or converts.
* Go maps are association lists read through `GoMap.get`; iteration visits
  the entries in list order (Go leaves the order unspecified).
* Spend channels live in a heap (`spendChans`) and are referred to by their
  index, so that a channel outlives its removal from the spend index.
* A goroutine that panics, blocks forever or does not leave a loop is an
  explicit `Outcome`.
* The backend (`chain.BitcoindClient`) is a record of query functions: one
  snapshot of its answers per call or per dispatcher step.
-/

namespace Bitcoind

/-! ## Machine integers -/

/-- Two's-complement wrap of an integer into the `int32` range. -/
def wrapInt32 (x : Int) : Int := (x + 2147483648) % 4294967296 - 2147483648

/-- Go conversion `uint32(x)` of a signed value. -/
def toUint32 (x : Int) : Nat := (x % 4294967296).toNat

/-- Go conversion `uint32(n)` of an index, and `uint32` increment wrap. -/
def wrapUint32 (n : Nat) : Nat := n % 4294967296

/-- Wrap of `uint64` arithmetic (`atomic.AddUint64`). -/
def wrapUint64 (n : Nat) : Nat := n % 18446744073709551616

/-! ## Outcomes of a goroutine -/

/-- Run-time panics the embedded code can raise. -/
inductive Panic
  | nilDeref
  | sendOnClosed
  | closeOfClosed
  | closeOfNil
  deriving DecidableEq, Repr

/-- Result of running a piece of dispatcher code: it completes with a state,
panics, blocks forever on a channel operation, or exhausts the fuel given to
a loop. -/
inductive Outcome (σ : Type)
  | ok (s : σ)
  | panic (p : Panic)
  | blocked
  | timeout
  deriving DecidableEq, Repr

/-- Sequencing of outcomes. -/
def Outcome.bind {σ ρ : Type} (o : Outcome σ) (f : σ → Outcome ρ) : Outcome ρ :=
  match o with
  | .ok s => f s
  | .panic p => .panic p
  | .blocked => .blocked
  | .timeout => .timeout

/-- Equality of `Except` values is decidable. -/
instance exceptDecEq {ε α : Type} [DecidableEq ε] [DecidableEq α] :
    DecidableEq (Except ε α)
  | .ok a, .ok b =>
    if h : a = b then isTrue (by rw [h]) else isFalse (fun h1 => by cases h1; exact h rfl)
  | .error a, .error b =>
    if h : a = b then isTrue (by rw [h]) else isFalse (fun h1 => by cases h1; exact h rfl)
  | .ok _, .error _ => isFalse (fun h1 => by cases h1)
  | .error _, .ok _ => isFalse (fun h1 => by cases h1)

/-- The final state of a completed run, if it completed. -/
def Outcome.toOption {σ : Type} : Outcome σ → Option σ
  | .ok s => some s
  | _ => none

/-! ## Go maps -/

/-- A Go map as an association list. -/
abbrev GoMap (κ ν : Type) := List (κ × ν)

/-- Map lookup `m[k]` with the `ok` flag: the first entry under the key. -/
def GoMap.get {κ ν : Type} [DecidableEq κ] : GoMap κ ν → κ → Option ν
  | [], _ => none
  | (k', v) :: m, k => if k' = k then some v else GoMap.get m k

/-- The builtin `delete(m, k)`. -/
def GoMap.delete {κ ν : Type} [DecidableEq κ] (m : GoMap κ ν) (k : κ) : GoMap κ ν :=
  m.filter (fun e => decide (e.1 ≠ k))

/-- Assignment `m[k] = v`. -/
def GoMap.set {κ ν : Type} [DecidableEq κ] (m : GoMap κ ν) (k : κ) (v : ν) : GoMap κ ν :=
  (k, v) :: GoMap.delete m k

/-! ## Wire and chain data -/

/-- A `chainhash.Hash` digest. -/
abbrev Hash := Nat

/-- The `wire.OutPoint` of a transaction output. -/
structure OutPoint where
  Hash : Nat
  Index : Nat
  deriving DecidableEq, Repr

/-- A `wire.TxIn`: only the outpoint it spends is observed. -/
structure TxIn where
  PreviousOutPoint : OutPoint
  deriving DecidableEq, Repr

/-- A `wire.MsgTx`. The digest `TxHash()` computes from the serialisation is
carried as the field `hash`. -/
structure MsgTx where
  TxIn : List TxIn
  hash : Hash
  deriving DecidableEq, Repr

/-- The method `MsgTx.TxHash()`. -/
def MsgTx.TxHash (tx : MsgTx) : Hash := tx.hash

/-- A `wire.BlockHeader`; `hash` is the digest `BlockHash()` computes. -/
structure BlockHeader where
  Timestamp : Nat
  hash : Hash
  deriving DecidableEq, Repr

/-- A `wire.MsgBlock`. -/
structure MsgBlock where
  Header : BlockHeader
  Transactions : List MsgTx
  deriving DecidableEq, Repr

/-- The method `MsgBlock.BlockHash()`. -/
def MsgBlock.BlockHash (blk : MsgBlock) : Hash := blk.Header.hash

/-- The `wtxmgr.BlockMeta` of a relevant transaction (`Block.Hash`,
`Block.Height`, `Time`). -/
structure BlockMeta where
  Hash : Nat
  Height : Int
  Time : Nat
  deriving DecidableEq, Repr

/-- A `wtxmgr.TxRecord`. -/
structure TxRecord where
  MsgTx : MsgTx
  Hash : Nat
  Received : Nat
  deriving DecidableEq, Repr

/-- A `chain.RelevantTx`: `Block` is `none` for a mempool transaction. -/
structure RelevantTx where
  TxRecord : TxRecord
  Block : Option BlockMeta
  deriving DecidableEq, Repr

/-- A `chainntnfs.SpendDetail`. -/
structure SpendDetail where
  SpentOutPoint : OutPoint
  SpenderTxHash : Hash
  SpendingTx : MsgTx
  SpenderInputIndex : Nat
  SpendingHeight : Int
  deriving DecidableEq, Repr

/-- A `chainntnfs.BlockEpoch`. -/
structure BlockEpoch where
  Height : Int
  Hash : Nat
  deriving DecidableEq, Repr

/-- A `chainntnfs.TxConfirmation`. -/
structure TxConfirmation where
  BlockHash : Hash
  BlockHeight : Nat
  TxIndex : Nat
  deriving DecidableEq, Repr

/-! ## Errors -/

/-- Go `error` values met by the notifier. `rpc` is a `*btcjson.RPCError`
with its code, `backend` any other error a backend call returns, `wrapped`
an error built with `fmt.Errorf` around a cause, `message` one built without
a cause. -/
inductive Error
  | rpc (code : Int)
  | backend (tag : Nat)
  | shuttingDown
  | wrapped (cause : Error)
  | message (tag : Nat)
  deriving DecidableEq, Repr

/-- The constant `btcjson.ErrRPCNoTxInfo`. -/
def ErrRPCNoTxInfo : Int := -5

/-- The variable `ErrChainNotifierShuttingDown`. -/
def ErrChainNotifierShuttingDown : Error := Error.shuttingDown

/-- The test `!ok || jsonErr.Code != btcjson.ErrRPCNoTxInfo` applied to the
error of a transaction-index query. -/
def notNoTxInfo (err : Error) : Bool :=
  match err with
  | .rpc code => decide (code ≠ ErrRPCNoTxInfo)
  | _ => true

/-! ## Spend channels -/

/-- A `chan *chainntnfs.SpendDetail` made with capacity 1. `buf` holds the
values written and not yet read, `written` counts every value ever written
(a ghost counter). -/
structure SpendChan where
  buf : List SpendDetail
  closed : Bool
  written : Nat
  deriving DecidableEq, Repr

/-- The channel `make(chan *chainntnfs.SpendDetail, 1)` returns. -/
def SpendChan.make : SpendChan := { buf := [], closed := false, written := 0 }

/-- Capacity of a spend channel. -/
def spendChanCap : Nat := 1

/-- The send `ch <- d` on the channel at reference `c`: a send on a closed
channel panics, a send on a full buffer (or on a nil channel) blocks. -/
def chanSend (chans : List SpendChan) (c : Nat) (d : SpendDetail) :
    Outcome (List SpendChan) :=
  match chans[c]? with
  | none => .blocked
  | some ch =>
    if ch.closed then .panic .sendOnClosed
    else if spendChanCap ≤ ch.buf.length then .blocked
    else .ok (chans.set c { ch with buf := ch.buf ++ [d], written := ch.written + 1 })

/-- The builtin `close(ch)` on the channel at reference `c`. -/
def chanClose (chans : List SpendChan) (c : Nat) : Outcome (List SpendChan) :=
  match chans[c]? with
  | none => .panic .closeOfNil
  | some ch =>
    if ch.closed then .panic .closeOfClosed
    else .ok (chans.set c { ch with closed := true })

/-- A receive `<-ch` by the client holding the channel: takes the oldest
buffered value when there is one. -/
def chanRecv (chans : List SpendChan) (c : Nat) : List SpendChan :=
  match chans[c]? with
  | none => chans
  | some ch => chans.set c { ch with buf := ch.buf.tail }

/-! ## Subscriptions -/

/-- The struct `spendNotification`; `spendChan` is a reference into the heap
of spend channels. -/
structure spendNotification where
  targetOutpoint : OutPoint
  spendChan : Nat
  spendID : Nat
  heightHint : Nat
  deriving DecidableEq, Repr

/-- The struct `spendCancel`. -/
structure spendCancel where
  op : OutPoint
  spendID : Nat
  deriving DecidableEq, Repr

/-- The struct `epochCancel`. -/
structure epochCancel where
  epochID : Nat
  deriving DecidableEq, Repr

/-- A `chainntnfs.ConfNtfn`; the event channels belong to the confirmation
tracker and are not observed here. -/
structure ConfNtfn where
  TxID : Hash
  NumConfirmations : Nat
  deriving DecidableEq, Repr

/-- The struct `confirmationNotification`. -/
structure confirmationNotification where
  ConfNtfn : ConfNtfn
  heightHint : Nat
  deriving DecidableEq, Repr

/-- Modelled from the spec: the `chainntnfs.ConcurrentQueue` of an epoch
subscription, declared outside `bitcoind.go`. Producers write
to its inbound channel without blocking and without loss while the queue
runs; `received` is the sequence of items written to `ChanIn()`, `stopped`
records `Stop()`. -/
structure ConcurrentQueue where
  received : List BlockEpoch
  stopped : Bool
  deriving DecidableEq, Repr

/-- The struct `blockEpochRegistration`: `cancelClosed` and `epochClosed`
record `close(cancelChan)` and `close(epochChan)`. -/
structure blockEpochRegistration where
  epochID : Nat
  epochQueue : ConcurrentQueue
  cancelClosed : Bool
  epochClosed : Bool
  deriving DecidableEq, Repr

/-! ## The backend and the confirmation tracker -/

/-- A `btcjson.TxRawResult`: only the containing block hash is read. -/
structure TxRawResult where
  BlockHash : String
  deriving DecidableEq, Repr

/-- A `btcjson.GetBlockVerboseResult`. -/
structure GetBlockVerboseResult where
  Height : Int
  Tx : List String
  deriving DecidableEq, Repr

/-- The query surface of `chain.BitcoindClient`. A pointer result that may
be nil is an `Option`; a call returns either its error or its value. -/
structure BitcoindClient where
  NotifySpent : List OutPoint → Option Error
  GetTxOut : Hash → Nat → Bool → Except Error (Option Unit)
  GetRawTransactionVerbose : Hash → Except Error (Option TxRawResult)
  GetBlockHash : Int → Except Error Hash
  GetBlockHeight : Hash → Except Error Int
  GetBestBlock : Except Error (Hash × Int)
  GetBlock : Hash → Except Error MsgBlock
  GetBlockVerbose : Hash → Except Error GetBlockVerboseResult

/-- The two functions of package `chainhash` the notifier uses, taken as
parameters: the text form `Hash.String()` (here `HashString`) and the parser
`NewHashFromStr`. -/
structure Chainhash where
  HashString : Hash → String
  NewHashFromStr : String → Except Error Hash

/-- The methods of `chainntnfs.TxConfNotifier` the dispatcher calls, over an
abstract tracker state `τ`. Each returns the error the dispatcher logs and
the tracker state after the call. -/
structure TxConfNotifier (τ : Type) where
  Register : τ → ConfNtfn → Option TxConfirmation → Option Error × τ
  ConnectTip : τ → Hash → Nat → List MsgTx → Option Error × τ
  DisconnectTip : τ → Nat → Option Error × τ

/-- A call the dispatcher makes on the confirmation tracker or, with its
result discarded, on the backend (a ghost record). -/
inductive Call
  | Register (ntfn : ConfNtfn) (txConf : Option TxConfirmation)
  | ConnectTip (hash : Hash) (height : Nat) (txns : List MsgTx)
  | DisconnectTip (height : Nat)
  | NotifySpent (ops : List OutPoint)
  deriving DecidableEq, Repr

/-! ## The notifier -/

/-- The fields of `BitcoindNotifier` the dispatcher and the registration
entry points touch. `spendChans` is the heap of spend channels, `quit`
records that the quit channel is closed, `calls` is the ghost record of
tracker calls, oldest first, and `retired` keeps the epoch registrations the
dispatcher has cancelled, as their holders see them. -/
structure BitcoindNotifier (τ : Type) where
  spendClientCounter : Nat
  epochClientCounter : Nat
  spendNotifications : GoMap OutPoint (GoMap Nat spendNotification)
  txConfNotifier : τ
  blockEpochClients : GoMap Nat blockEpochRegistration
  quit : Bool
  spendChans : List SpendChan
  calls : List Call
  retired : List blockEpochRegistration
  deriving DecidableEq

/-- The notifier `New` returns, with the tracker `Start` installs. -/
def BitcoindNotifier.new {τ : Type} (tracker : τ) : BitcoindNotifier τ :=
  { spendClientCounter := 0, epochClientCounter := 0, spendNotifications := [],
    txConfNotifier := tracker, blockEpochClients := [], quit := false,
    spendChans := [], calls := [], retired := [] }

/-! ## handleRelevantTx -/

/-- The inner loop of `handleRelevantTx`, `for _, ntfn := range clients`:
send the details on the subscriber's channel, then close it. -/
def dispatchSpend (d : SpendDetail) :
    List (Nat × spendNotification) → List SpendChan → Outcome (List SpendChan)
  | [], chans => .ok chans
  | (_, ntfn) :: rest, chans =>
    (chanSend chans ntfn.spendChan d).bind fun chans1 =>
    (chanClose chans1 ntfn.spendChan).bind fun chans2 =>
    dispatchSpend d rest chans2

/-- The loop `for i, txIn := range msgTx.TxIn` of `handleRelevantTx`, from
input index `i` on; `height` is `tx.Block.Height`. -/
def handleRelevantTxLoop {τ : Type} (msgTx : MsgTx) (height : Int) :
    List TxIn → Nat → BitcoindNotifier τ → Outcome (BitcoindNotifier τ)
  | [], _, b => .ok b
  | txIn :: rest, i, b =>
    let prevOut := txIn.PreviousOutPoint
    match b.spendNotifications.get prevOut with
    | some clients =>
      let spendDetails : SpendDetail :=
        { SpentOutPoint := prevOut, SpenderTxHash := msgTx.TxHash,
          SpendingTx := msgTx, SpenderInputIndex := wrapUint32 i,
          SpendingHeight := height }
      (dispatchSpend spendDetails clients b.spendChans).bind fun chans =>
      handleRelevantTxLoop msgTx height rest (i + 1)
        { b with spendChans := chans,
                 spendNotifications := b.spendNotifications.delete prevOut }
    | none => handleRelevantTxLoop msgTx height rest (i + 1) b

/-- The method `handleRelevantTx`: a transaction without a containing block
is ignored. -/
def handleRelevantTx {τ : Type} (b : BitcoindNotifier τ) (tx : RelevantTx)
    (_bestHeight : Int) : Outcome (BitcoindNotifier τ) :=
  let msgTx := tx.TxRecord.MsgTx
  match tx.Block with
  | none => .ok b
  | some block => handleRelevantTxLoop msgTx block.Height msgTx.TxIn 0 b

/-! ## Historical confirmation lookup -/

/-- The loop `for txIndex, txHash := range block.Tx` with its test
`txHash == targetTxidStr`: the index of the first match, counted from
`txIndex`. -/
def findTxIndex (targetTxidStr : String) : List String → Nat → Option Nat
  | [], _ => none
  | txHash :: rest, txIndex =>
    if txHash = targetTxidStr then some txIndex
    else findTxIndex targetTxidStr rest (txIndex + 1)

/-- The method `confDetailsFromTxIndex`. -/
def confDetailsFromTxIndex (lib : Chainhash) (be : BitcoindClient) (txid : Hash) :
    Except Error (Option TxConfirmation) :=
  let fromTx (tx : Option TxRawResult) : Except Error (Option TxConfirmation) :=
    match tx with
    | none => .ok none
    | some tx =>
      if tx.BlockHash = "" then .ok none
      else
        match lib.NewHashFromStr tx.BlockHash with
        | .error err => .error (.wrapped err)
        | .ok blockHash =>
          match be.GetBlockVerbose blockHash with
          | .error err => .error (.wrapped err)
          | .ok block =>
            match findTxIndex (lib.HashString txid) block.Tx 0 with
            | some txIndex =>
              .ok (some { BlockHash := blockHash, BlockHeight := toUint32 block.Height,
                          TxIndex := wrapUint32 txIndex })
            | none => .error (.message 0)
  match be.GetRawTransactionVerbose txid with
  | .error err => if notNoTxInfo err then .error (.wrapped err) else fromTx none
  | .ok tx => fromTx tx

/-- The loop of `confDetailsManually` from `height` on. `fuel` bounds the
number of loop tests; `none` means the fuel ran out before the loop was
left. The increment `height++` wraps in `uint32`. -/
def confDetailsManuallyLoop (be : BitcoindClient) (targetTxidStr : String)
    (currentHeight : Nat) : Nat → Nat → Option (Except Error (Option TxConfirmation))
  | 0, _ => none
  | fuel + 1, height =>
    if height ≤ currentHeight then
      match be.GetBlockHash (height : Int) with
      | .error _ => some (.error (.message 1))
      | .ok blockHash =>
        match be.GetBlockVerbose blockHash with
        | .error err => some (.error (.wrapped err))
        | .ok block =>
          match findTxIndex targetTxidStr block.Tx 0 with
          | some txIndex =>
            some (.ok (some { BlockHash := blockHash, BlockHeight := height,
                              TxIndex := wrapUint32 txIndex }))
          | none =>
            confDetailsManuallyLoop be targetTxidStr currentHeight fuel
              (wrapUint32 (height + 1))
    else some (.ok none)

/-- The method `confDetailsManually`. -/
def confDetailsManually (lib : Chainhash) (be : BitcoindClient) (fuel : Nat)
    (txid : Hash) (heightHint currentHeight : Nat) :
    Option (Except Error (Option TxConfirmation)) :=
  confDetailsManuallyLoop be (lib.HashString txid) currentHeight fuel heightHint

/-- The method `historicalConfDetails`. -/
def historicalConfDetails (lib : Chainhash) (be : BitcoindClient) (fuel : Nat)
    (txid : Hash) (heightHint currentHeight : Nat) :
    Option (Except Error (Option TxConfirmation)) :=
  match confDetailsFromTxIndex lib be txid with
  | .error err => some (.error err)
  | .ok (some txConf) => some (.ok (some txConf))
  | .ok none => confDetailsManually lib be fuel txid heightHint currentHeight

/-! ## notifyBlockEpochs -/

/-- The `select` of `notifyBlockEpochs` for one client. The send on
`epochQueue.ChanIn()` is ready while the queue runs; the two receive cases are
ready once `cancelChan`, respectively `quit`, is closed, and both have an
empty body. `skip` resolves Go's choice among several ready cases: `true`
prefers a ready receive case. With no case ready the select blocks. -/
def selectEpoch (quit skip : Bool) (epoch : BlockEpoch)
    (epochClient : blockEpochRegistration) : Outcome blockEpochRegistration :=
  let recvReady := epochClient.cancelClosed || quit
  let sendReady := !epochClient.epochQueue.stopped
  if recvReady && (skip || !sendReady) then .ok epochClient
  else if sendReady then
    .ok { epochClient with
          epochQueue := { epochClient.epochQueue with
                          received := epochClient.epochQueue.received ++ [epoch] } }
  else .blocked

/-- The loop `for _, epochClient := range b.blockEpochClients`; `sched`
gives the resolution of each client's select, by epoch id. -/
def notifyBlockEpochsLoop (quit : Bool) (sched : Nat → Bool) (epoch : BlockEpoch) :
    List (Nat × blockEpochRegistration) → Outcome (List (Nat × blockEpochRegistration))
  | [] => .ok []
  | (id, epochClient) :: rest =>
    (selectEpoch quit (sched id) epoch epochClient).bind fun epochClient1 =>
    (notifyBlockEpochsLoop quit sched epoch rest).bind fun rest1 =>
    .ok ((id, epochClient1) :: rest1)

/-- The method `notifyBlockEpochs`. -/
def notifyBlockEpochs {τ : Type} (sched : Nat → Bool) (b : BitcoindNotifier τ)
    (newHeight : Int) (newSha : Hash) : Outcome (BitcoindNotifier τ) :=
  let epoch : BlockEpoch := { Height := newHeight, Hash := newSha }
  (notifyBlockEpochsLoop b.quit sched epoch b.blockEpochClients).bind fun clients =>
  .ok { b with blockEpochClients := clients }

/-! ## The dispatcher -/

/-- A value the dispatcher's `select` receives: from `notificationCancels`
(the two cancel messages), from `notificationRegistry` (the three
registrations and an injected relevant transaction) or from the backend's
notification stream (the last three). -/
inductive Msg
  | spendCancel (msg : spendCancel)
  | epochCancel (msg : epochCancel)
  | spendNotification (msg : spendNotification)
  | confirmationNotification (msg : confirmationNotification)
  | blockEpochRegistration (msg : blockEpochRegistration)
  | registryRelevantTx (msg : RelevantTx)
  | BlockConnected (Hash : Nat) (Height : Int)
  | BlockDisconnected (Hash : Nat) (Height : Int)
  | RelevantTx (item : RelevantTx)
  deriving DecidableEq, Repr

/-- What surrounds one iteration of the dispatcher loop: the backend's
answers at that time, the resolution of the selects of `notifyBlockEpochs`,
and the fuel granted to the block scan of a confirmation registration. -/
structure World where
  be : BitcoindClient
  sched : Nat → Bool
  fuel : Nat

/-- The state of the dispatcher goroutine: the notifier it owns and its local
`bestHeight`. -/
structure Dispatcher (τ : Type) where
  b : BitcoindNotifier τ
  bestHeight : Int
  deriving DecidableEq

/-- The dispatcher `Start` launches: the fresh notifier and the backend's
best height. -/
def Dispatcher.init {τ : Type} (tracker : τ) (currentHeight : Int) : Dispatcher τ :=
  { b := BitcoindNotifier.new tracker, bestHeight := currentHeight }

/-- One iteration of the loop of `notificationDispatcher`, on the received
value `msg`. -/
def notificationDispatcherStep {τ : Type} (ops : TxConfNotifier τ) (lib : Chainhash)
    (w : World) (s : Dispatcher τ) (msg : Msg) : Outcome (Dispatcher τ) :=
  let b := s.b
  match msg with
  | .spendCancel msg =>
    match b.spendNotifications.get msg.op with
    | some outPointClients =>
      match outPointClients.get msg.spendID with
      | none => .panic .nilDeref
      | some ntfn =>
        (chanClose b.spendChans ntfn.spendChan).bind fun chans =>
        .ok { s with b := { b with
                spendChans := chans,
                spendNotifications :=
                  b.spendNotifications.set msg.op (outPointClients.delete msg.spendID) } }
    | none => .ok s
  | .epochCancel msg =>
    match b.blockEpochClients.get msg.epochID with
    | none => .panic .nilDeref
    | some reg =>
      if reg.cancelClosed then .panic .closeOfClosed
      else if reg.epochClosed then .panic .closeOfClosed
      else
        let reg1 : blockEpochRegistration :=
          { reg with epochQueue := { reg.epochQueue with stopped := true },
                     cancelClosed := true, epochClosed := true }
        .ok { s with b := { b with
                blockEpochClients := b.blockEpochClients.delete msg.epochID,
                retired := b.retired ++ [reg1] } }
  | .spendNotification msg =>
    let op := msg.targetOutpoint
    let clients :=
      match b.spendNotifications.get op with
      | some clients => clients
      | none => []
    .ok { s with b := { b with
            spendNotifications := b.spendNotifications.set op (clients.set msg.spendID msg),
            calls := b.calls ++ [Call.NotifySpent [op]] } }
  | .confirmationNotification msg =>
    let currentHeight : Int :=
      match w.be.GetBestBlock with
      | .ok (_, height) => height
      | .error _ => 0
    match historicalConfDetails lib w.be w.fuel msg.ConfNtfn.TxID msg.heightHint
        (toUint32 currentHeight) with
    | none => .timeout
    | some res =>
      let txConf : Option TxConfirmation :=
        match res with
        | .ok txConf => txConf
        | .error _ => none
      let r := ops.Register b.txConfNotifier msg.ConfNtfn txConf
      .ok { s with b := { b with
              txConfNotifier := r.2,
              calls := b.calls ++ [Call.Register msg.ConfNtfn txConf] } }
  | .blockEpochRegistration msg =>
    .ok { s with b := { b with blockEpochClients := b.blockEpochClients.set msg.epochID msg } }
  | .registryRelevantTx msg =>
    (handleRelevantTx b msg s.bestHeight).bind fun b1 => .ok { s with b := b1 }
  | .BlockConnected hash height =>
    if height ≠ wrapInt32 (s.bestHeight + 1) then .ok s
    else
      match w.be.GetBlock hash with
      | .error _ => .ok { s with bestHeight := height }
      | .ok rawBlock =>
        (notifyBlockEpochs w.sched b height hash).bind fun b1 =>
        let txns := rawBlock.Transactions
        let r := ops.ConnectTip b1.txConfNotifier hash (toUint32 height) txns
        .ok { b := { b1 with
                txConfNotifier := r.2,
                calls := b1.calls ++ [Call.ConnectTip hash (toUint32 height) txns] },
              bestHeight := height }
  | .BlockDisconnected _ height =>
    if height ≠ s.bestHeight then .ok s
    else
      let r := ops.DisconnectTip b.txConfNotifier (toUint32 height)
      .ok { b := { b with
              txConfNotifier := r.2,
              calls := b.calls ++ [Call.DisconnectTip (toUint32 height)] },
            bestHeight := wrapInt32 (height - 1) }
  | .RelevantTx item =>
    (handleRelevantTx b item s.bestHeight).bind fun b1 => .ok { s with b := b1 }

/-- The loop of `notificationDispatcher` over the values it receives, each
with the world it is processed in. -/
def notificationDispatcher {τ : Type} (ops : TxConfNotifier τ) (lib : Chainhash) :
    List (World × Msg) → Dispatcher τ → Outcome (Dispatcher τ)
  | [], s => .ok s
  | (w, msg) :: rest, s =>
    (notificationDispatcherStep ops lib w s msg).bind fun s1 =>
    notificationDispatcher ops lib rest s1

/-! ## The registration entry points -/

/-- A `chainntnfs.SpendEvent`: the channel handed to the caller and the
message its `Cancel` closure submits. -/
structure SpendEvent where
  Spend : Nat
  Cancel : spendCancel
  deriving DecidableEq, Repr

/-- A `chainntnfs.ConfirmationEvent` as `NewConfirmationEvent(numConfs)`
makes it: the capacity of its updates channel. -/
structure ConfirmationEvent where
  numConfs : Nat
  deriving DecidableEq, Repr

/-- What a registration call leaves behind: the notifier fields it changed,
the values it sent on `notificationRegistry` (in order, each received by the
dispatcher), and what it returned. -/
structure Registered (τ ρ : Type) where
  b : BitcoindNotifier τ
  sent : List Msg
  ret : Except Error ρ

/-- The test of the rescan's two inner loops: some input of `tx` has
`in.PreviousOutPoint == *outpoint`. -/
def spendsOutpoint (outpoint : OutPoint) (tx : MsgTx) : Bool :=
  tx.TxIn.any fun txIn => decide (txIn.PreviousOutPoint = outpoint)

/-- The synthetic `chain.RelevantTx` the rescan builds for the transaction
`tx` of `block`, found at height `i`. -/
def rescanRelevantTx (block : MsgBlock) (i : Int) (tx : MsgTx) : RelevantTx :=
  { TxRecord := { MsgTx := tx, Hash := tx.TxHash, Received := block.Header.Timestamp },
    Block := some { Hash := block.BlockHash, Height := i, Time := block.Header.Timestamp } }

/-- The rescan loop `for i := startHeight; i <= endHeight; i++` of
`RegisterSpendNtfn`, from `i` on, up to the point where a spending
transaction is found (`break out`). `fuel` bounds the number of loop tests;
`none` means the fuel ran out. The increment wraps in `int32`. -/
def rescanLoop (be : BitcoindClient) (outpoint : OutPoint) (endHeight : Int) :
    Nat → Int → Option (Except Error (Option RelevantTx))
  | 0, _ => none
  | fuel + 1, i =>
    if i ≤ endHeight then
      match be.GetBlockHash i with
      | .error err => some (.error err)
      | .ok blockHash =>
        match be.GetBlock blockHash with
        | .error err => some (.error err)
        | .ok block =>
          match block.Transactions.find? (spendsOutpoint outpoint) with
          | some tx => some (.ok (some (rescanRelevantTx block i tx)))
          | none => rescanLoop be outpoint endHeight fuel (wrapInt32 (i + 1))
    else some (.ok none)

/-- The part of `RegisterSpendNtfn` between the probe of the UTXO set and the
rescan loop: the hash of the block to start from, then the two bounds
`startHeight` and `endHeight` of the loop. A successful `GetBlockHash` or
`NewHashFromStr` returns a hash, so the guard `blockHash != nil` holds. -/
def rescanBounds (lib : Chainhash) (be : BitcoindClient) (outpoint : OutPoint)
    (heightHint : Nat) : Except Error (Int × Int) :=
  let txRes : Except Error (Option TxRawResult) :=
    match be.GetRawTransactionVerbose outpoint.Hash with
    | .error err => if notNoTxInfo err then .error (.wrapped err) else .ok none
    | .ok tx => .ok tx
  match txRes with
  | .error err => .error err
  | .ok tx =>
    let hashRes : Except Error Hash :=
      match tx with
      | some tx =>
        if tx.BlockHash ≠ "" then lib.NewHashFromStr tx.BlockHash
        else be.GetBlockHash (heightHint : Int)
      | none => be.GetBlockHash (heightHint : Int)
    match hashRes with
    | .error err => .error err
    | .ok blockHash =>
      match be.GetBlockHeight blockHash with
      | .error err => .error err
      | .ok startHeight =>
        match be.GetBestBlock with
        | .error err => .error err
        | .ok (_, endHeight) => .ok (startHeight, endHeight)

/-- The first statement of `RegisterSpendNtfn`: the subscription with a
channel just made and the next spend id (the source leaves `heightHint`
unset). Returns the notifier with the counter advanced and the channel
allocated, and the subscription. -/
def newSpendNotification {τ : Type} (b : BitcoindNotifier τ) (outpoint : OutPoint) :
    BitcoindNotifier τ × spendNotification :=
  let spendID := wrapUint64 (b.spendClientCounter + 1)
  ({ b with spendClientCounter := spendID, spendChans := b.spendChans ++ [SpendChan.make] },
   { targetOutpoint := outpoint, spendChan := b.spendChans.length,
     spendID := spendID, heightHint := 0 })

/-- The method `RegisterSpendNtfn`. `quit1` and `quit2` tell whether the
first and the second `select` take the case `<-b.quit`; `fuel` bounds the
rescan loop, and the result is `none` when it runs out. -/
def RegisterSpendNtfn {τ : Type} (lib : Chainhash) (be : BitcoindClient) (fuel : Nat)
    (quit1 quit2 : Bool) (b : BitcoindNotifier τ) (outpoint : OutPoint)
    (heightHint : Nat) : Option (Registered τ SpendEvent) :=
  let b1 := (newSpendNotification b outpoint).1
  let ntfn := (newSpendNotification b outpoint).2
  let event : SpendEvent :=
    { Spend := ntfn.spendChan, Cancel := { op := outpoint, spendID := ntfn.spendID } }
  if quit1 then some { b := b1, sent := [], ret := .error ErrChainNotifierShuttingDown }
  else
    let sent1 := [Msg.spendNotification ntfn]
    match be.NotifySpent [outpoint] with
    | some err => some { b := b1, sent := sent1, ret := .error err }
    | none =>
      match be.GetTxOut outpoint.Hash outpoint.Index true with
      | .error err => some { b := b1, sent := sent1, ret := .error err }
      | .ok (some _) => some { b := b1, sent := sent1, ret := .ok event }
      | .ok none =>
        match rescanBounds lib be outpoint heightHint with
        | .error err => some { b := b1, sent := sent1, ret := .error err }
        | .ok (startHeight, endHeight) =>
          match rescanLoop be outpoint endHeight fuel startHeight with
          | none => none
          | some (.error err) => some { b := b1, sent := sent1, ret := .error err }
          | some (.ok none) => some { b := b1, sent := sent1, ret := .ok event }
          | some (.ok (some relTx)) =>
            if quit2 then
              some { b := b1, sent := sent1, ret := .error ErrChainNotifierShuttingDown }
            else
              some { b := b1, sent := sent1 ++ [Msg.registryRelevantTx relTx],
                     ret := .ok event }

/-- The first statement of `RegisterBlockEpochNtfn`, with `reg.epochQueue.Start()`:
the registration with the next epoch id, a running queue and open channels.
Returns the notifier with the counter advanced, and the registration. -/
def newBlockEpochRegistration {τ : Type} (b : BitcoindNotifier τ) :
    BitcoindNotifier τ × blockEpochRegistration :=
  let epochID := wrapUint64 (b.epochClientCounter + 1)
  ({ b with epochClientCounter := epochID },
   { epochID := epochID, epochQueue := { received := [], stopped := false },
     cancelClosed := false, epochClosed := false })

/-- The method `RegisterConfirmationsNtfn`; `quit` tells whether the `select`
takes the case `<-b.quit`. -/
def RegisterConfirmationsNtfn {τ : Type} (quit : Bool) (b : BitcoindNotifier τ)
    (txid : Hash) (numConfs heightHint : Nat) : Registered τ ConfirmationEvent :=
  let ntfn : confirmationNotification :=
    { ConfNtfn := { TxID := txid, NumConfirmations := numConfs },
      heightHint := heightHint }
  if quit then { b := b, sent := [], ret := .error ErrChainNotifierShuttingDown }
  else { b := b, sent := [Msg.confirmationNotification ntfn],
         ret := .ok { numConfs := ntfn.ConfNtfn.NumConfirmations } }

/-- The dispatcher receives, in order, the values a registration call sent on
`notificationRegistry`, starting from the notifier the call left. -/
def deliver {τ ρ : Type} (ops : TxConfNotifier τ) (lib : Chainhash) (w : World)
    (bestHeight : Int) (r : Registered τ ρ) : Outcome (Dispatcher τ) :=
  notificationDispatcher ops lib (r.sent.map fun msg => (w, msg))
    { b := r.b, bestHeight := bestHeight }

/-! ## The notifier and its clients as one system -/

/-- An event of the running system: a caller of `RegisterSpendNtfn` hands its
new subscription to the dispatcher, the dispatcher receives a value, or a
client reads from the spend channel it holds. -/
inductive Event
  | RegisterSpendNtfn (w : World) (outpoint : OutPoint)
  | dispatch (w : World) (msg : Msg)
  | receive (c : Nat)

/-- One event of the system. For `RegisterSpendNtfn` the subscription is made
by `newSpendNotification` and received by the dispatcher at once (the
registration inbox is unbuffered). -/
def systemStep {τ : Type} (ops : TxConfNotifier τ) (lib : Chainhash)
    (s : Dispatcher τ) : Event → Outcome (Dispatcher τ)
  | .RegisterSpendNtfn w outpoint =>
    let r := newSpendNotification s.b outpoint
    notificationDispatcherStep ops lib w { s with b := r.1 } (Msg.spendNotification r.2)
  | .dispatch w msg => notificationDispatcherStep ops lib w s msg
  | .receive c => .ok { s with b := { s.b with spendChans := chanRecv s.b.spendChans c } }

/-- A run of the system over a sequence of events. -/
def systemRun {τ : Type} (ops : TxConfNotifier τ) (lib : Chainhash) :
    List Event → Dispatcher τ → Outcome (Dispatcher τ)
  | [], s => .ok s
  | e :: rest, s => (systemStep ops lib s e).bind fun s1 => systemRun ops lib rest s1

/-- The events of the spend life cycle: registrations made by
`RegisterSpendNtfn`, spend cancellations, relevant transactions from either
inbox, block connects and disconnects, and client reads. -/
def Event.spendLifecycle : Event → Bool
  | .RegisterSpendNtfn _ _ => true
  | .dispatch _ (.spendCancel _) => true
  | .dispatch _ (.registryRelevantTx _) => true
  | .dispatch _ (.RelevantTx _) => true
  | .dispatch _ (.BlockConnected _ _) => true
  | .dispatch _ (.BlockDisconnected _ _) => true
  | .dispatch _ _ => false
  | .receive _ => true

/-! ## Invariant of the spend index -/

/-- A well-formed Go map: no key occurs twice. -/
def GoMap.WF {κ ν : Type} (m : GoMap κ ν) : Prop := (m.map Prod.fst).Nodup

instance GoMap.decidableWF {κ ν : Type} [DecidableEq κ] (m : GoMap κ ν) :
    Decidable (GoMap.WF m) := by
  unfold GoMap.WF
  infer_instance

/-- The state of a spend channel after its one dispatch: the details
buffered, the channel closed. -/
def SpendChan.dispatched (d : SpendDetail) : SpendChan :=
  { buf := [d], closed := true, written := 1 }

/-- The invariant of the spend index: keys are unique, every stored
subscription holds an open, empty, never written channel of its own, and no
channel was written more than once. -/
structure SpendInv {τ : Type} (b : BitcoindNotifier τ) : Prop where
  outerWF : GoMap.WF b.spendNotifications
  innerWF : ∀ e ∈ b.spendNotifications, GoMap.WF e.2
  fresh : ∀ e ∈ b.spendNotifications, ∀ x ∈ e.2,
    b.spendChans[x.2.spendChan]? = some SpendChan.make
  distinct : ∀ e ∈ b.spendNotifications, ∀ x ∈ e.2,
    ∀ e1 ∈ b.spendNotifications, ∀ x1 ∈ e1.2,
      x.2.spendChan = x1.2.spendChan → e.1 = e1.1 ∧ x.1 = x1.1
  once : ∀ (c : Nat) (ch : SpendChan), b.spendChans[c]? = some ch → ch.written ≤ 1

/-- The `SpendDetail` that `handleRelevantTx` builds for input `i` of
`msgTx`, spending `prevOut`, in a block at `height`. -/
def spendDetailOf (msgTx : MsgTx) (height : Int) (prevOut : OutPoint) (i : Nat) :
    SpendDetail :=
  { SpentOutPoint := prevOut, SpenderTxHash := msgTx.TxHash, SpendingTx := msgTx,
    SpenderInputIndex := i, SpendingHeight := height }

/-! ## Vocabulary of the historical scans -/

/-- Every height from `lo` up to `hi` excluded is served by the backend
(`GetBlockHash`, then `GetBlockVerbose`) and its block's tx-id list does not
contain `target`. -/
def scansClean (be : BitcoindClient) (target : String) (lo hi : Nat) : Prop :=
  ∀ h : Nat, lo ≤ h → h < hi →
    ∃ hash blk, be.GetBlockHash (h : Int) = .ok hash ∧
      be.GetBlockVerbose hash = .ok blk ∧ target ∉ blk.Tx

/-- No input of the transaction spends `outpoint`. -/
def sparesOutpoint (outpoint : OutPoint) (tx : MsgTx) : Prop :=
  ∀ txIn ∈ tx.TxIn, txIn.PreviousOutPoint ≠ outpoint

instance sparesOutpoint.decidable (outpoint : OutPoint) (tx : MsgTx) :
    Decidable (sparesOutpoint outpoint tx) := by
  unfold sparesOutpoint
  infer_instance

/-- Every height from `lo` up to `hi` excluded is served by the backend
(`GetBlockHash`, then `GetBlock`) and no transaction of its block has an
input spending `outpoint`. -/
def rescanClean (be : BitcoindClient) (outpoint : OutPoint) (lo hi : Int) : Prop :=
  ∀ i : Int, lo ≤ i → i < hi →
    ∃ hash blk, be.GetBlockHash i = .ok hash ∧ be.GetBlock hash = .ok blk ∧
      ∀ tx ∈ blk.Transactions, sparesOutpoint outpoint tx

/-- The transaction `tx` is the first of the list, in transaction order, with
an input spending `outpoint`. -/
def firstSpender (outpoint : OutPoint) (txs : List MsgTx) (tx : MsgTx) : Prop :=
  ∃ k : Nat, txs[k]? = some tx ∧
    (∃ txIn ∈ tx.TxIn, txIn.PreviousOutPoint = outpoint) ∧
    ∀ (j : Nat) (t : MsgTx), j < k → txs[j]? = some t → sparesOutpoint outpoint t

/-- The position `k` is the first occurrence of `target` in the list. -/
def firstOccurrence (target : String) (txs : List String) (k : Nat) : Prop :=
  txs[k]? = some target ∧ ∀ j : Nat, j < k → txs[j]? ≠ some target

/-- The transaction index names no block for the outpoint's own transaction:
`GetRawTransactionVerbose` returns no transaction, a transaction with an
empty block hash, or fails with the no-tx-info code. -/
def indexSilent (be : BitcoindClient) (outpoint : OutPoint) : Prop :=
  be.GetRawTransactionVerbose outpoint.Hash = .ok none ∨
  (∃ tx, be.GetRawTransactionVerbose outpoint.Hash = .ok (some tx) ∧ tx.BlockHash = "") ∨
  (∃ err, be.GetRawTransactionVerbose outpoint.Hash = .error err ∧ notNoTxInfo err = false)

/-- The rescan of `RegisterSpendNtfn` starts from the block `blockHash`: the
block hash the transaction index gives for the outpoint's own transaction,
parsed by `NewHashFromStr`, or, when the index names no block, the hash
`GetBlockHash` returns at the height hint. -/
def rescanStartsAt (lib : Chainhash) (be : BitcoindClient) (outpoint : OutPoint)
    (heightHint : Nat) (blockHash : Hash) : Prop :=
  (∃ tx, be.GetRawTransactionVerbose outpoint.Hash = .ok (some tx) ∧ tx.BlockHash ≠ "" ∧
    lib.NewHashFromStr tx.BlockHash = .ok blockHash) ∨
  (indexSilent be outpoint ∧ be.GetBlockHash (heightHint : Int) = .ok blockHash)

/-! ## Vocabulary of the epoch stream -/

/-- Whether a value is one of the three chain events of the backend's
notification stream. -/
def Msg.isChainEvent : Msg → Bool
  | .BlockConnected _ _ => true
  | .BlockDisconnected _ _ => true
  | .RelevantTx _ => true
  | _ => false

/-- Whether a value is a `BlockDisconnected` event. -/
def Msg.isDisconnect : Msg → Bool
  | .BlockDisconnected _ _ => true
  | _ => false

/-- The epochs of the in-order, successfully fetched `BlockConnected` events
of a sequence of received values, in the order processed, for a dispatcher
whose best height is `h`: a connect is in order when its height is the best
height plus one and then becomes the best height, fetched or not; an
in-order disconnect lowers the best height by one. -/
def connectedEpochs : Int → List (World × Msg) → List BlockEpoch
  | _, [] => []
  | h, (w, .BlockConnected hash height) :: rest =>
    if height = wrapInt32 (h + 1) then
      match w.be.GetBlock hash with
      | .ok _ => { Height := height, Hash := hash } :: connectedEpochs height rest
      | .error _ => connectedEpochs height rest
    else connectedEpochs h rest
  | h, (_, .BlockDisconnected _ height) :: rest =>
    if height = h then connectedEpochs (wrapInt32 (height - 1)) rest
    else connectedEpochs h rest
  | h, _ :: rest => connectedEpochs h rest

/-- The registration `epochClient` after the epochs `eps` were written to its
queue. -/
def enqueued (eps : List BlockEpoch) (epochClient : blockEpochRegistration) :
    blockEpochRegistration :=
  { epochClient with
    epochQueue := { epochClient.epochQueue with
                    received := epochClient.epochQueue.received ++ eps } }

/-- A registered epoch client that was not cancelled: its queue runs and its
cancel channel is open. -/
def liveEpochClient (epochClient : blockEpochRegistration) : Prop :=
  epochClient.epochQueue.stopped = false ∧ epochClient.cancelClosed = false

instance liveEpochClient.decidable (epochClient : blockEpochRegistration) :
    Decidable (liveEpochClient epochClient) := by
  unfold liveEpochClient
  infer_instance

/-- In a sequence of epochs, an epoch of lower height always comes before an
epoch of greater height. -/
def heightOrdered (eps : List BlockEpoch) : Prop :=
  ∀ (i j : Nat) (e1 e2 : BlockEpoch),
    eps[i]? = some e1 → eps[j]? = some e2 → e1.Height < e2.Height → i < j

/-! ## The confirmation tracker, from the spec -/

/-- Modelled from the spec: the state of the confirmation tracker
(`chainntnfs.TxConfNotifier`, declared outside `bitcoind.go`): its
`current-height`, the most recently connected block height, and its
bookkeeping of subscriptions (`ntfns-by-confirm-height`, `ntfns-by-tx`,
`confirmed-txs-by-height`), kept abstract as `book`. -/
structure Tracker (β : Type) where
  currentHeight : Nat
  book : β
  deriving DecidableEq

/-- Modelled from the spec: what the tracker's three operations do to its
bookkeeping of subscriptions, once their ordering assertion holds; the
dispatcher never reads it, so it is a parameter. -/
structure TrackerBook (β : Type) where
  register : β → Nat → ConfNtfn → Option TxConfirmation → β
  connect : β → Hash → Nat → List MsgTx → β
  disconnect : β → Nat → β

/-- The error of a failed ordering assertion of the tracker. -/
def ErrOutOfOrder : Error := Error.message 10

/-- The error of the tracker for a subscription that asks for zero
confirmations. -/
def ErrZeroConfs : Error := Error.message 11

/-- Modelled from the spec: the operations of the confirmation tracker as far
as its `current-height` goes. `Register` rejects a subscription with
`num-confirmations == 0` and otherwise only updates the bookkeeping.
`ConnectTip` asserts `height == current-height + 1` (step 1) and then sets
`current-height = height` (step 3). `DisconnectTip` asserts
`height == current-height` (step 1) and then decrements `current-height`
(step 3). A failed assertion returns an error and leaves the tracker as it
was. Heights are `uint32`. -/
def specTracker {β : Type} (bk : TrackerBook β) : TxConfNotifier (Tracker β) :=
  { Register := fun t ntfn txConf =>
      if ntfn.NumConfirmations = 0 then (some ErrZeroConfs, t)
      else (none, { t with book := bk.register t.book t.currentHeight ntfn txConf }),
    ConnectTip := fun t hash height txns =>
      if height = wrapUint32 (t.currentHeight + 1) then
        (none, { currentHeight := height, book := bk.connect t.book hash height txns })
      else (some ErrOutOfOrder, t),
    DisconnectTip := fun t height =>
      if height = t.currentHeight then
        (none, { currentHeight := wrapUint32 (t.currentHeight + 4294967295),
                 book := bk.disconnect t.book height })
      else (some ErrOutOfOrder, t) }

/-- Whether a sequence of chain events, for a dispatcher of best height `h`,
reaches the tracker nowhere: it holds no in-order `BlockDisconnected` event
and no in-order `BlockConnected` event whose block is fetched. In-order
connects whose fetch fails raise the best height; out-of-order block events
and relevant transactions pass. -/
def quietEvents : Int → List (World × Msg) → Bool
  | _, [] => true
  | h, (w, .BlockConnected hash height) :: rest =>
    if height = wrapInt32 (h + 1) then
      match w.be.GetBlock hash with
      | .ok _ => false
      | .error _ => quietEvents height rest
    else quietEvents h rest
  | h, (_, .BlockDisconnected _ height) :: rest =>
    if height = h then false else quietEvents h rest
  | h, (_, .RelevantTx _) :: rest => quietEvents h rest
  | _, _ :: _ => false

/-- Whether a sequence of values the dispatcher receives, for a dispatcher of
best height `h`, leaves the gap open: it holds no in-order
`BlockDisconnected` event and no in-order `BlockConnected` event whose block
is fetched. In-order connects whose fetch fails raise the best height;
out-of-order block events, relevant transactions, registrations and
cancellations pass. -/
def gapKept : Int → List (World × Msg) → Bool
  | _, [] => true
  | h, (w, .BlockConnected hash height) :: rest =>
    if height = wrapInt32 (h + 1) then
      match w.be.GetBlock hash with
      | .ok _ => false
      | .error _ => gapKept height rest
    else gapKept h rest
  | h, (_, .BlockDisconnected _ height) :: rest =>
    if height = h then false else gapKept h rest
  | h, _ :: rest => gapKept h rest

/-- Whether a recorded call is a `ConnectTip` or a `DisconnectTip` of the
tracker. -/
def Call.isTip : Call → Bool
  | .ConnectTip _ _ _ => true
  | .DisconnectTip _ => true
  | _ => false

/-! ## Sample data -/

/-- A confirmation tracker that only counts the calls made on it. -/
def countingTracker : TxConfNotifier Nat :=
  { Register := fun t _ _ => (none, t + 1),
    ConnectTip := fun t _ _ _ => (none, t + 1),
    DisconnectTip := fun t _ => (none, t + 1) }

/-- A watched outpoint. -/
def sampleOutpoint : OutPoint := { Hash := 7, Index := 0 }

/-- A subscription for `sampleOutpoint` on channel 0 with spend id 1. -/
def sampleNtfn : spendNotification :=
  { targetOutpoint := sampleOutpoint, spendChan := 0, spendID := 1, heightHint := 0 }

/-- A notifier whose spend index holds `sampleNtfn`. -/
def sampleNotifier : BitcoindNotifier Nat :=
  { spendClientCounter := 1, epochClientCounter := 0,
    spendNotifications := [(sampleOutpoint, [(1, sampleNtfn)])],
    txConfNotifier := 0, blockEpochClients := [], quit := false,
    spendChans := [SpendChan.make], calls := [], retired := [] }

/-- A transaction whose input at index 2 spends `sampleOutpoint`. -/
def sampleSpendingTx : MsgTx :=
  { TxIn := [{ PreviousOutPoint := { Hash := 9, Index := 9 } },
             { PreviousOutPoint := { Hash := 3, Index := 1 } },
             { PreviousOutPoint := sampleOutpoint }],
    hash := 42 }

/-- The record of `sampleSpendingTx`. -/
def sampleTxRecord : TxRecord := { MsgTx := sampleSpendingTx, Hash := 42, Received := 0 }

/-- The block at height 101 that contains `sampleSpendingTx`. -/
def sampleBlockMeta : BlockMeta := { Hash := 500, Height := 101, Time := 0 }

/-- A backend serving a chain of heights 0 to 102, the block at height `h`
having hash `1000 + h`; the block at height 101 holds `sampleSpendingTx`,
every other block is empty. The transaction index is disabled and no output
is reported unspent. -/
def sampleBackend : BitcoindClient :=
  { NotifySpent := fun _ => none,
    GetTxOut := fun _ _ _ => .ok none,
    GetRawTransactionVerbose := fun _ => .error (.rpc ErrRPCNoTxInfo),
    GetBlockHash := fun h =>
      if 0 ≤ h ∧ h ≤ 102 then .ok (1000 + h.toNat) else .error (.rpc (-8)),
    GetBlockHeight := fun hash =>
      if 1000 ≤ hash ∧ hash ≤ 1102 then .ok ((hash - 1000 : Nat) : Int) else .error (.rpc (-5)),
    GetBestBlock := .ok (1102, 102),
    GetBlock := fun hash =>
      if hash = 1101 then
        .ok { Header := { Timestamp := 0, hash := 1101 }, Transactions := [sampleSpendingTx] }
      else if 1000 ≤ hash ∧ hash ≤ 1102 then
        .ok { Header := { Timestamp := 0, hash := hash }, Transactions := [] }
      else .error (.rpc (-5)),
    GetBlockVerbose := fun hash =>
      if hash = 1101 then .ok { Height := 101, Tx := ["29", "2a"] }
      else if 1000 ≤ hash ∧ hash ≤ 1102 then .ok { Height := ((hash - 1000 : Nat) : Int), Tx := [] }
      else .error (.rpc (-5)) }

/-- A text form of hashes for the samples: hash 42 reads "2a", hash 41 reads
"29", any other hash reads "00"; the parser inverts it on these texts. -/
def sampleLib : Chainhash :=
  { HashString := fun h => if h = 42 then "2a" else if h = 41 then "29" else "00",
    NewHashFromStr := fun s =>
      if s = "2a" then .ok 42 else if s = "29" then .ok 41 else .error (.message 2) }

/-- The world of the samples: `sampleBackend`, every select taking its send
case, and fuel for 200 loop tests. -/
def sampleWorld : World := { be := sampleBackend, sched := fun _ => false, fuel := 200 }

/-- A life cycle: a registration for `sampleOutpoint`, a block connect, the
confirmed spend, a late cancellation, and the client's read. -/
def sampleEvents : List Event :=
  [ Event.RegisterSpendNtfn sampleWorld sampleOutpoint,
    Event.dispatch sampleWorld (Msg.BlockConnected 1101 101),
    Event.dispatch sampleWorld
      (Msg.RelevantTx { TxRecord := sampleTxRecord, Block := some sampleBlockMeta }),
    Event.dispatch sampleWorld (Msg.spendCancel { op := sampleOutpoint, spendID := 1 }),
    Event.receive 0 ]

/-- The sample backend with a failing `NotifySpent`. -/
def downBackend : BitcoindClient :=
  { sampleBackend with NotifySpent := fun _ => some (.backend 1) }

/-- The sample backend with a transaction index that fails with a code other
than `ErrRPCNoTxInfo`. -/
def brokenIndexBackend : BitcoindClient :=
  { sampleBackend with GetRawTransactionVerbose := fun _ => .error (.rpc (-1)) }

/-- The sample backend with the block at height 101, of hash 1101, lost:
`GetBlock` fails for it. -/
def lostBlockBackend : BitcoindClient :=
  { sampleBackend with
    GetBlock := fun hash =>
      if hash = 1101 then .error (.backend 2) else sampleBackend.GetBlock hash }

/-- A backend whose best block, of hash 1 and without transactions, is at
height 2^31 - 1, the top of the `int32` range, and which also answers for
height -2^31 with a block, of hash 2, that holds `sampleSpendingTx`. -/
def topBackend : BitcoindClient :=
  { NotifySpent := fun _ => none,
    GetTxOut := fun _ _ _ => .ok none,
    GetRawTransactionVerbose := fun _ => .error (.rpc ErrRPCNoTxInfo),
    GetBlockHash := fun h =>
      if h = 2147483647 then .ok 1
      else if h = -2147483648 then .ok 2
      else .error (.rpc (-8)),
    GetBlockHeight := fun hash =>
      if hash = 1 then .ok 2147483647 else .error (.rpc (-5)),
    GetBestBlock := .ok (1, 2147483647),
    GetBlock := fun hash =>
      if hash = 1 then .ok { Header := { Timestamp := 0, hash := 1 }, Transactions := [] }
      else if hash = 2 then
        .ok { Header := { Timestamp := 0, hash := 2 }, Transactions := [sampleSpendingTx] }
      else .error (.rpc (-5)),
    GetBlockVerbose := fun _ => .error (.rpc (-5)) }

/-- The dispatcher holding `sampleNotifier` at best height 100. -/
def sampleDispatcher : Dispatcher Nat := { b := sampleNotifier, bestHeight := 100 }

/-- The state `sampleDispatcher` reaches by connecting the block at height
101: the tracker has seen one `ConnectTip`, the spend fields are as before. -/
def sampleConnected : Dispatcher Nat :=
  { b := { sampleNotifier with
           txConfNotifier := 1,
           calls := [Call.ConnectTip 1101 101 [sampleSpendingTx]] },
    bestHeight := 101 }

/-- The sample notifier with one live epoch client, of id 7. -/
def epochNotifier : BitcoindNotifier Nat :=
  { sampleNotifier with
    blockEpochClients :=
      [(7, { epochID := 7, epochQueue := { received := [], stopped := false },
             cancelClosed := false, epochClosed := false })] }

/-- A reorganisation: blocks 101 and 102 are connected, both are
disconnected, and a block at height 101 is connected again. -/
def reorgEvents : List (World × Msg) :=
  [ (sampleWorld, Msg.BlockConnected 1101 101),
    (sampleWorld, Msg.BlockConnected 1102 102),
    (sampleWorld, Msg.BlockDisconnected 1102 102),
    (sampleWorld, Msg.BlockDisconnected 1101 101),
    (sampleWorld, Msg.BlockConnected 1101 101) ]

/-- Two connects in a row, with the relevant transaction of the first block
in between. -/
def connectEvents : List (World × Msg) :=
  [ (sampleWorld, Msg.BlockConnected 1101 101),
    (sampleWorld, Msg.RelevantTx { TxRecord := sampleTxRecord, Block := some sampleBlockMeta }),
    (sampleWorld, Msg.BlockConnected 1102 102) ]

/-- The sample world with every select preferring a ready receive case. -/
def skippingWorld : World := { sampleWorld with sched := fun _ => true }

/-- The sample text form of hashes, with the text "b101" parsed as the hash
1101 of the sample block at height 101. -/
def indexLib : Chainhash :=
  { HashString := sampleLib.HashString,
    NewHashFromStr := fun s => if s = "b101" then .ok 1101 else sampleLib.NewHashFromStr s }

/-- The sample backend with a transaction index: transactions 42 and 40 are
reported in the block of text "b101" (the block lists 42, not 40),
transaction 41 is known without a containing block, any other is unknown. -/
def indexedBackend : BitcoindClient :=
  { sampleBackend with
    GetRawTransactionVerbose := fun txid =>
      if txid = 42 ∨ txid = 40 then .ok (some { BlockHash := "b101" })
      else if txid = 41 then .ok (some { BlockHash := "" })
      else .error (.rpc ErrRPCNoTxInfo) }

/-- A spend subscription for `sampleOutpoint` is registered on the fresh
notifier, then its `Cancel` is called twice. -/
def doubleCancelEvents : List Event :=
  [ Event.RegisterSpendNtfn sampleWorld sampleOutpoint,
    Event.dispatch sampleWorld (Msg.spendCancel { op := sampleOutpoint, spendID := 1 }),
    Event.dispatch sampleWorld (Msg.spendCancel { op := sampleOutpoint, spendID := 1 }) ]

/-- The dispatcher of the fresh notifier after a caller of
`RegisterBlockEpochNtfn` made its registration, of epoch id 1. -/
def epochCaller : Dispatcher Nat :=
  { b := (newBlockEpochRegistration (BitcoindNotifier.new 0)).1, bestHeight := 100 }

/-- The registration of `epochCaller` is handed to the dispatcher, then its
`Cancel` is called twice. -/
def doubleEpochCancelEvents : List (World × Msg) :=
  [ (sampleWorld, Msg.blockEpochRegistration
      (newBlockEpochRegistration (BitcoindNotifier.new 0 : BitcoindNotifier Nat)).2),
    (sampleWorld, Msg.epochCancel { epochID := 1 }),
    (sampleWorld, Msg.epochCancel { epochID := 1 }) ]

/-- A tracker bookkeeping that records nothing. -/
def unitBook : TrackerBook Unit :=
  { register := fun _ _ _ _ => (), connect := fun _ _ _ _ => (), disconnect := fun _ _ => () }

/-- The dispatcher state with best height 100, the tracker's current height
100 and the live epoch client 7. -/
def trackedDispatcher : Dispatcher (Tracker Unit) :=
  { b := { spendClientCounter := 1, epochClientCounter := 0,
           spendNotifications := [(sampleOutpoint, [(1, sampleNtfn)])],
           txConfNotifier := { currentHeight := 100, book := () },
           blockEpochClients :=
             [(7, { epochID := 7, epochQueue := { received := [], stopped := false },
                    cancelClosed := false, epochClosed := false })],
           quit := false, spendChans := [SpendChan.make], calls := [], retired := [] },
    bestHeight := 100 }

/-- The block at height 101, of hash 9101, cannot be fetched; it is
disconnected again, and the block of hash 1101 is connected at height 101
and fetched. -/
def orphanEvents : List (World × Msg) :=
  [ (sampleWorld, Msg.BlockConnected 9101 101),
    (sampleWorld, Msg.BlockDisconnected 9101 101),
    (sampleWorld, Msg.BlockConnected 1101 101) ]

/-- The block at height 101 cannot be fetched, a stale disconnect and a
relevant transaction arrive, and the block at height 102 cannot be fetched
either. -/
def quietSample : List (World × Msg) :=
  [ (sampleWorld, Msg.BlockDisconnected 1100 100),
    (sampleWorld, Msg.RelevantTx { TxRecord := sampleTxRecord, Block := none }),
    (sampleWorld, Msg.BlockConnected 9102 102) ]

/-- After the block at height 101 could not be fetched: a confirmation
subscription and an epoch subscription are registered, a spend subscription
is cancelled, a stale disconnect arrives, and the block at height 102 cannot
be fetched either. -/
def busySample : List (World × Msg) :=
  [ (sampleWorld, Msg.confirmationNotification
      { ConfNtfn := { TxID := 42, NumConfirmations := 3 }, heightHint := 100 }),
    (sampleWorld, Msg.blockEpochRegistration
      { epochID := 8, epochQueue := { received := [], stopped := false },
        cancelClosed := false, epochClosed := false }),
    (sampleWorld, Msg.spendCancel { op := sampleOutpoint, spendID := 1 }),
    (sampleWorld, Msg.BlockDisconnected 1100 100),
    (sampleWorld, Msg.BlockConnected 9102 102) ]

/-! # Theorems -/

/-! ## Go maps -/

theorem GoMap.get_eq_none_iff {κ ν : Type} [DecidableEq κ] (m : GoMap κ ν) (k : κ) :
    GoMap.get m k = none ↔ ∀ e ∈ m, e.1 ≠ k := by
  induction m with
  | nil => simp [GoMap.get]
  | cons e m ih =>
    obtain ⟨k1, v⟩ := e
    by_cases h : k1 = k
    · simp [GoMap.get, h]
    · simp [GoMap.get, h, ih]

theorem GoMap.mem_of_get {κ ν : Type} [DecidableEq κ] (m : GoMap κ ν) (k : κ) (v : ν)
    (h : GoMap.get m k = some v) : (k, v) ∈ m := by
  induction m with
  | nil => simp [GoMap.get] at h
  | cons e m ih =>
    obtain ⟨k1, v1⟩ := e
    by_cases hk : k1 = k
    · simp [GoMap.get, hk] at h
      simp [hk, h]
    · simp [GoMap.get, hk] at h
      exact List.mem_cons_of_mem _ (ih h)

theorem GoMap.get_of_mem {κ ν : Type} [DecidableEq κ] (m : GoMap κ ν) (k : κ) (v : ν)
    (hwf : GoMap.WF m) (h : (k, v) ∈ m) : GoMap.get m k = some v := by
  induction m with
  | nil => simp at h
  | cons e m ih =>
    obtain ⟨k1, v1⟩ := e
    simp only [GoMap.WF, List.map_cons, List.nodup_cons] at hwf
    rcases List.mem_cons.mp h with heq | hmem
    · cases heq
      simp [GoMap.get]
    · have hne : k1 ≠ k := by
        intro hk
        apply hwf.1
        rw [hk]
        exact List.mem_map_of_mem Prod.fst hmem
      simp [GoMap.get, hne]
      exact ih hwf.2 hmem

theorem GoMap.mem_delete {κ ν : Type} [DecidableEq κ] (m : GoMap κ ν) (k : κ)
    (e : κ × ν) : e ∈ GoMap.delete m k ↔ e ∈ m ∧ e.1 ≠ k := by
  simp [GoMap.delete]

theorem GoMap.get_delete_self {κ ν : Type} [DecidableEq κ] (m : GoMap κ ν) (k : κ) :
    GoMap.get (GoMap.delete m k) k = none := by
  rw [GoMap.get_eq_none_iff]
  intro e he
  exact ((GoMap.mem_delete m k e).mp he).2

theorem GoMap.delete_cons {κ ν : Type} [DecidableEq κ] (m : GoMap κ ν) (k k2 : κ) (v : ν) :
    GoMap.delete ((k2, v) :: m) k =
      if k2 = k then GoMap.delete m k else (k2, v) :: GoMap.delete m k := by
  by_cases h : k2 = k
  · simp [GoMap.delete, List.filter_cons, h]
  · simp [GoMap.delete, List.filter_cons, h]

theorem GoMap.get_delete_ne {κ ν : Type} [DecidableEq κ] (m : GoMap κ ν) (k k1 : κ)
    (hne : k1 ≠ k) : GoMap.get (GoMap.delete m k) k1 = GoMap.get m k1 := by
  induction m with
  | nil => simp [GoMap.delete, GoMap.get]
  | cons e m ih =>
    obtain ⟨k2, v⟩ := e
    rw [GoMap.delete_cons]
    by_cases h2 : k2 = k
    · have h3 : k2 ≠ k1 := by rw [h2]; exact fun h => hne h.symm
      rw [if_pos h2, ih]
      simp [GoMap.get, h3]
    · rw [if_neg h2]
      by_cases h3 : k2 = k1
      · simp [GoMap.get, h3]
      · simp [GoMap.get, h3, ih]

theorem GoMap.delete_of_get_none {κ ν : Type} [DecidableEq κ] (m : GoMap κ ν) (k : κ)
    (h : GoMap.get m k = none) : GoMap.delete m k = m := by
  rw [GoMap.get_eq_none_iff] at h
  simp only [GoMap.delete]
  rw [List.filter_eq_self]
  intro e he
  simpa using h e he

theorem GoMap.WF_delete {κ ν : Type} [DecidableEq κ] (m : GoMap κ ν) (k : κ)
    (hwf : GoMap.WF m) : GoMap.WF (GoMap.delete m k) := by
  unfold GoMap.WF GoMap.delete
  exact List.Nodup.sublist (List.Sublist.map _ (List.filter_sublist m)) hwf

theorem GoMap.WF_set {κ ν : Type} [DecidableEq κ] (m : GoMap κ ν) (k : κ) (v : ν)
    (hwf : GoMap.WF m) : GoMap.WF (GoMap.set m k v) := by
  unfold GoMap.set
  simp only [GoMap.WF, List.map_cons, List.nodup_cons]
  refine ⟨?_, GoMap.WF_delete m k hwf⟩
  intro hmem
  obtain ⟨e, he, hk⟩ := List.mem_map.mp hmem
  exact ((GoMap.mem_delete m k e).mp he).2 hk

theorem GoMap.get_set_self {κ ν : Type} [DecidableEq κ] (m : GoMap κ ν) (k : κ) (v : ν) :
    GoMap.get (GoMap.set m k v) k = some v := by
  simp [GoMap.set, GoMap.get]

theorem GoMap.get_set_ne {κ ν : Type} [DecidableEq κ] (m : GoMap κ ν) (k k1 : κ) (v : ν)
    (hne : k1 ≠ k) : GoMap.get (GoMap.set m k v) k1 = GoMap.get m k1 := by
  have : k ≠ k1 := fun h => hne h.symm
  simp [GoMap.set, GoMap.get, this, GoMap.get_delete_ne m k k1 hne]

theorem GoMap.mem_set {κ ν : Type} [DecidableEq κ] (m : GoMap κ ν) (k : κ) (v : ν)
    (e : κ × ν) : e ∈ GoMap.set m k v ↔ e = (k, v) ∨ (e ∈ m ∧ e.1 ≠ k) := by
  simp [GoMap.set, GoMap.mem_delete]

/-! ## Spend channels -/

theorem chanSend_make (chans : List SpendChan) (c : Nat) (d : SpendDetail)
    (h : chans[c]? = some SpendChan.make) :
    chanSend chans c d =
      .ok (chans.set c { buf := [d], closed := false, written := 1 }) := by
  simp [chanSend, h, SpendChan.make, spendChanCap]

theorem chanClose_open (chans : List SpendChan) (c : Nat) (ch : SpendChan)
    (h : chans[c]? = some ch) (hopen : ch.closed = false) :
    chanClose chans c = .ok (chans.set c { ch with closed := true }) := by
  simp [chanClose, h, hopen]

theorem dispatchSpend_spec (d : SpendDetail) (clients : List (Nat × spendNotification)) :
    ∀ chans : List SpendChan,
      (∀ x ∈ clients, chans[x.2.spendChan]? = some SpendChan.make) →
      (clients.map fun x => x.2.spendChan).Nodup →
      ∃ chans1, dispatchSpend d clients chans = .ok chans1 ∧
        chans1.length = chans.length ∧
        ∀ c : Nat, chans1[c]? =
          if c ∈ clients.map (fun x => x.2.spendChan) then some (SpendChan.dispatched d)
          else chans[c]? := by
  induction clients with
  | nil => intro chans _ _; exact ⟨chans, rfl, rfl, by simp⟩
  | cons x rest ih =>
    intro chans hfresh hnd
    obtain ⟨id, ntfn⟩ := x
    simp only [List.map_cons, List.nodup_cons] at hnd
    have h0 : chans[ntfn.spendChan]? = some SpendChan.make :=
      hfresh (id, ntfn) (List.mem_cons_self _ _)
    have hlt : ntfn.spendChan < chans.length := by
      rcases List.getElem?_eq_some.mp h0 with ⟨h, _⟩
      exact h
    have hsend := chanSend_make chans ntfn.spendChan d h0
    have hclose := chanClose_open
      (chans.set ntfn.spendChan { buf := [d], closed := false, written := 1 })
      ntfn.spendChan { buf := [d], closed := false, written := 1 }
      (by simp [hlt]) rfl
    simp only [List.set_set] at hclose
    have hrest : ∀ y ∈ rest,
        (chans.set ntfn.spendChan (SpendChan.dispatched d))[y.2.spendChan]? =
          some SpendChan.make := by
      intro y hy
      have hne : ntfn.spendChan ≠ y.2.spendChan := by
        intro heq
        apply hnd.1
        rw [heq]
        exact List.mem_map_of_mem (fun x => x.2.spendChan) hy
      rw [List.getElem?_set_ne hne]
      exact hfresh y (List.mem_cons_of_mem _ hy)
    obtain ⟨chans1, hrun, hlen, hget⟩ := ih _ hrest hnd.2
    refine ⟨chans1, ?_, ?_, ?_⟩
    · simp only [dispatchSpend, hsend, Outcome.bind, hclose]
      exact hrun
    · simpa using hlen
    · intro c
      rw [hget c]
      by_cases hc : c ∈ rest.map fun x => x.2.spendChan
      · simp [hc]
      · by_cases hc0 : c = ntfn.spendChan
        · subst hc0
          simp [hc, hlt]
        · have : ntfn.spendChan ≠ c := fun h => hc0 h.symm
          simp [hc, hc0, List.getElem?_set_ne this]

/-! ## The invariant of the spend index -/

theorem GoMap.WF_unique {κ ν : Type} [DecidableEq κ] (m : GoMap κ ν) (hwf : GoMap.WF m)
    (x y : κ × ν) (hx : x ∈ m) (hy : y ∈ m) (hk : x.1 = y.1) : x = y := by
  obtain ⟨k, v⟩ := x
  obtain ⟨k1, v1⟩ := y
  simp only at hk
  subst hk
  have h1 := GoMap.get_of_mem m k v hwf hx
  have h2 := GoMap.get_of_mem m k v1 hwf hy
  rw [h1] at h2
  cases h2
  rfl

theorem SpendInv.clients_nodup {τ : Type} {b : BitcoindNotifier τ} (hinv : SpendInv b)
    (e : OutPoint × GoMap Nat spendNotification) (he : e ∈ b.spendNotifications) :
    (e.2.map fun x => x.2.spendChan).Nodup := by
  have hwf := hinv.innerWF e he
  apply List.Nodup.map_on
  · intro x hx y hy hxy
    exact GoMap.WF_unique e.2 hwf x y hx hy (hinv.distinct e he x hx e he y hy hxy).2
  · exact List.Nodup.of_map _ hwf

theorem SpendInv.dispatch {τ : Type} {b : BitcoindNotifier τ} (hinv : SpendInv b)
    (prevOut : OutPoint) (clients : GoMap Nat spendNotification) (d : SpendDetail)
    (hget : b.spendNotifications.get prevOut = some clients)
    (chans1 : List SpendChan)
    (hch : ∀ c : Nat, chans1[c]? =
      if c ∈ clients.map (fun x => x.2.spendChan) then some (SpendChan.dispatched d)
      else b.spendChans[c]?) :
    SpendInv { b with spendChans := chans1,
                      spendNotifications := b.spendNotifications.delete prevOut } := by
  have hmem := GoMap.mem_of_get _ _ _ hget
  constructor
  · exact GoMap.WF_delete _ _ hinv.outerWF
  · intro e he
    exact hinv.innerWF e ((GoMap.mem_delete _ _ _).mp he).1
  · intro e he x hx
    obtain ⟨he1, hne⟩ := (GoMap.mem_delete _ _ _).mp he
    show chans1[x.2.spendChan]? = _
    rw [hch]
    have hnot : x.2.spendChan ∉ clients.map (fun x => x.2.spendChan) := by
      intro hin
      obtain ⟨y, hy, hyx⟩ := List.mem_map.mp hin
      exact hne (hinv.distinct e he1 x hx (prevOut, clients) hmem y hy hyx.symm).1
    rw [if_neg hnot]
    exact hinv.fresh e he1 x hx
  · intro e he x hx e1 he1 x1 hx1 heq
    exact hinv.distinct e ((GoMap.mem_delete _ _ _).mp he).1 x hx e1
      ((GoMap.mem_delete _ _ _).mp he1).1 x1 hx1 heq
  · intro c ch hc
    have hc1 : chans1[c]? = some ch := hc
    rw [hch] at hc1
    by_cases hin : c ∈ clients.map (fun x => x.2.spendChan)
    · rw [if_pos hin] at hc1
      cases hc1
      simp [SpendChan.dispatched]
    · rw [if_neg hin] at hc1
      exact hinv.once c ch hc1

/-! ## handleRelevantTx -/

theorem handleRelevantTxLoop_spec {τ : Type} (msgTx : MsgTx) (height : Int)
    (ins : List TxIn) :
    ∀ (k : Nat) (b : BitcoindNotifier τ), SpendInv b →
      ∃ b1, handleRelevantTxLoop msgTx height ins k b = .ok b1 ∧
        SpendInv b1 ∧
        b1 = { b with
                spendChans := b1.spendChans,
                spendNotifications :=
                  ins.foldl (fun m txIn => GoMap.delete m txIn.PreviousOutPoint)
                    b.spendNotifications } ∧
        b1.spendChans.length = b.spendChans.length ∧
        (∀ c : Nat,
          (∀ e ∈ b.spendNotifications, ∀ x ∈ e.2, x.2.spendChan = c →
            ∀ txIn ∈ ins, txIn.PreviousOutPoint ≠ e.1) →
          b1.spendChans[c]? = b.spendChans[c]?) ∧
        (∀ (i : Nat) (txIn : TxIn) (clients : GoMap Nat spendNotification),
          ins[i]? = some txIn →
          b.spendNotifications.get txIn.PreviousOutPoint = some clients →
          (∀ (j : Nat) (t : TxIn), j < i → ins[j]? = some t →
            t.PreviousOutPoint ≠ txIn.PreviousOutPoint) →
          ∀ x ∈ clients, b1.spendChans[x.2.spendChan]? =
            some (SpendChan.dispatched
              (spendDetailOf msgTx height txIn.PreviousOutPoint (wrapUint32 (k + i))))) := by
  induction ins with
  | nil =>
    intro k b hinv
    refine ⟨b, rfl, hinv, rfl, rfl, fun _ _ => rfl, ?_⟩
    intro i txIn clients hi
    simp at hi
  | cons txIn rest ih =>
    intro k b hinv
    cases hget : b.spendNotifications.get txIn.PreviousOutPoint with
    | none =>
      obtain ⟨b1, hrun, hinv1, heq, hlen, hframe, hdisp⟩ := ih (k + 1) b hinv
      refine ⟨b1, ?_, hinv1, ?_, hlen, ?_, ?_⟩
      · simp only [handleRelevantTxLoop, hget]
        exact hrun
      · rw [List.foldl_cons, GoMap.delete_of_get_none _ _ hget]
        exact heq
      · intro c hc
        apply hframe c
        intro e he x hx hxc t ht
        exact hc e he x hx hxc t (List.mem_cons_of_mem _ ht)
      · intro i t clients hi hg hfirst
        cases i with
        | zero =>
          simp only [List.getElem?_cons_zero, Option.some.injEq] at hi
          subst hi
          rw [hget] at hg
          cases hg
        | succ i =>
          simp only [List.getElem?_cons_succ] at hi
          have := hdisp i t clients hi hg (fun j t1 hj ht1 =>
            hfirst (j + 1) t1 (by omega) (by simpa using ht1))
          have harith : k + 1 + i = k + (i + 1) := by omega
          rw [harith] at this
          exact this
    | some clients =>
      have hmem := GoMap.mem_of_get _ _ _ hget
      obtain ⟨chans1, hsend, hlen1, hch⟩ :=
        dispatchSpend_spec
          { SpentOutPoint := txIn.PreviousOutPoint, SpenderTxHash := msgTx.TxHash,
            SpendingTx := msgTx, SpenderInputIndex := wrapUint32 k,
            SpendingHeight := height }
          clients b.spendChans
          (fun x hx => hinv.fresh _ hmem x hx)
          (hinv.clients_nodup _ hmem)
      have hinv2 := hinv.dispatch txIn.PreviousOutPoint clients _ hget chans1 hch
      obtain ⟨b1, hrun, hinv1, heq, hlen, hframe, hdisp⟩ := ih (k + 1) _ hinv2
      refine ⟨b1, ?_, hinv1, ?_, ?_, ?_, ?_⟩
      · simp only [handleRelevantTxLoop, hget, hsend, Outcome.bind]
        exact hrun
      · rw [List.foldl_cons]
        exact heq
      · rw [hlen]
        exact hlen1
      · intro c hc
        have hnot : c ∉ clients.map (fun x => x.2.spendChan) := by
          intro hin
          obtain ⟨y, hy, hyc⟩ := List.mem_map.mp hin
          exact hc _ hmem y hy hyc txIn (List.mem_cons_self _ _) rfl
        rw [hframe c]
        · show chans1[c]? = _
          rw [hch c, if_neg hnot]
        · intro e he x hx hxc t ht
          exact hc e ((GoMap.mem_delete _ _ _).mp he).1 x hx hxc t
            (List.mem_cons_of_mem _ ht)
      · intro i t clients1 hi hg hfirst
        cases i with
        | zero =>
          simp only [List.getElem?_cons_zero, Option.some.injEq] at hi
          subst hi
          rw [hget] at hg
          cases hg
          intro x hx
          rw [hframe x.2.spendChan]
          · show chans1[x.2.spendChan]? = _
            rw [hch, if_pos (List.mem_map_of_mem (fun x => x.2.spendChan) hx)]
            rfl
          · intro e he y hy hyx
            obtain ⟨he1, hne⟩ := (GoMap.mem_delete _ _ _).mp he
            exact absurd (hinv.distinct e he1 y hy _ hmem x hx hyx).1 hne
        | succ i =>
          simp only [List.getElem?_cons_succ] at hi
          have hne : t.PreviousOutPoint ≠ txIn.PreviousOutPoint := fun h =>
            hfirst 0 txIn (by omega) (by simp) h.symm
          have hg2 : GoMap.get (GoMap.delete b.spendNotifications txIn.PreviousOutPoint)
              t.PreviousOutPoint = some clients1 := by
            rw [GoMap.get_delete_ne _ _ _ hne]
            exact hg
          have := hdisp i t clients1 hi hg2 (fun j t1 hj ht1 =>
            hfirst (j + 1) t1 (by omega) (by simpa using ht1))
          have harith : k + 1 + i = k + (i + 1) := by omega
          rw [harith] at this
          exact this

theorem GoMap.get_foldl_delete {ν : Type} (ins : List TxIn) :
    ∀ (m : GoMap OutPoint ν) (op : OutPoint),
      GoMap.get (ins.foldl (fun m txIn => GoMap.delete m txIn.PreviousOutPoint) m) op =
        if op ∈ ins.map (fun txIn => txIn.PreviousOutPoint) then none else GoMap.get m op := by
  induction ins with
  | nil => intro m op; simp
  | cons txIn rest ih =>
    intro m op
    rw [List.foldl_cons, ih]
    by_cases h1 : op ∈ rest.map (fun txIn => txIn.PreviousOutPoint)
    · simp [h1]
    · by_cases h2 : op = txIn.PreviousOutPoint
      · subst h2
        simp [GoMap.get_delete_self]
      · simp [h1, h2, GoMap.get_delete_ne _ _ _ h2]

theorem SpendInv.of_lists {τ : Type} (b : BitcoindNotifier τ)
    (h1 : GoMap.WF b.spendNotifications)
    (h2 : ∀ e ∈ b.spendNotifications, GoMap.WF e.2)
    (h3 : ∀ e ∈ b.spendNotifications, ∀ x ∈ e.2,
      b.spendChans[x.2.spendChan]? = some SpendChan.make)
    (h4 : ∀ e ∈ b.spendNotifications, ∀ x ∈ e.2,
      ∀ e1 ∈ b.spendNotifications, ∀ x1 ∈ e1.2,
        x.2.spendChan = x1.2.spendChan → e.1 = e1.1 ∧ x.1 = x1.1)
    (h5 : ∀ ch ∈ b.spendChans, ch.written ≤ 1) : SpendInv b :=
  ⟨h1, h2, h3, h4, fun _ ch hc => h5 ch (List.getElem?_mem hc)⟩

theorem sampleNotifier_inv : SpendInv sampleNotifier :=
  SpendInv.of_lists sampleNotifier (by decide) (by decide) (by decide) (by decide)
    (by decide)

/-! ## Mempool transactions -/

/-- C1: a relevant transaction without a containing block (a mempool
transaction) is ignored. For every notifier state and every transaction
record, `handleRelevantTx` completes with the notifier unchanged, so no
spend channel is written or closed and the spend index is the same, whatever
outpoints the inputs spend; the dispatcher step on such a transaction, from
either inbox, leaves the dispatcher state unchanged. -/
theorem handleRelevantTx_mempool_ignored {τ : Type} (ops : TxConfNotifier τ)
    (lib : Chainhash) (w : World) (s : Dispatcher τ) (txRecord : TxRecord) :
    handleRelevantTx s.b { TxRecord := txRecord, Block := none } s.bestHeight = .ok s.b ∧
    notificationDispatcherStep ops lib w s
      (Msg.RelevantTx { TxRecord := txRecord, Block := none }) = .ok s ∧
    notificationDispatcherStep ops lib w s
      (Msg.registryRelevantTx { TxRecord := txRecord, Block := none }) = .ok s := by
  refine ⟨rfl, ?_, ?_⟩ <;> simp [notificationDispatcherStep, handleRelevantTx, Outcome.bind]

/-! ## Confirmed spends -/

/-- C2: dispatch of a confirmed spend. For a notifier state satisfying the
spend-index invariant and a relevant transaction with a containing block
(with at most 2^32 inputs, so that the input index fits `uint32`),
`handleRelevantTx` completes, and for each input at index `i` whose previous
outpoint has a subscription set when the loop reaches it (a set is stored
under it and no earlier input spends the same outpoint): every subscriber's
channel holds exactly one `SpendDetail`, with the outpoint, the hash of the
transaction, input index `i` and the block's height, and is closed; and the
outpoint is no longer in the index. Entries for outpoints that no input
spends are unchanged. -/
theorem handleRelevantTx_confirmed_spend {τ : Type} (b : BitcoindNotifier τ)
    (txRecord : TxRecord) (block : BlockMeta) (bestHeight : Int)
    (hinv : SpendInv b) (hlen : txRecord.MsgTx.TxIn.length ≤ 4294967296) :
    ∃ b1, handleRelevantTx b { TxRecord := txRecord, Block := some block } bestHeight
        = .ok b1 ∧
      (∀ (i : Nat) (txIn : TxIn) (clients : GoMap Nat spendNotification),
        txRecord.MsgTx.TxIn[i]? = some txIn →
        b.spendNotifications.get txIn.PreviousOutPoint = some clients →
        (∀ (j : Nat) (t : TxIn), j < i → txRecord.MsgTx.TxIn[j]? = some t →
          t.PreviousOutPoint ≠ txIn.PreviousOutPoint) →
        (∀ x ∈ clients,
          b.spendChans[x.2.spendChan]? = some SpendChan.make ∧
          b1.spendChans[x.2.spendChan]? =
            some { buf := [{ SpentOutPoint := txIn.PreviousOutPoint,
                             SpenderTxHash := txRecord.MsgTx.TxHash,
                             SpendingTx := txRecord.MsgTx,
                             SpenderInputIndex := i,
                             SpendingHeight := block.Height }],
                   closed := true, written := 1 }) ∧
        b1.spendNotifications.get txIn.PreviousOutPoint = none) ∧
      (∀ op : OutPoint,
        (∀ txIn ∈ txRecord.MsgTx.TxIn, txIn.PreviousOutPoint ≠ op) →
        b1.spendNotifications.get op = b.spendNotifications.get op) := by
  obtain ⟨b1, hrun, _, heq, _, _, hdisp⟩ :=
    handleRelevantTxLoop_spec txRecord.MsgTx block.Height txRecord.MsgTx.TxIn 0 b hinv
  have hidx : b1.spendNotifications =
      txRecord.MsgTx.TxIn.foldl (fun m txIn => GoMap.delete m txIn.PreviousOutPoint)
        b.spendNotifications := by
    rw [heq]
  refine ⟨b1, hrun, ?_, ?_⟩
  · intro i txIn clients hi hg hfirst
    have hilt : i < txRecord.MsgTx.TxIn.length := by
      rcases List.getElem?_eq_some.mp hi with ⟨h, _⟩
      exact h
    refine ⟨?_, ?_⟩
    · intro x hx
      refine ⟨hinv.fresh _ (GoMap.mem_of_get _ _ _ hg) x hx, ?_⟩
      have := hdisp i txIn clients hi hg hfirst x hx
      rw [this]
      have hw : wrapUint32 (0 + i) = i := by
        unfold wrapUint32
        omega
      rw [hw]
      rfl
    · rw [hidx, GoMap.get_foldl_delete]
      have : txIn.PreviousOutPoint ∈
          txRecord.MsgTx.TxIn.map (fun txIn => txIn.PreviousOutPoint) :=
        List.mem_map_of_mem _ (List.getElem?_mem hi)
      rw [if_pos this]
  · intro op hop
    rw [hidx, GoMap.get_foldl_delete]
    have : op ∉ txRecord.MsgTx.TxIn.map (fun txIn => txIn.PreviousOutPoint) := by
      intro hin
      obtain ⟨t, ht, hto⟩ := List.mem_map.mp hin
      exact hop t ht hto
    rw [if_neg this]

theorem handleRelevantTx_confirmed_spend_witness :
    SpendInv sampleNotifier ∧ sampleTxRecord.MsgTx.TxIn.length ≤ 4294967296 ∧
    ∃ b1, handleRelevantTx sampleNotifier
        { TxRecord := sampleTxRecord, Block := some sampleBlockMeta } 100 = .ok b1 ∧
      (∀ (i : Nat) (txIn : TxIn) (clients : GoMap Nat spendNotification),
        sampleTxRecord.MsgTx.TxIn[i]? = some txIn →
        sampleNotifier.spendNotifications.get txIn.PreviousOutPoint = some clients →
        (∀ (j : Nat) (t : TxIn), j < i → sampleTxRecord.MsgTx.TxIn[j]? = some t →
          t.PreviousOutPoint ≠ txIn.PreviousOutPoint) →
        (∀ x ∈ clients,
          sampleNotifier.spendChans[x.2.spendChan]? = some SpendChan.make ∧
          b1.spendChans[x.2.spendChan]? =
            some { buf := [{ SpentOutPoint := txIn.PreviousOutPoint,
                             SpenderTxHash := sampleTxRecord.MsgTx.TxHash,
                             SpendingTx := sampleTxRecord.MsgTx,
                             SpenderInputIndex := i,
                             SpendingHeight := sampleBlockMeta.Height }],
                   closed := true, written := 1 }) ∧
        b1.spendNotifications.get txIn.PreviousOutPoint = none) ∧
      (∀ op : OutPoint,
        (∀ txIn ∈ sampleTxRecord.MsgTx.TxIn, txIn.PreviousOutPoint ≠ op) →
        b1.spendNotifications.get op = sampleNotifier.spendNotifications.get op) :=
  ⟨sampleNotifier_inv, by decide,
   handleRelevantTx_confirmed_spend sampleNotifier sampleTxRecord sampleBlockMeta 100
     sampleNotifier_inv (by decide)⟩

/-! ## Spend uniqueness -/

theorem SpendInv.congr {τ : Type} {b b1 : BitcoindNotifier τ} (hinv : SpendInv b)
    (h1 : b1.spendNotifications = b.spendNotifications)
    (h2 : b1.spendChans = b.spendChans) : SpendInv b1 := by
  constructor
  · rw [h1]; exact hinv.outerWF
  · rw [h1]; exact hinv.innerWF
  · rw [h1, h2]; exact hinv.fresh
  · rw [h1]; exact hinv.distinct
  · rw [h2]; exact hinv.once

theorem SpendInv.register {τ : Type} {b : BitcoindNotifier τ} (hinv : SpendInv b)
    (op : OutPoint) (id hint : Nat) (calls : List Call) (counter : Nat) :
    SpendInv { b with
      spendClientCounter := counter,
      spendChans := b.spendChans ++ [SpendChan.make],
      spendNotifications := b.spendNotifications.set op
        (GoMap.set (match b.spendNotifications.get op with
                    | some clients => clients
                    | none => []) id
          { targetOutpoint := op, spendChan := b.spendChans.length, spendID := id,
            heightHint := hint }),
      calls := calls } := by
  generalize hcl : (match b.spendNotifications.get op with
                    | some clients => clients
                    | none => []) = clients
  have hclients : GoMap.WF clients ∧ ∀ x ∈ clients, (op, clients) ∈ b.spendNotifications := by
    cases hget : b.spendNotifications.get op with
    | none =>
      rw [hget] at hcl
      subst hcl
      exact ⟨by simp [GoMap.WF], by simp⟩
    | some cl =>
      rw [hget] at hcl
      subst hcl
      have hm := GoMap.mem_of_get _ _ _ hget
      exact ⟨hinv.innerWF _ hm, fun _ _ => hm⟩
  have hlt : ∀ e ∈ b.spendNotifications, ∀ x ∈ e.2, x.2.spendChan < b.spendChans.length := by
    intro e he x hx
    rcases List.getElem?_eq_some.mp (hinv.fresh e he x hx) with ⟨h, _⟩
    exact h
  have hsrc : ∀ e ∈ b.spendNotifications.set op (GoMap.set clients id
        { targetOutpoint := op, spendChan := b.spendChans.length, spendID := id,
          heightHint := hint }), ∀ x ∈ e.2,
      (e.1 = op ∧ x.1 = id ∧ x.2.spendChan = b.spendChans.length) ∨
      (∃ e0 ∈ b.spendNotifications, e0.1 = e.1 ∧ x ∈ e0.2) := by
    intro e he x hx
    rcases (GoMap.mem_set _ _ _ _).mp he with heq | ⟨hold, _⟩
    · subst heq
      rcases (GoMap.mem_set _ _ _ _).mp hx with hxeq | ⟨hxold, _⟩
      · subst hxeq
        exact Or.inl ⟨rfl, rfl, rfl⟩
      · exact Or.inr ⟨(op, clients), hclients.2 x hxold, rfl, hxold⟩
    · exact Or.inr ⟨e, hold, rfl, hx⟩
  constructor
  · exact GoMap.WF_set _ _ _ hinv.outerWF
  · intro e he
    rcases (GoMap.mem_set _ _ _ _).mp he with heq | ⟨hold, _⟩
    · subst heq
      exact GoMap.WF_set _ _ _ hclients.1
    · exact hinv.innerWF e hold
  · intro e he x hx
    show (b.spendChans ++ [SpendChan.make])[x.2.spendChan]? = _
    rcases hsrc e he x hx with ⟨_, _, hc⟩ | ⟨e0, he0, _, hx0⟩
    · rw [hc]
      simp
    · rw [List.getElem?_append_left (hlt e0 he0 x hx0)]
      exact hinv.fresh e0 he0 x hx0
  · intro e he x hx e1 he1 x1 hx1 hxx
    rcases hsrc e he x hx with ⟨h1, h2, hc⟩ | ⟨e0, he0, hk0, hx0⟩
    · rcases hsrc e1 he1 x1 hx1 with ⟨h3, h4, _⟩ | ⟨e2, he2, _, hx2⟩
      · exact ⟨h1.trans h3.symm, h2.trans h4.symm⟩
      · have := hlt e2 he2 x1 hx2
        omega
    · rcases hsrc e1 he1 x1 hx1 with ⟨_, _, hc⟩ | ⟨e2, he2, hk2, hx2⟩
      · have := hlt e0 he0 x hx0
        omega
      · have := hinv.distinct e0 he0 x hx0 e2 he2 x1 hx2 hxx
        exact ⟨hk0 ▸ hk2 ▸ this.1, this.2⟩
  · intro c ch hc
    have hc1 : (b.spendChans ++ [SpendChan.make])[c]? = some ch := hc
    rcases List.mem_append.mp (List.getElem?_mem hc1) with hold | hnew
    · obtain ⟨n, hn⟩ := List.mem_iff_getElem?.mp hold
      exact hinv.once n ch hn
    · simp only [List.mem_singleton] at hnew
      subst hnew
      simp [SpendChan.make]

theorem SpendInv.cancel {τ : Type} {b : BitcoindNotifier τ} (hinv : SpendInv b)
    (op : OutPoint) (id : Nat) (clients : GoMap Nat spendNotification)
    (ntfn : spendNotification)
    (hget : b.spendNotifications.get op = some clients)
    (hid : clients.get id = some ntfn) :
    chanClose b.spendChans ntfn.spendChan =
      .ok (b.spendChans.set ntfn.spendChan { SpendChan.make with closed := true }) ∧
    SpendInv { b with
      spendChans := b.spendChans.set ntfn.spendChan { SpendChan.make with closed := true },
      spendNotifications := b.spendNotifications.set op (clients.delete id) } := by
  have hm := GoMap.mem_of_get _ _ _ hget
  have hx := GoMap.mem_of_get _ _ _ hid
  have hfresh := hinv.fresh _ hm _ hx
  have hsrc : ∀ e ∈ b.spendNotifications.set op (clients.delete id), ∀ x ∈ e.2,
      ∃ e0 ∈ b.spendNotifications, e0.1 = e.1 ∧ x ∈ e0.2 ∧ ¬ (e0.1 = op ∧ x.1 = id) := by
    intro e he x hx
    rcases (GoMap.mem_set _ _ _ _).mp he with heq | ⟨hold, hne⟩
    · subst heq
      obtain ⟨hx1, hx2⟩ := (GoMap.mem_delete _ _ _).mp hx
      exact ⟨(op, clients), hm, rfl, hx1, fun h => hx2 h.2⟩
    · exact ⟨e, hold, rfl, hx, fun h => hne h.1⟩
  refine ⟨chanClose_open _ _ _ hfresh rfl, ?_⟩
  constructor
  · exact GoMap.WF_set _ _ _ hinv.outerWF
  · intro e he
    rcases (GoMap.mem_set _ _ _ _).mp he with heq | ⟨hold, _⟩
    · subst heq
      exact GoMap.WF_delete _ _ (hinv.innerWF _ hm)
    · exact hinv.innerWF e hold
  · intro e he x hx1
    obtain ⟨e0, he0, _, hx0, hnot⟩ := hsrc e he x hx1
    have hne : ntfn.spendChan ≠ x.2.spendChan := by
      intro heq
      have := hinv.distinct e0 he0 x hx0 (op, clients) hm (id, ntfn) hx heq.symm
      exact hnot ⟨this.1, this.2⟩
    show (b.spendChans.set _ _)[x.2.spendChan]? = _
    rw [List.getElem?_set_ne hne]
    exact hinv.fresh e0 he0 x hx0
  · intro e he x hx1 e1 he1 x1 hx2 hxx
    obtain ⟨e0, he0, hk0, hx0, _⟩ := hsrc e he x hx1
    obtain ⟨e2, he2, hk2, hx3, _⟩ := hsrc e1 he1 x1 hx2
    have := hinv.distinct e0 he0 x hx0 e2 he2 x1 hx3 hxx
    exact ⟨hk0 ▸ hk2 ▸ this.1, this.2⟩
  · intro c ch hc
    have hc1 : (b.spendChans.set ntfn.spendChan
        { SpendChan.make with closed := true })[c]? = some ch := hc
    rw [List.getElem?_set] at hc1
    by_cases h : ntfn.spendChan = c
    · rw [if_pos h] at hc1
      split at hc1
      · cases hc1
        simp [SpendChan.make]
      · cases hc1
    · rw [if_neg h] at hc1
      exact hinv.once c ch hc1

theorem SpendInv.receive {τ : Type} {b : BitcoindNotifier τ} (hinv : SpendInv b) (c : Nat) :
    SpendInv { b with spendChans := chanRecv b.spendChans c } := by
  cases hc : b.spendChans[c]? with
  | none =>
    have : chanRecv b.spendChans c = b.spendChans := by simp [chanRecv, hc]
    exact hinv.congr rfl this
  | some ch0 =>
    have hrecv : chanRecv b.spendChans c =
        b.spendChans.set c { ch0 with buf := ch0.buf.tail } := by simp [chanRecv, hc]
    have hget : ∀ n : Nat, (chanRecv b.spendChans c)[n]? =
        if c = n then some { ch0 with buf := ch0.buf.tail } else b.spendChans[n]? := by
      intro n
      rw [hrecv, List.getElem?_set]
      by_cases h : c = n
      · have hlt : c < b.spendChans.length := by
          rcases List.getElem?_eq_some.mp hc with ⟨h, _⟩
          exact h
        rw [if_pos h, if_pos h, if_pos hlt]
      · rw [if_neg h, if_neg h]
    constructor
    · exact hinv.outerWF
    · exact hinv.innerWF
    · intro e he x hx
      show (chanRecv b.spendChans c)[x.2.spendChan]? = _
      rw [hget]
      have hf := hinv.fresh e he x hx
      by_cases h : c = x.2.spendChan
      · rw [if_pos h]
        rw [← h, hc] at hf
        cases hf
        rfl
      · rw [if_neg h]
        exact hf
    · exact hinv.distinct
    · intro n ch hn
      have hn1 : (chanRecv b.spendChans c)[n]? = some ch := hn
      rw [hget] at hn1
      by_cases h : c = n
      · rw [if_pos h] at hn1
        cases hn1
        exact hinv.once c ch0 hc
      · rw [if_neg h] at hn1
        exact hinv.once n ch hn1

theorem handleRelevantTx_inv {τ : Type} (b : BitcoindNotifier τ) (tx : RelevantTx)
    (bestHeight : Int) (hinv : SpendInv b) :
    ∃ b1, handleRelevantTx b tx bestHeight = .ok b1 ∧ SpendInv b1 ∧
      b1.blockEpochClients = b.blockEpochClients := by
  cases hblk : tx.Block with
  | none => exact ⟨b, by simp [handleRelevantTx, hblk], hinv, rfl⟩
  | some block =>
    obtain ⟨b1, hrun, hinv1, heq, _⟩ :=
      handleRelevantTxLoop_spec tx.TxRecord.MsgTx block.Height tx.TxRecord.MsgTx.TxIn 0 b hinv
    refine ⟨b1, by simp [handleRelevantTx, hblk, hrun], hinv1, ?_⟩
    rw [heq]

theorem Outcome.ok_and {σ : Type} {o : Outcome σ} {P : σ → Prop}
    (h1 : ∃ s1, o = .ok s1) (h2 : ∀ s1, o = .ok s1 → P s1) : ∃ s1, o = .ok s1 ∧ P s1 := by
  obtain ⟨s1, h⟩ := h1
  exact ⟨s1, h, h2 s1 h⟩

theorem systemStep_inv {τ : Type} (ops : TxConfNotifier τ) (lib : Chainhash)
    (s : Dispatcher τ) (e : Event) (hinv : SpendInv s.b)
    (hepoch : s.b.blockEpochClients = []) (he : e.spendLifecycle = true) :
    systemStep ops lib s e = .panic .nilDeref ∨
    ∃ s1, systemStep ops lib s e = .ok s1 ∧ SpendInv s1.b ∧ s1.b.blockEpochClients = [] := by
  cases e with
  | RegisterSpendNtfn w outpoint =>
    right
    apply Outcome.ok_and
    · exact ⟨_, rfl⟩
    · intro s1 h
      simp only [systemStep, notificationDispatcherStep, newSpendNotification] at h
      cases h
      exact ⟨hinv.register outpoint _ 0 _ _, hepoch⟩
  | receive c =>
    right
    exact ⟨_, rfl, hinv.receive c, hepoch⟩
  | dispatch w msg =>
    cases msg with
    | spendCancel msg =>
      cases hget : s.b.spendNotifications.get msg.op with
      | none =>
        right
        exact ⟨s, by simp [systemStep, notificationDispatcherStep, hget], hinv, hepoch⟩
      | some clients =>
        cases hid : clients.get msg.spendID with
        | none =>
          left
          simp [systemStep, notificationDispatcherStep, hget, hid]
        | some ntfn =>
          right
          obtain ⟨hclose, hinv1⟩ := hinv.cancel msg.op msg.spendID clients ntfn hget hid
          apply Outcome.ok_and
          · exact ⟨_, by
              simp only [systemStep, notificationDispatcherStep, hget, hid, hclose,
                Outcome.bind]
              rfl⟩
          · intro s1 h
            simp only [systemStep, notificationDispatcherStep, hget, hid, hclose,
              Outcome.bind] at h
            cases h
            exact ⟨hinv1, hepoch⟩
    | registryRelevantTx tx =>
      right
      obtain ⟨b1, hrun, hinv1, hep⟩ := handleRelevantTx_inv s.b tx s.bestHeight hinv
      exact ⟨{ s with b := b1 },
        by simp [systemStep, notificationDispatcherStep, hrun, Outcome.bind], hinv1,
        hep.trans hepoch⟩
    | RelevantTx tx =>
      right
      obtain ⟨b1, hrun, hinv1, hep⟩ := handleRelevantTx_inv s.b tx s.bestHeight hinv
      exact ⟨{ s with b := b1 },
        by simp [systemStep, notificationDispatcherStep, hrun, Outcome.bind], hinv1,
        hep.trans hepoch⟩
    | BlockConnected hash height =>
      right
      by_cases hh : height = wrapInt32 (s.bestHeight + 1)
      · cases hblk : w.be.GetBlock hash with
        | error err =>
          exact ⟨{ s with bestHeight := height },
            by simp [systemStep, notificationDispatcherStep, hh, hblk], hinv, hepoch⟩
        | ok rawBlock =>
          apply Outcome.ok_and
          · exact ⟨_, by
              simp only [systemStep, notificationDispatcherStep, hh, hblk, notifyBlockEpochs,
                hepoch, notifyBlockEpochsLoop, Outcome.bind, ne_eq, not_true_eq_false,
                if_false]
              rfl⟩
          · intro s1 h
            simp only [systemStep, notificationDispatcherStep, hh, hblk, notifyBlockEpochs,
              hepoch, notifyBlockEpochsLoop, Outcome.bind, ne_eq, not_true_eq_false,
              if_false] at h
            cases h
            exact ⟨hinv.congr rfl rfl, rfl⟩
      · exact ⟨s, by simp [systemStep, notificationDispatcherStep, hh], hinv, hepoch⟩
    | BlockDisconnected hash height =>
      right
      by_cases hh : height = s.bestHeight
      · apply Outcome.ok_and
        · exact ⟨_, by
            simp only [systemStep, notificationDispatcherStep, hh, ne_eq, not_true_eq_false,
              if_false]
            rfl⟩
        · intro s1 h
          simp only [systemStep, notificationDispatcherStep, hh, ne_eq, not_true_eq_false,
            if_false] at h
          cases h
          exact ⟨hinv.congr rfl rfl, hepoch⟩
      · exact ⟨s, by simp [systemStep, notificationDispatcherStep, hh], hinv, hepoch⟩
    | epochCancel msg => simp [Event.spendLifecycle] at he
    | spendNotification msg => simp [Event.spendLifecycle] at he
    | confirmationNotification msg => simp [Event.spendLifecycle] at he
    | blockEpochRegistration msg => simp [Event.spendLifecycle] at he

theorem systemRun_inv {τ : Type} (ops : TxConfNotifier τ) (lib : Chainhash)
    (events : List Event) :
    ∀ s : Dispatcher τ, SpendInv s.b → s.b.blockEpochClients = [] →
      (∀ e ∈ events, e.spendLifecycle = true) →
      systemRun ops lib events s = .panic .nilDeref ∨
      ∃ s1, systemRun ops lib events s = .ok s1 ∧ SpendInv s1.b ∧
        s1.b.blockEpochClients = [] := by
  induction events with
  | nil => intro s hinv hep _; exact Or.inr ⟨s, rfl, hinv, hep⟩
  | cons e rest ih =>
    intro s hinv hep hev
    rcases systemStep_inv ops lib s e hinv hep (hev e (List.mem_cons_self _ _)) with
      hp | ⟨s1, hs1, hinv1, hep1⟩
    · left
      simp [systemRun, hp, Outcome.bind]
    · rcases ih s1 hinv1 hep1 (fun e1 he1 => hev e1 (List.mem_cons_of_mem _ he1)) with
        hp | ⟨s2, hs2, hinv2, hep2⟩
      · left
        simp [systemRun, hs1, Outcome.bind, hp]
      · right
        exact ⟨s2, by simp [systemRun, hs1, Outcome.bind, hs2], hinv2, hep2⟩

theorem SpendInv.new {τ : Type} (tracker : τ) : SpendInv (BitcoindNotifier.new tracker) :=
  SpendInv.of_lists _ (by simp [BitcoindNotifier.new, GoMap.WF])
    (by simp [BitcoindNotifier.new]) (by simp [BitcoindNotifier.new])
    (by simp [BitcoindNotifier.new]) (by simp [BitcoindNotifier.new])

/-- C3: spend uniqueness as an invariant of the running system. Start from
the notifier `New` and `Start` set up and take any finite sequence of events
of the spend life cycle: registrations made by `RegisterSpendNtfn` (a channel
just made, the next spend id), spend cancellations, relevant transactions
from either inbox, block connects and disconnects, and reads by the clients.
After every prefix of the sequence, either the dispatcher has stopped on the
nil-pointer fault of a cancellation that names a spend id not stored under a
registered outpoint, or it has completed every step, never sending on or
closing a closed channel and never blocking, and then: no spend channel was
written more than once; every subscription still in the spend index has an
open, empty, never written channel; and `handleRelevantTx` completes on any
transaction, so its send does not block. -/
theorem spend_uniqueness {τ : Type} (ops : TxConfNotifier τ) (lib : Chainhash)
    (tracker : τ) (currentHeight : Int) (events : List Event)
    (hev : ∀ e ∈ events, e.spendLifecycle = true) (n : Nat) :
    systemRun ops lib (events.take n) (Dispatcher.init tracker currentHeight)
      = .panic .nilDeref ∨
    ∃ s, systemRun ops lib (events.take n) (Dispatcher.init tracker currentHeight) = .ok s ∧
      (∀ (c : Nat) (ch : SpendChan), s.b.spendChans[c]? = some ch → ch.written ≤ 1) ∧
      (∀ (op : OutPoint) (clients : GoMap Nat spendNotification),
        s.b.spendNotifications.get op = some clients → ∀ x ∈ clients,
          ∃ ch, s.b.spendChans[x.2.spendChan]? = some ch ∧
            ch.closed = false ∧ ch.buf = [] ∧ ch.written = 0) ∧
      (∀ (tx : RelevantTx) (bestHeight : Int),
        ∃ b1, handleRelevantTx s.b tx bestHeight = .ok b1) := by
  rcases systemRun_inv ops lib (events.take n) (Dispatcher.init tracker currentHeight)
      (SpendInv.new tracker) rfl (fun e he => hev e (List.mem_of_mem_take he)) with
    hp | ⟨s, hs, hinv, _⟩
  · exact Or.inl hp
  · refine Or.inr ⟨s, hs, hinv.once, ?_, ?_⟩
    · intro op clients hget x hx
      exact ⟨SpendChan.make, hinv.fresh _ (GoMap.mem_of_get _ _ _ hget) x hx, rfl, rfl, rfl⟩
    · intro tx bestHeight
      obtain ⟨b1, h, _⟩ := handleRelevantTx_inv s.b tx bestHeight hinv
      exact ⟨b1, h⟩

theorem spend_uniqueness_witness :
    (∀ e ∈ sampleEvents, e.spendLifecycle = true) ∧
    (systemRun countingTracker sampleLib (sampleEvents.take 5) (Dispatcher.init 0 100)
      = .panic .nilDeref ∨
    ∃ s, systemRun countingTracker sampleLib (sampleEvents.take 5) (Dispatcher.init 0 100)
        = .ok s ∧
      (∀ (c : Nat) (ch : SpendChan), s.b.spendChans[c]? = some ch → ch.written ≤ 1) ∧
      (∀ (op : OutPoint) (clients : GoMap Nat spendNotification),
        s.b.spendNotifications.get op = some clients → ∀ x ∈ clients,
          ∃ ch, s.b.spendChans[x.2.spendChan]? = some ch ∧
            ch.closed = false ∧ ch.buf = [] ∧ ch.written = 0) ∧
      (∀ (tx : RelevantTx) (bestHeight : Int),
        ∃ b1, handleRelevantTx s.b tx bestHeight = .ok b1)) :=
  ⟨by decide, spend_uniqueness countingTracker sampleLib 0 100 sampleEvents (by decide) 5⟩

/-! ## Registration of a confirmation subscription -/

/-- C4, counterexample: called with `numConfs = 0` while the notifier is not
shutting down, `RegisterConfirmationsNtfn` returns its event without an
error and hands the subscription to the dispatcher, which invokes the
tracker's `Register` for it. -/
theorem RegisterConfirmationsNtfn_zero_confs_accepted :
    (RegisterConfirmationsNtfn false sampleNotifier 42 0 100).ret = .ok { numConfs := 0 } ∧
    (RegisterConfirmationsNtfn false sampleNotifier 42 0 100).sent =
      [Msg.confirmationNotification
        { ConfNtfn := { TxID := 42, NumConfirmations := 0 }, heightHint := 100 }] ∧
    (notificationDispatcherStep countingTracker sampleLib sampleWorld
        { b := sampleNotifier, bestHeight := 102 }
        (Msg.confirmationNotification
          { ConfNtfn := { TxID := 42, NumConfirmations := 0 }, heightHint := 100 })
      ).toOption.map (fun s => s.b.calls) =
      some [Call.Register { TxID := 42, NumConfirmations := 0 }
        (some { BlockHash := 1101, BlockHeight := 101, TxIndex := 1 })] := by
  refine ⟨rfl, rfl, ?_⟩
  decide

/-- The block scan of `confDetailsManually` terminates: below the top of the
`uint32` range, any fuel above the number of heights left to scan gives a
result. -/
theorem confDetailsManuallyLoop_total (be : BitcoindClient) (targetTxidStr : String)
    (currentHeight : Nat) (hcur : currentHeight < 4294967295) :
    ∀ (fuel height : Nat), currentHeight + 1 - height < fuel →
      ∃ res, confDetailsManuallyLoop be targetTxidStr currentHeight fuel height = some res := by
  intro fuel
  induction fuel with
  | zero => intro height h; omega
  | succ fuel ih =>
    intro height h
    rw [confDetailsManuallyLoop]
    by_cases hle : height ≤ currentHeight
    · rw [if_pos hle]
      cases be.GetBlockHash (height : Int) with
      | error err => exact ⟨_, rfl⟩
      | ok blockHash =>
        dsimp only
        cases be.GetBlockVerbose blockHash with
        | error err => exact ⟨_, rfl⟩
        | ok block =>
          dsimp only
          cases findTxIndex targetTxidStr block.Tx 0 with
          | some txIndex => exact ⟨_, rfl⟩
          | none =>
            have hw : wrapUint32 (height + 1) = height + 1 := by
              unfold wrapUint32
              omega
            dsimp only
            rw [hw]
            exact ih (height + 1) (by omega)
    · rw [if_neg hle]
      exact ⟨_, rfl⟩

/-- The method `historicalConfDetails` returns: below the top of the `uint32`
range, any fuel above the number of heights from the hint to the current
height gives a result. -/
theorem historicalConfDetails_total (lib : Chainhash) (be : BitcoindClient) (fuel : Nat)
    (txid : Hash) (heightHint currentHeight : Nat) (hcur : currentHeight < 4294967295)
    (hfuel : currentHeight + 1 - heightHint < fuel) :
    ∃ res, historicalConfDetails lib be fuel txid heightHint currentHeight = some res := by
  unfold historicalConfDetails
  cases confDetailsFromTxIndex lib be txid with
  | error err => exact ⟨_, rfl⟩
  | ok r =>
    cases r with
    | some txConf => exact ⟨_, rfl⟩
    | none =>
      exact confDetailsManuallyLoop_total be _ currentHeight hcur fuel heightHint hfuel

/-- C4, amended: `RegisterConfirmationsNtfn` does not inspect `numConfs`.
Called with `numConfs = 0`, for every notifier state, txid and height hint:
when its select takes the send case it returns the event without an error
and has handed exactly that subscription to the dispatcher; when its select
takes the quit case it returns `ErrChainNotifierShuttingDown` and hands
nothing over; the notifier is unchanged either way. The dispatcher step on
the subscription completes and invokes the tracker's `Register` for it
exactly once, with the details its historical lookup found (none when the
lookup failed): `currentHeight` is the `uint32` of the backend's best height
(0 when `GetBestBlock` fails), and below the top of the `uint32` range any
fuel above the number of heights from the hint to `currentHeight` is enough
for the lookup to return, whatever the backend answers. Whatever the fuel
and the height, the lookup returning is all the step needs. -/
theorem RegisterConfirmationsNtfn_zero_confs {τ : Type} (ops : TxConfNotifier τ)
    (lib : Chainhash) (w : World) (s : Dispatcher τ) (txid : Hash) (heightHint : Nat) :
    (RegisterConfirmationsNtfn false s.b txid 0 heightHint).ret = .ok { numConfs := 0 } ∧
    (RegisterConfirmationsNtfn false s.b txid 0 heightHint).sent =
      [Msg.confirmationNotification
        { ConfNtfn := { TxID := txid, NumConfirmations := 0 }, heightHint := heightHint }] ∧
    (RegisterConfirmationsNtfn true s.b txid 0 heightHint).ret =
      .error ErrChainNotifierShuttingDown ∧
    (RegisterConfirmationsNtfn true s.b txid 0 heightHint).sent = [] ∧
    (∀ quit : Bool, (RegisterConfirmationsNtfn quit s.b txid 0 heightHint).b = s.b) ∧
    (∀ currentHeight : Nat,
      currentHeight = toUint32 (match w.be.GetBestBlock with
        | .ok (_, height) => height
        | .error _ => 0) →
      currentHeight < 4294967295 →
      currentHeight + 1 - heightHint < w.fuel →
      ∃ res : Except Error (Option TxConfirmation),
        historicalConfDetails lib w.be w.fuel txid heightHint currentHeight = some res ∧
        notificationDispatcherStep ops lib w s
          (Msg.confirmationNotification
            { ConfNtfn := { TxID := txid, NumConfirmations := 0 }, heightHint := heightHint })
          = .ok { s with b := { s.b with
              txConfNotifier :=
                (ops.Register s.b.txConfNotifier { TxID := txid, NumConfirmations := 0 }
                  (match res with
                    | .ok txConf => txConf
                    | .error _ => none)).2,
              calls := s.b.calls ++
                [Call.Register { TxID := txid, NumConfirmations := 0 }
                  (match res with
                    | .ok txConf => txConf
                    | .error _ => none)] } }) ∧
    (∀ (currentHeight : Nat) (res : Except Error (Option TxConfirmation)),
      currentHeight = toUint32 (match w.be.GetBestBlock with
        | .ok (_, height) => height
        | .error _ => 0) →
      historicalConfDetails lib w.be w.fuel txid heightHint currentHeight = some res →
      notificationDispatcherStep ops lib w s
        (Msg.confirmationNotification
          { ConfNtfn := { TxID := txid, NumConfirmations := 0 }, heightHint := heightHint })
        = .ok { s with b := { s.b with
            txConfNotifier :=
              (ops.Register s.b.txConfNotifier { TxID := txid, NumConfirmations := 0 }
                (match res with
                  | .ok txConf => txConf
                  | .error _ => none)).2,
            calls := s.b.calls ++
              [Call.Register { TxID := txid, NumConfirmations := 0 }
                (match res with
                  | .ok txConf => txConf
                  | .error _ => none)] } }) := by
  refine ⟨rfl, rfl, rfl, rfl, ?_, ?_, ?_⟩
  · intro quit
    cases quit <;> rfl
  · intro currentHeight hbest hcur hfuel
    obtain ⟨res, hres⟩ :=
      historicalConfDetails_total lib w.be w.fuel txid heightHint currentHeight hcur hfuel
    refine ⟨res, hres, ?_⟩
    subst hbest
    simp only [notificationDispatcherStep, hres]
  · intro currentHeight res hbest hres
    subst hbest
    simp only [notificationDispatcherStep, hres]

/-- C4, witness: the sample backend at best height 102, a subscription with
`numConfs = 0` and height hint 100, fuel 200. -/
theorem RegisterConfirmationsNtfn_zero_confs_witness :
    (102 : Nat) = toUint32 (match sampleWorld.be.GetBestBlock with
      | .ok (_, height) => height
      | .error _ => 0) ∧
    (102 : Nat) < 4294967295 ∧ 102 + 1 - 100 < sampleWorld.fuel ∧
    ∃ res : Except Error (Option TxConfirmation),
      historicalConfDetails sampleLib sampleWorld.be sampleWorld.fuel 42 100 102 = some res ∧
      notificationDispatcherStep countingTracker sampleLib sampleWorld
        { b := sampleNotifier, bestHeight := 102 }
        (Msg.confirmationNotification
          { ConfNtfn := { TxID := 42, NumConfirmations := 0 }, heightHint := 100 })
        = .ok { ({ b := sampleNotifier, bestHeight := 102 } : Dispatcher Nat) with
          b := { sampleNotifier with
            txConfNotifier :=
              (countingTracker.Register sampleNotifier.txConfNotifier
                { TxID := 42, NumConfirmations := 0 }
                (match res with
                  | .ok txConf => txConf
                  | .error _ => none)).2,
            calls := sampleNotifier.calls ++
              [Call.Register { TxID := 42, NumConfirmations := 0 }
                (match res with
                  | .ok txConf => txConf
                  | .error _ => none)] } } :=
  ⟨by decide, by decide, by decide,
    (RegisterConfirmationsNtfn_zero_confs countingTracker sampleLib sampleWorld
      { b := sampleNotifier, bestHeight := 102 } 42 100).2.2.2.2.2.1 102 (by decide)
      (by decide) (by decide)⟩

/-! ## Out-of-order block events -/

/-- C5: out-of-order block events are skipped. For every dispatcher state, a
`BlockConnected` event whose height differs from `bestHeight+1` (the `int32`
sum the source compares with) and a `BlockDisconnected` event whose height
differs from `bestHeight` leave the whole dispatcher state unchanged: the
best height, the spend index, the epoch registry with every client's queue,
the confirmation tracker, and the record of tracker calls, so that neither
`ConnectTip` nor `DisconnectTip` is called and no epoch is enqueued. The
`int32` sum is the integer `bestHeight + 1` below the top of the range. -/
theorem out_of_order_block_skipped {τ : Type} (ops : TxConfNotifier τ) (lib : Chainhash)
    (w : World) (s : Dispatcher τ) (hash : Nat) (height : Int) :
    (height ≠ wrapInt32 (s.bestHeight + 1) →
      notificationDispatcherStep ops lib w s (Msg.BlockConnected hash height) = .ok s) ∧
    (height ≠ s.bestHeight →
      notificationDispatcherStep ops lib w s (Msg.BlockDisconnected hash height) = .ok s) ∧
    (-2147483648 ≤ s.bestHeight + 1 → s.bestHeight + 1 ≤ 2147483647 →
      wrapInt32 (s.bestHeight + 1) = s.bestHeight + 1) := by
  refine ⟨?_, ?_, ?_⟩
  · intro h
    simp [notificationDispatcherStep, h]
  · intro h
    simp [notificationDispatcherStep, h]
  · intro h1 h2
    unfold wrapInt32
    omega

theorem out_of_order_block_skipped_witness :
    (103 : Int) ≠ wrapInt32 (101 + 1) ∧ (100 : Int) ≠ 101 ∧
    notificationDispatcherStep countingTracker sampleLib sampleWorld
      { b := sampleNotifier, bestHeight := 101 } (Msg.BlockConnected 1103 103)
      = .ok { b := sampleNotifier, bestHeight := 101 } ∧
    notificationDispatcherStep countingTracker sampleLib sampleWorld
      { b := sampleNotifier, bestHeight := 101 } (Msg.BlockDisconnected 1100 100)
      = .ok { b := sampleNotifier, bestHeight := 101 } ∧
    wrapInt32 (101 + 1) = 101 + 1 :=
  ⟨by decide, by decide,
   (out_of_order_block_skipped countingTracker sampleLib sampleWorld
      { b := sampleNotifier, bestHeight := 101 } 1103 103).1 (by decide),
   (out_of_order_block_skipped countingTracker sampleLib sampleWorld
      { b := sampleNotifier, bestHeight := 101 } 1100 100).2.1 (by decide),
   (out_of_order_block_skipped countingTracker sampleLib sampleWorld
      { b := sampleNotifier, bestHeight := 101 } 1100 100).2.2 (by decide) (by decide)⟩

/-! ## The loop of the manual scan -/

theorem findTxIndex_none (target : String) (txs : List String) :
    ∀ k : Nat, findTxIndex target txs k = none ↔ target ∉ txs := by
  induction txs with
  | nil => intro k; simp [findTxIndex]
  | cons t rest ih =>
    intro k
    by_cases h : t = target
    · simp [findTxIndex, h]
    · have h1 : ¬ target = t := fun e => h e.symm
      simp [findTxIndex, h, h1, ih]

theorem findTxIndex_first (target : String) (txs : List String) :
    ∀ k0 k : Nat, firstOccurrence target txs k →
      findTxIndex target txs k0 = some (k0 + k) := by
  induction txs with
  | nil => intro k0 k h; simp [firstOccurrence] at h
  | cons t rest ih =>
    intro k0 k h
    obtain ⟨hk, hfirst⟩ := h
    cases k with
    | zero =>
      simp only [List.getElem?_cons_zero, Option.some.injEq] at hk
      simp [findTxIndex, hk]
    | succ k =>
      have ht : t ≠ target := by
        intro e
        exact hfirst 0 (by omega) (by simp [e])
      simp only [List.getElem?_cons_succ] at hk
      have hrest : firstOccurrence target rest k :=
        ⟨hk, fun j hj => by
          have := hfirst (j + 1) (by omega)
          simpa using this⟩
      simp only [findTxIndex, ht, if_false]
      rw [ih (k0 + 1) k hrest]
      congr 1
      omega

theorem confDetailsManuallyLoop_skip (be : BitcoindClient) (target : String)
    (currentHeight : Nat) (hcur : currentHeight < 4294967295) :
    ∀ (n height fuel : Nat), scansClean be target height (height + n) →
      height + n ≤ currentHeight + 1 → n ≤ fuel →
      confDetailsManuallyLoop be target currentHeight fuel height =
        confDetailsManuallyLoop be target currentHeight (fuel - n) (height + n) := by
  intro n
  induction n with
  | zero => intro height fuel _ _ _; rfl
  | succ n ih =>
    intro height fuel hclean hle hfuel
    obtain ⟨hash, blk, h1, h2, h3⟩ := hclean height (Nat.le_refl _) (by omega)
    obtain ⟨fuel1, rfl⟩ : ∃ f, fuel = f + 1 := ⟨fuel - 1, by omega⟩
    have hle1 : height ≤ currentHeight := by omega
    have hwrap : wrapUint32 (height + 1) = height + 1 := by
      unfold wrapUint32
      omega
    have hnone := (findTxIndex_none target blk.Tx 0).mpr h3
    rw [confDetailsManuallyLoop]
    simp only [hle1, if_true, h1, h2, hnone, hwrap]
    rw [ih (height + 1) fuel1
      (fun h hlo hhi => hclean h (by omega) (by omega)) (by omega) (by omega)]
    congr 1 <;> omega

theorem confDetailsManuallyLoop_nil (be : BitcoindClient) (target : String)
    (currentHeight : Nat) (hcur : currentHeight < 4294967295) :
    ∀ (fuel height : Nat),
      confDetailsManuallyLoop be target currentHeight fuel height = some (.ok none) →
      scansClean be target height (currentHeight + 1) := by
  intro fuel
  induction fuel with
  | zero => intro height h; simp [confDetailsManuallyLoop] at h
  | succ fuel ih =>
    intro height h
    rw [confDetailsManuallyLoop] at h
    by_cases hle : height ≤ currentHeight
    · simp only [hle, if_true] at h
      cases h1 : be.GetBlockHash (height : Int) with
      | error err => simp [h1] at h
      | ok hash =>
        simp only [h1] at h
        cases h2 : be.GetBlockVerbose hash with
        | error err => simp [h2] at h
        | ok blk =>
          simp only [h2] at h
          cases h3 : findTxIndex target blk.Tx 0 with
          | some k => simp [h3] at h
          | none =>
            simp only [h3] at h
            have hwrap : wrapUint32 (height + 1) = height + 1 := by
              unfold wrapUint32
              omega
            rw [hwrap] at h
            have hrest := ih (height + 1) h
            intro h' hlo hhi
            by_cases heq : h' = height
            · subst heq
              exact ⟨hash, blk, h1, h2, (findTxIndex_none target blk.Tx 0).mp h3⟩
            · exact hrest h' (by omega) hhi
    · intro h' hlo hhi
      omega

/-! ## The rescan loop -/

theorem spendsOutpoint_false_iff (outpoint : OutPoint) (tx : MsgTx) :
    spendsOutpoint outpoint tx = false ↔ sparesOutpoint outpoint tx := by
  simp [spendsOutpoint, sparesOutpoint]

theorem spendsOutpoint_true_iff (outpoint : OutPoint) (tx : MsgTx) :
    spendsOutpoint outpoint tx = true ↔ ∃ txIn ∈ tx.TxIn, txIn.PreviousOutPoint = outpoint := by
  simp [spendsOutpoint]

theorem find_spender_none (outpoint : OutPoint) (txs : List MsgTx)
    (h : ∀ tx ∈ txs, sparesOutpoint outpoint tx) :
    txs.find? (spendsOutpoint outpoint) = none := by
  rw [List.find?_eq_none]
  intro tx htx
  rw [Bool.not_eq_true, spendsOutpoint_false_iff]
  exact h tx htx

theorem find_spender_first (outpoint : OutPoint) (txs : List MsgTx) (tx : MsgTx)
    (h : firstSpender outpoint txs tx) :
    txs.find? (spendsOutpoint outpoint) = some tx := by
  obtain ⟨k, hk, hsp, hfirst⟩ := h
  induction txs generalizing k with
  | nil => simp at hk
  | cons t rest ih =>
    cases k with
    | zero =>
      simp only [List.getElem?_cons_zero, Option.some.injEq] at hk
      subst hk
      simp [List.find?_cons, (spendsOutpoint_true_iff outpoint t).mpr hsp]
    | succ k =>
      have ht : spendsOutpoint outpoint t = false :=
        (spendsOutpoint_false_iff outpoint t).mpr (hfirst 0 t (by omega) (by simp))
      simp only [List.getElem?_cons_succ] at hk
      simp only [List.find?_cons, ht]
      exact ih k hk (fun j t1 hj ht1 => hfirst (j + 1) t1 (by omega) (by simpa using ht1))

theorem rescanLoop_skip (be : BitcoindClient) (outpoint : OutPoint) (endHeight : Int) :
    ∀ (n : Nat) (i : Int) (fuel : Nat), -2147483648 ≤ i → i + n ≤ 2147483647 →
      rescanClean be outpoint i (i + n) → i + n ≤ endHeight + 1 → n ≤ fuel →
      rescanLoop be outpoint endHeight fuel i =
        rescanLoop be outpoint endHeight (fuel - n) (i + n) := by
  intro n
  induction n with
  | zero => intro i fuel _ _ _ _ _; simp
  | succ n ih =>
    intro i fuel hlo hhi hclean hle hfuel
    obtain ⟨hash, blk, h1, h2, h3⟩ := hclean i (le_refl _) (by push_cast; omega)
    obtain ⟨fuel1, rfl⟩ : ∃ f, fuel = f + 1 := ⟨fuel - 1, by omega⟩
    have hle1 : i ≤ endHeight := by push_cast at hle; omega
    have hwrap : wrapInt32 (i + 1) = i + 1 := by
      unfold wrapInt32
      push_cast at hhi
      omega
    rw [rescanLoop]
    simp only [hle1, if_true, h1, h2, find_spender_none outpoint _ h3, hwrap]
    rw [ih (i + 1) fuel1 (by omega) (by push_cast at hhi ⊢; omega)
      (fun j hjlo hjhi => hclean j (by omega) (by push_cast at hjhi ⊢; omega))
      (by push_cast at hle ⊢; omega) (by omega)]
    congr 1
    · omega
    · push_cast
      omega

/-! ## Registration and backend failures -/

/-- C6, counterexample: registration is not atomic with respect to backend
failures. With a backend whose `NotifySpent` fails, `RegisterSpendNtfn` on
the fresh notifier (empty spend index) returns that error, yet it has handed
its subscription to the dispatcher, whose spend index then holds it. With a
backend whose transaction index fails with another code than no-tx-info,
`RegisterConfirmationsNtfn` returns no error, and the dispatcher still calls
the tracker's `Register`, which changes the tracker. -/
theorem registration_not_atomic :
    (BitcoindNotifier.new 0 : BitcoindNotifier Nat).spendNotifications = [] ∧
    (RegisterSpendNtfn sampleLib downBackend 200 false false (BitcoindNotifier.new 0)
        sampleOutpoint 100).map (fun r => r.ret) = some (.error (.backend 1)) ∧
    (RegisterSpendNtfn sampleLib downBackend 200 false false (BitcoindNotifier.new 0)
        sampleOutpoint 100).map (fun r =>
          (deliver countingTracker sampleLib sampleWorld 102 r).toOption.map
            (fun s => s.b.spendNotifications)) =
      some (some [(sampleOutpoint, [(1, sampleNtfn)])]) ∧
    (RegisterConfirmationsNtfn false (BitcoindNotifier.new 0) 42 3 100).ret =
      .ok { numConfs := 3 } ∧
    confDetailsFromTxIndex sampleLib brokenIndexBackend 42 = .error (.wrapped (.rpc (-1))) ∧
    (deliver countingTracker sampleLib { sampleWorld with be := brokenIndexBackend } 102
        (RegisterConfirmationsNtfn false (BitcoindNotifier.new 0) 42 3 100)).toOption.map
      (fun s => (s.b.calls, s.b.txConfNotifier)) =
      some ([Call.Register { TxID := 42, NumConfirmations := 3 } none], 1) := by
  refine ⟨rfl, ?_, ?_, rfl, ?_, ?_⟩ <;> decide

theorem rescanBounds_ok (lib : Chainhash) (be : BitcoindClient) (outpoint : OutPoint)
    (heightHint : Nat) (startHeight endHeight : Int)
    (h : rescanBounds lib be outpoint heightHint = .ok (startHeight, endHeight)) :
    ∃ blockHash : Hash,
      ((∃ tx, be.GetRawTransactionVerbose outpoint.Hash = .ok (some tx) ∧
          tx.BlockHash ≠ "" ∧ lib.NewHashFromStr tx.BlockHash = .ok blockHash) ∨
       (be.GetBlockHash (heightHint : Int) = .ok blockHash ∧
          ¬ ∃ tx, be.GetRawTransactionVerbose outpoint.Hash = .ok (some tx) ∧
            tx.BlockHash ≠ "")) ∧
      be.GetBlockHeight blockHash = .ok startHeight ∧
      ∃ bestHash, be.GetBestBlock = .ok (bestHash, endHeight) := by
  unfold rescanBounds at h
  have tail : ∀ hashRes : Except Error Hash,
      (match hashRes with
        | .error err => (Except.error err : Except Error (Int × Int))
        | .ok blockHash =>
          match be.GetBlockHeight blockHash with
          | .error err => .error err
          | .ok startHeight =>
            match be.GetBestBlock with
            | .error err => .error err
            | .ok (_, endHeight) => .ok (startHeight, endHeight)) = .ok (startHeight, endHeight) →
      ∃ blockHash, hashRes = .ok blockHash ∧ be.GetBlockHeight blockHash = .ok startHeight ∧
        ∃ bestHash, be.GetBestBlock = .ok (bestHash, endHeight) := by
    intro hashRes hres
    cases hashRes with
    | error err => simp at hres
    | ok blockHash =>
      simp only at hres
      cases hh : be.GetBlockHeight blockHash with
      | error err => simp [hh] at hres
      | ok sh =>
        cases hb : be.GetBestBlock with
        | error err => simp [hh, hb] at hres
        | ok best =>
          obtain ⟨bestHash, eh⟩ := best
          simp [hh, hb] at hres
          obtain ⟨h1, h2⟩ := hres
          subst h1 h2
          exact ⟨blockHash, rfl, hh, bestHash, rfl⟩
  cases htx : be.GetRawTransactionVerbose outpoint.Hash with
  | error err =>
    rw [htx] at h
    by_cases hno : notNoTxInfo err = true
    · simp [hno] at h
    · simp only [hno] at h
      obtain ⟨blockHash, h1, h2, h3⟩ := tail _ h
      exact ⟨blockHash, Or.inr ⟨h1, by simp⟩, h2, h3⟩
  | ok tx =>
    rw [htx] at h
    cases tx with
    | none =>
      obtain ⟨blockHash, h1, h2, h3⟩ := tail _ h
      exact ⟨blockHash, Or.inr ⟨h1, by simp⟩, h2, h3⟩
    | some tx =>
      obtain ⟨blockHash, h1, h2, h3⟩ := tail _ h
      by_cases he : tx.BlockHash = ""
      · simp only [he, ne_eq, not_true_eq_false, if_false] at h1
        exact ⟨blockHash, Or.inr ⟨h1, by simp [he]⟩, h2, h3⟩
      · simp only [ne_eq, he, not_false_eq_true, if_true] at h1
        exact ⟨blockHash, Or.inl ⟨tx, rfl, he, h1⟩, h2, h3⟩

theorem dispatcher_spendNotification {τ : Type} (ops : TxConfNotifier τ) (lib : Chainhash)
    (w : World) (s : Dispatcher τ) (msg : spendNotification) :
    ∃ s1 clients,
      notificationDispatcherStep ops lib w s (Msg.spendNotification msg) = .ok s1 ∧
      s1.b.spendNotifications.get msg.targetOutpoint = some clients ∧
      clients.get msg.spendID = some msg :=
  ⟨_, GoMap.set (match s.b.spendNotifications.get msg.targetOutpoint with
                 | some clients => clients
                 | none => []) msg.spendID msg,
   rfl, GoMap.get_set_self _ _ _, GoMap.get_set_self _ _ _⟩

theorem rescanBounds_of_start (lib : Chainhash) (be : BitcoindClient) (outpoint : OutPoint)
    (heightHint : Nat) (blockHash : Hash)
    (h : rescanStartsAt lib be outpoint heightHint blockHash) :
    rescanBounds lib be outpoint heightHint =
      match be.GetBlockHeight blockHash with
      | .error err => .error err
      | .ok startHeight =>
        match be.GetBestBlock with
        | .error err => .error err
        | .ok (_, endHeight) => .ok (startHeight, endHeight) := by
  rcases h with ⟨tx, htx, hne, hparse⟩ | ⟨hsilent, hhash⟩
  · simp [rescanBounds, htx, hne, hparse]
  · rcases hsilent with htx | ⟨tx, htx, hempty⟩ | ⟨err, htx, hno⟩
    · simp [rescanBounds, htx, hhash]
    · simp [rescanBounds, htx, hempty, hhash]
    · simp [rescanBounds, htx, hno, hhash]

theorem rescanBounds_hint_fails (lib : Chainhash) (be : BitcoindClient) (outpoint : OutPoint)
    (heightHint : Nat) (err : Error) (hsilent : indexSilent be outpoint)
    (hhash : be.GetBlockHash (heightHint : Int) = .error err) :
    rescanBounds lib be outpoint heightHint = .error err := by
  rcases hsilent with htx | ⟨tx, htx, hempty⟩ | ⟨err1, htx, hno⟩
  · simp [rescanBounds, htx, hhash]
  · simp [rescanBounds, htx, hempty, hhash]
  · simp [rescanBounds, htx, hno, hhash]

theorem rescanLoop_fails_at (be : BitcoindClient) (outpoint : OutPoint) (start tip h : Int)
    (fuel : Nat) (err : Error) (hlo : -2147483648 ≤ start) (hhi : tip ≤ 2147483647)
    (hsh : start ≤ h) (hht : h ≤ tip) (hclean : rescanClean be outpoint start h)
    (hfuel : (h - start).toNat < fuel)
    (hfail : be.GetBlockHash h = .error err ∨
      ∃ hash, be.GetBlockHash h = .ok hash ∧ be.GetBlock hash = .error err) :
    rescanLoop be outpoint tip fuel start = some (.error err) := by
  have hn : start + ((h - start).toNat : Int) = h := by
    rw [Int.toNat_of_nonneg (by omega)]
    omega
  rw [rescanLoop_skip be outpoint tip (h - start).toNat start fuel hlo
    (by rw [hn]; omega) (by rw [hn]; exact hclean) (by rw [hn]; omega) (by omega), hn]
  obtain ⟨fuel1, hf1⟩ : ∃ f, fuel - (h - start).toNat = f + 1 :=
    ⟨fuel - (h - start).toNat - 1, by omega⟩
  rw [hf1, rescanLoop]
  rcases hfail with hfail | ⟨hash, hhash, hblk⟩
  · simp only [hht, if_true, hfail]
  · simp only [hht, if_true, hhash, hblk]

/-- C6, amended: registration hands the subscription over before any
backend call, and a failure does not undo it. For `RegisterSpendNtfn` whose
first select takes the send case: the subscription is the first value the
dispatcher receives, and the dispatcher step on it stores it in the spend
index. Each failure after the hand-off is returned by the call, which has
sent the subscription and nothing else: a failing `NotifySpent`; a failing
`GetTxOut`; and, when `GetTxOut` reports no output, a failing
`GetRawTransactionVerbose` with another error than no-tx-info (returned
wrapped), a failing `NewHashFromStr` on the block hash the index names, a
failing `GetBlockHash` at the height hint when the index names no block, a
failing `GetBlockHeight` of the starting block, a failing `GetBestBlock`,
and, in the rescan loop over `[start, tip]` (`int32` values) with the
heights before `h` served and spending nothing, a failing `GetBlockHash` at
`h` or a failing `GetBlock` of the block at `h`, for any fuel above the
number of heights scanned. The same holds whenever the computation of the
bounds or the loop returns an error. `RegisterConfirmationsNtfn` makes no
backend call: it returns its event without an error and has sent the
subscription; when the dispatcher's historical lookup for it fails, the
dispatcher still calls the tracker's `Register`, with no confirmation
details. The lookup fails when `GetRawTransactionVerbose` fails with another
error than no-tx-info, when the parse of the block hash the index names or
the `GetBlockVerbose` of that block fails, and, the index naming no block,
when the manual scan reaches a height `h` (the heights from the hint to
`h - 1` served and not listing the txid, the current height below 2^32 - 1,
fuel above the number of heights scanned) at which `GetBlockHash` or
`GetBlockVerbose` fails. -/
theorem registration_failure_propagated {τ : Type} (ops : TxConfNotifier τ)
    (lib : Chainhash) (be : BitcoindClient) (fuel : Nat) (quit2 : Bool)
    (b : BitcoindNotifier τ) (outpoint : OutPoint) (heightHint : Nat) (w : World)
    (bestHeight : Int) (txid : Hash) (numConfs : Nat) :
    (∀ r, RegisterSpendNtfn lib be fuel false quit2 b outpoint heightHint = some r →
      r.b = (newSpendNotification b outpoint).1 ∧
      r.sent.head? = some (Msg.spendNotification (newSpendNotification b outpoint).2) ∧
      ∃ s1 clients,
        notificationDispatcherStep ops lib w { b := r.b, bestHeight := bestHeight }
          (Msg.spendNotification (newSpendNotification b outpoint).2) = .ok s1 ∧
        s1.b.spendNotifications.get outpoint = some clients ∧
        clients.get (newSpendNotification b outpoint).2.spendID =
          some (newSpendNotification b outpoint).2) ∧
    (∀ err, be.NotifySpent [outpoint] = some err →
      RegisterSpendNtfn lib be fuel false quit2 b outpoint heightHint =
        some { b := (newSpendNotification b outpoint).1,
               sent := [Msg.spendNotification (newSpendNotification b outpoint).2],
               ret := .error err }) ∧
    (∀ err, be.NotifySpent [outpoint] = none →
      be.GetTxOut outpoint.Hash outpoint.Index true = .error err →
      RegisterSpendNtfn lib be fuel false quit2 b outpoint heightHint =
        some { b := (newSpendNotification b outpoint).1,
               sent := [Msg.spendNotification (newSpendNotification b outpoint).2],
               ret := .error err }) ∧
    (be.NotifySpent [outpoint] = none →
      be.GetTxOut outpoint.Hash outpoint.Index true = .ok none →
      (∀ err, be.GetRawTransactionVerbose outpoint.Hash = .error err →
        notNoTxInfo err = true →
        RegisterSpendNtfn lib be fuel false quit2 b outpoint heightHint =
          some { b := (newSpendNotification b outpoint).1,
                 sent := [Msg.spendNotification (newSpendNotification b outpoint).2],
                 ret := .error (.wrapped err) }) ∧
      (∀ tx err, be.GetRawTransactionVerbose outpoint.Hash = .ok (some tx) →
        tx.BlockHash ≠ "" → lib.NewHashFromStr tx.BlockHash = .error err →
        RegisterSpendNtfn lib be fuel false quit2 b outpoint heightHint =
          some { b := (newSpendNotification b outpoint).1,
                 sent := [Msg.spendNotification (newSpendNotification b outpoint).2],
                 ret := .error err }) ∧
      (∀ err, indexSilent be outpoint →
        be.GetBlockHash (heightHint : Int) = .error err →
        RegisterSpendNtfn lib be fuel false quit2 b outpoint heightHint =
          some { b := (newSpendNotification b outpoint).1,
                 sent := [Msg.spendNotification (newSpendNotification b outpoint).2],
                 ret := .error err }) ∧
      (∀ blockHash err, rescanStartsAt lib be outpoint heightHint blockHash →
        be.GetBlockHeight blockHash = .error err →
        RegisterSpendNtfn lib be fuel false quit2 b outpoint heightHint =
          some { b := (newSpendNotification b outpoint).1,
                 sent := [Msg.spendNotification (newSpendNotification b outpoint).2],
                 ret := .error err }) ∧
      (∀ blockHash start err, rescanStartsAt lib be outpoint heightHint blockHash →
        be.GetBlockHeight blockHash = .ok start →
        be.GetBestBlock = .error err →
        RegisterSpendNtfn lib be fuel false quit2 b outpoint heightHint =
          some { b := (newSpendNotification b outpoint).1,
                 sent := [Msg.spendNotification (newSpendNotification b outpoint).2],
                 ret := .error err }) ∧
      (∀ (blockHash bestHash : Hash) (start tip h : Int) (err : Error),
        rescanStartsAt lib be outpoint heightHint blockHash →
        be.GetBlockHeight blockHash = .ok start →
        be.GetBestBlock = .ok (bestHash, tip) →
        -2147483648 ≤ start → tip ≤ 2147483647 → start ≤ h → h ≤ tip →
        rescanClean be outpoint start h → (h - start).toNat < fuel →
        be.GetBlockHash h = .error err →
        RegisterSpendNtfn lib be fuel false quit2 b outpoint heightHint =
          some { b := (newSpendNotification b outpoint).1,
                 sent := [Msg.spendNotification (newSpendNotification b outpoint).2],
                 ret := .error err }) ∧
      (∀ (blockHash bestHash hash : Hash) (start tip h : Int) (err : Error),
        rescanStartsAt lib be outpoint heightHint blockHash →
        be.GetBlockHeight blockHash = .ok start →
        be.GetBestBlock = .ok (bestHash, tip) →
        -2147483648 ≤ start → tip ≤ 2147483647 → start ≤ h → h ≤ tip →
        rescanClean be outpoint start h → (h - start).toNat < fuel →
        be.GetBlockHash h = .ok hash → be.GetBlock hash = .error err →
        RegisterSpendNtfn lib be fuel false quit2 b outpoint heightHint =
          some { b := (newSpendNotification b outpoint).1,
                 sent := [Msg.spendNotification (newSpendNotification b outpoint).2],
                 ret := .error err })) ∧
    (∀ err, be.NotifySpent [outpoint] = none →
      be.GetTxOut outpoint.Hash outpoint.Index true = .ok none →
      rescanBounds lib be outpoint heightHint = .error err →
      RegisterSpendNtfn lib be fuel false quit2 b outpoint heightHint =
        some { b := (newSpendNotification b outpoint).1,
               sent := [Msg.spendNotification (newSpendNotification b outpoint).2],
               ret := .error err }) ∧
    (∀ err startHeight endHeight, be.NotifySpent [outpoint] = none →
      be.GetTxOut outpoint.Hash outpoint.Index true = .ok none →
      rescanBounds lib be outpoint heightHint = .ok (startHeight, endHeight) →
      rescanLoop be outpoint endHeight fuel startHeight = some (.error err) →
      RegisterSpendNtfn lib be fuel false quit2 b outpoint heightHint =
        some { b := (newSpendNotification b outpoint).1,
               sent := [Msg.spendNotification (newSpendNotification b outpoint).2],
               ret := .error err }) ∧
    (∀ err, be.GetRawTransactionVerbose outpoint.Hash = .error err →
      notNoTxInfo err = true →
      rescanBounds lib be outpoint heightHint = .error (.wrapped err)) ∧
    (RegisterConfirmationsNtfn false b txid numConfs heightHint).ret =
      .ok { numConfs := numConfs } ∧
    (RegisterConfirmationsNtfn false b txid numConfs heightHint).sent =
      [Msg.confirmationNotification
        { ConfNtfn := { TxID := txid, NumConfirmations := numConfs },
          heightHint := heightHint }] ∧
    (∀ (s : Dispatcher τ) (err : Error),
      historicalConfDetails lib w.be w.fuel txid heightHint
        (toUint32 (match w.be.GetBestBlock with
          | .ok (_, height) => height
          | .error _ => 0)) = some (.error err) →
      notificationDispatcherStep ops lib w s
        (Msg.confirmationNotification
          { ConfNtfn := { TxID := txid, NumConfirmations := numConfs },
            heightHint := heightHint }) =
        .ok { s with b := { s.b with
          txConfNotifier :=
            (ops.Register s.b.txConfNotifier
              { TxID := txid, NumConfirmations := numConfs } none).2,
          calls := s.b.calls ++
            [Call.Register { TxID := txid, NumConfirmations := numConfs } none] } }) ∧
    (∀ s : Dispatcher τ,
      (∀ err, w.be.GetRawTransactionVerbose txid = .error err → notNoTxInfo err = true →
        notificationDispatcherStep ops lib w s
          (Msg.confirmationNotification
            { ConfNtfn := { TxID := txid, NumConfirmations := numConfs },
              heightHint := heightHint }) =
          .ok { s with b := { s.b with
            txConfNotifier :=
              (ops.Register s.b.txConfNotifier
                { TxID := txid, NumConfirmations := numConfs } none).2,
            calls := s.b.calls ++
              [Call.Register { TxID := txid, NumConfirmations := numConfs } none] } }) ∧
      (∀ tx err, w.be.GetRawTransactionVerbose txid = .ok (some tx) → tx.BlockHash ≠ "" →
        lib.NewHashFromStr tx.BlockHash = .error err →
        notificationDispatcherStep ops lib w s
          (Msg.confirmationNotification
            { ConfNtfn := { TxID := txid, NumConfirmations := numConfs },
              heightHint := heightHint }) =
          .ok { s with b := { s.b with
            txConfNotifier :=
              (ops.Register s.b.txConfNotifier
                { TxID := txid, NumConfirmations := numConfs } none).2,
            calls := s.b.calls ++
              [Call.Register { TxID := txid, NumConfirmations := numConfs } none] } }) ∧
      (∀ tx blockHash err, w.be.GetRawTransactionVerbose txid = .ok (some tx) →
        tx.BlockHash ≠ "" → lib.NewHashFromStr tx.BlockHash = .ok blockHash →
        w.be.GetBlockVerbose blockHash = .error err →
        notificationDispatcherStep ops lib w s
          (Msg.confirmationNotification
            { ConfNtfn := { TxID := txid, NumConfirmations := numConfs },
              heightHint := heightHint }) =
          .ok { s with b := { s.b with
            txConfNotifier :=
              (ops.Register s.b.txConfNotifier
                { TxID := txid, NumConfirmations := numConfs } none).2,
            calls := s.b.calls ++
              [Call.Register { TxID := txid, NumConfirmations := numConfs } none] } }) ∧
      (∀ currentHeight h : Nat,
        currentHeight = toUint32 (match w.be.GetBestBlock with
          | .ok (_, height) => height
          | .error _ => 0) →
        currentHeight < 4294967295 →
        (w.be.GetRawTransactionVerbose txid = .ok none ∨
         (∃ tx, w.be.GetRawTransactionVerbose txid = .ok (some tx) ∧ tx.BlockHash = "") ∨
         (∃ err, w.be.GetRawTransactionVerbose txid = .error err ∧
           notNoTxInfo err = false)) →
        heightHint ≤ h → h ≤ currentHeight →
        scansClean w.be (lib.HashString txid) heightHint h → h - heightHint < w.fuel →
        ((∃ err, w.be.GetBlockHash (h : Int) = .error err) ∨
         (∃ hash err, w.be.GetBlockHash (h : Int) = .ok hash ∧
           w.be.GetBlockVerbose hash = .error err)) →
        notificationDispatcherStep ops lib w s
          (Msg.confirmationNotification
            { ConfNtfn := { TxID := txid, NumConfirmations := numConfs },
              heightHint := heightHint }) =
          .ok { s with b := { s.b with
            txConfNotifier :=
              (ops.Register s.b.txConfNotifier
                { TxID := txid, NumConfirmations := numConfs } none).2,
            calls := s.b.calls ++
              [Call.Register { TxID := txid, NumConfirmations := numConfs } none] } })) := by
  refine ⟨?_, ?_, ?_, ?_, ?_, ?_, ?_, rfl, rfl, ?_, ?_⟩
  · intro r hr
    have hshape : r.b = (newSpendNotification b outpoint).1 ∧
        r.sent.head? = some (Msg.spendNotification (newSpendNotification b outpoint).2) := by
      simp only [RegisterSpendNtfn, Bool.false_eq_true, if_false] at hr
      cases h1 : be.NotifySpent [outpoint] with
      | some err => simp [h1] at hr; subst hr; exact ⟨rfl, rfl⟩
      | none =>
        cases h2 : be.GetTxOut outpoint.Hash outpoint.Index true with
        | error err => simp [h1, h2] at hr; subst hr; exact ⟨rfl, rfl⟩
        | ok out =>
          cases out with
          | some u => simp [h1, h2] at hr; subst hr; exact ⟨rfl, rfl⟩
          | none =>
            cases h3 : rescanBounds lib be outpoint heightHint with
            | error err => simp [h1, h2, h3] at hr; subst hr; exact ⟨rfl, rfl⟩
            | ok bounds =>
              obtain ⟨startHeight, endHeight⟩ := bounds
              cases h4 : rescanLoop be outpoint endHeight fuel startHeight with
              | none => simp [h1, h2, h3, h4] at hr
              | some res =>
                cases res with
                | error err => simp [h1, h2, h3, h4] at hr; subst hr; exact ⟨rfl, rfl⟩
                | ok found =>
                  cases found with
                  | none => simp [h1, h2, h3, h4] at hr; subst hr; exact ⟨rfl, rfl⟩
                  | some relTx =>
                    cases quit2 with
                    | true => simp [h1, h2, h3, h4] at hr; subst hr; exact ⟨rfl, rfl⟩
                    | false => simp [h1, h2, h3, h4] at hr; subst hr; exact ⟨rfl, rfl⟩
    exact ⟨hshape.1, hshape.2,
      dispatcher_spendNotification ops lib w { b := r.b, bestHeight := bestHeight }
        (newSpendNotification b outpoint).2⟩
  · intro err h1
    simp [RegisterSpendNtfn, h1]
  · intro err h1 h2
    simp [RegisterSpendNtfn, h1, h2]
  · intro h1 h2
    have hbounds : ∀ err, rescanBounds lib be outpoint heightHint = .error err →
        RegisterSpendNtfn lib be fuel false quit2 b outpoint heightHint =
          some { b := (newSpendNotification b outpoint).1,
                 sent := [Msg.spendNotification (newSpendNotification b outpoint).2],
                 ret := .error err } := by
      intro err h3
      simp [RegisterSpendNtfn, h1, h2, h3]
    have hloop : ∀ (blockHash bestHash : Hash) (start tip : Int) (err : Error),
        rescanStartsAt lib be outpoint heightHint blockHash →
        be.GetBlockHeight blockHash = .ok start →
        be.GetBestBlock = .ok (bestHash, tip) →
        rescanLoop be outpoint tip fuel start = some (.error err) →
        RegisterSpendNtfn lib be fuel false quit2 b outpoint heightHint =
          some { b := (newSpendNotification b outpoint).1,
                 sent := [Msg.spendNotification (newSpendNotification b outpoint).2],
                 ret := .error err } := by
      intro blockHash bestHash start tip err hstart hheight hbest h4
      have h3 : rescanBounds lib be outpoint heightHint = .ok (start, tip) := by
        rw [rescanBounds_of_start lib be outpoint heightHint blockHash hstart, hheight, hbest]
      simp [RegisterSpendNtfn, h1, h2, h3, h4]
    refine ⟨?_, ?_, ?_, ?_, ?_, ?_, ?_⟩
    · intro err htx hno
      exact hbounds _ (by simp [rescanBounds, htx, hno])
    · intro tx err htx hne hparse
      exact hbounds _ (by simp [rescanBounds, htx, hne, hparse])
    · intro err hsilent hhash
      exact hbounds _ (rescanBounds_hint_fails lib be outpoint heightHint err hsilent hhash)
    · intro blockHash err hstart hheight
      exact hbounds _ (by
        rw [rescanBounds_of_start lib be outpoint heightHint blockHash hstart, hheight])
    · intro blockHash start err hstart hheight hbest
      exact hbounds _ (by
        rw [rescanBounds_of_start lib be outpoint heightHint blockHash hstart, hheight, hbest])
    · intro blockHash bestHash start tip h err hstart hheight hbest hlo hhi hsh hht hclean
        hfuel hfail
      exact hloop blockHash bestHash start tip err hstart hheight hbest
        (rescanLoop_fails_at be outpoint start tip h fuel err hlo hhi hsh hht hclean hfuel
          (Or.inl hfail))
    · intro blockHash bestHash hash start tip h err hstart hheight hbest hlo hhi hsh hht
        hclean hfuel hhash hblk
      exact hloop blockHash bestHash start tip err hstart hheight hbest
        (rescanLoop_fails_at be outpoint start tip h fuel err hlo hhi hsh hht hclean hfuel
          (Or.inr ⟨hash, hhash, hblk⟩))
  · intro err h1 h2 h3
    simp [RegisterSpendNtfn, h1, h2, h3]
  · intro err startHeight endHeight h1 h2 h3 h4
    simp [RegisterSpendNtfn, h1, h2, h3, h4]
  · intro err h1 h2
    simp [rescanBounds, h1, h2]
  · intro s err h
    simp only [notificationDispatcherStep, h]
  · intro s
    have key : ∀ err : Error,
        historicalConfDetails lib w.be w.fuel txid heightHint
          (toUint32 (match w.be.GetBestBlock with
            | .ok (_, height) => height
            | .error _ => 0)) = some (.error err) →
        notificationDispatcherStep ops lib w s
          (Msg.confirmationNotification
            { ConfNtfn := { TxID := txid, NumConfirmations := numConfs },
              heightHint := heightHint }) =
          .ok { s with b := { s.b with
            txConfNotifier :=
              (ops.Register s.b.txConfNotifier
                { TxID := txid, NumConfirmations := numConfs } none).2,
            calls := s.b.calls ++
              [Call.Register { TxID := txid, NumConfirmations := numConfs } none] } } := by
      intro err h
      simp only [notificationDispatcherStep, h]
    refine ⟨?_, ?_, ?_, ?_⟩
    · intro err h1 h2
      exact key (.wrapped err)
        (by simp [historicalConfDetails, confDetailsFromTxIndex, h1, h2])
    · intro tx err h1 h2 h3
      exact key (.wrapped err)
        (by simp [historicalConfDetails, confDetailsFromTxIndex, h1, h2, h3])
    · intro tx blockHash err h1 h2 h3 h4
      exact key (.wrapped err)
        (by simp [historicalConfDetails, confDetailsFromTxIndex, h1, h2, h3, h4])
    · intro currentHeight h hbest hcur hsilent hlo hhi hclean hfuel hfail
      subst hbest
      have hindex : confDetailsFromTxIndex lib w.be txid = .ok none := by
        rcases hsilent with h1 | ⟨tx, h1, h2⟩ | ⟨err, h1, h2⟩
        · simp [confDetailsFromTxIndex, h1]
        · simp [confDetailsFromTxIndex, h1, h2]
        · simp [confDetailsFromTxIndex, h1, h2]
      have hh : heightHint + (h - heightHint) = h := by omega
      have hscan :
          historicalConfDetails lib w.be w.fuel txid heightHint
            (toUint32 (match w.be.GetBestBlock with
              | .ok (_, height) => height
              | .error _ => 0)) =
          confDetailsManuallyLoop w.be (lib.HashString txid)
            (toUint32 (match w.be.GetBestBlock with
              | .ok (_, height) => height
              | .error _ => 0)) (w.fuel - (h - heightHint)) h := by
        simp only [historicalConfDetails, hindex, confDetailsManually]
        rw [confDetailsManuallyLoop_skip w.be _ _ hcur (h - heightHint) heightHint w.fuel
          (by rw [hh]; exact hclean) (by omega) (by omega), hh]
      obtain ⟨fuel1, hf1⟩ : ∃ f, w.fuel - (h - heightHint) = f + 1 :=
        ⟨w.fuel - (h - heightHint) - 1, by omega⟩
      rcases hfail with ⟨err, hfail⟩ | ⟨hash, err, hhash, hblk⟩
      · exact key (.message 1) (by
          rw [hscan, hf1, confDetailsManuallyLoop]
          simp only [hhi, if_true, hfail])
      · exact key (.wrapped err) (by
          rw [hscan, hf1, confDetailsManuallyLoop]
          simp only [hhi, if_true, hhash, hblk])

/-- C6, witness: the sample backend with a failing `NotifySpent`; the sample
backend with the block at height 101 lost, the rescan from the height hint
100 failing there; the sample backend with a failing transaction index, for
the dispatcher's lookup. -/
theorem registration_failure_propagated_witness :
    downBackend.NotifySpent [sampleOutpoint] = some (.backend 1) ∧
    RegisterSpendNtfn sampleLib downBackend 200 false false
        (BitcoindNotifier.new 0 : BitcoindNotifier Nat) sampleOutpoint 100 =
      some { b := (newSpendNotification (BitcoindNotifier.new 0) sampleOutpoint).1,
             sent := [Msg.spendNotification
               (newSpendNotification (BitcoindNotifier.new 0 : BitcoindNotifier Nat)
                 sampleOutpoint).2],
             ret := .error (.backend 1) } ∧
    rescanStartsAt sampleLib lostBlockBackend sampleOutpoint 100 1100 ∧
    rescanClean lostBlockBackend sampleOutpoint 100 101 ∧
    lostBlockBackend.GetBlockHash 101 = .ok 1101 ∧
    lostBlockBackend.GetBlock 1101 = .error (.backend 2) ∧
    RegisterSpendNtfn sampleLib lostBlockBackend 200 false false
        (BitcoindNotifier.new 0 : BitcoindNotifier Nat) sampleOutpoint 100 =
      some { b := (newSpendNotification (BitcoindNotifier.new 0) sampleOutpoint).1,
             sent := [Msg.spendNotification
               (newSpendNotification (BitcoindNotifier.new 0 : BitcoindNotifier Nat)
                 sampleOutpoint).2],
             ret := .error (.backend 2) } ∧
    historicalConfDetails sampleLib brokenIndexBackend 200 42 100
        (toUint32 (match brokenIndexBackend.GetBestBlock with
          | .ok (_, height) => height
          | .error _ => 0)) = some (.error (.wrapped (.rpc (-1)))) ∧
    notificationDispatcherStep countingTracker sampleLib
        { sampleWorld with be := brokenIndexBackend }
        { b := sampleNotifier, bestHeight := 102 }
        (Msg.confirmationNotification
          { ConfNtfn := { TxID := 42, NumConfirmations := 3 }, heightHint := 100 }) =
      .ok { b := { sampleNotifier with
                   txConfNotifier := 1,
                   calls := [Call.Register { TxID := 42, NumConfirmations := 3 } none] },
            bestHeight := 102 } := by
  have hstart : rescanStartsAt sampleLib lostBlockBackend sampleOutpoint 100 1100 :=
    Or.inr ⟨Or.inr (Or.inr ⟨.rpc ErrRPCNoTxInfo, rfl, by decide⟩), by decide⟩
  have hclean : rescanClean lostBlockBackend sampleOutpoint 100 101 := by
    intro i hlo hhi
    have hi : i = 100 := by omega
    subst hi
    exact ⟨1100, { Header := { Timestamp := 0, hash := 1100 }, Transactions := [] },
      by decide, by decide, by simp⟩
  exact ⟨rfl,
   (registration_failure_propagated countingTracker sampleLib downBackend 200 false
      (BitcoindNotifier.new 0) sampleOutpoint 100 sampleWorld 102 42 3).2.1 (.backend 1) rfl,
   hstart, hclean, by decide, by decide,
   ((registration_failure_propagated countingTracker sampleLib lostBlockBackend 200 false
      (BitcoindNotifier.new 0) sampleOutpoint 100 sampleWorld 102 42 3).2.2.2.1
      rfl rfl).2.2.2.2.2.2 1100 1102 1101 100 102 101 (.backend 2) hstart (by decide)
      (by decide) (by decide) (by decide) (by decide) (by decide) hclean (by decide)
      (by decide) (by decide),
   by decide,
   (registration_failure_propagated countingTracker sampleLib downBackend 200 false
      (BitcoindNotifier.new 0) sampleOutpoint 100
      { sampleWorld with be := brokenIndexBackend } 102 42 3).2.2.2.2.2.2.2.2.2.1
      { b := sampleNotifier, bestHeight := 102 } (.wrapped (.rpc (-1))) (by decide)⟩

/-! ## Block connects and the spend index -/

/-- C7, counterexample: a block connect does not dispatch spends. The state
holds a subscription for `sampleOutpoint` and best height 100; the block
connected at height 101 is fetched and contains a transaction whose input 2
spends that outpoint. After the step the best height is 101, yet the
outpoint is still in the spend index and the subscriber's channel is still
empty and open. -/
theorem BlockConnected_leaves_spend_pending :
    (sampleBackend.GetBlock 1101).toOption.map (fun blk => blk.Transactions) =
      some [sampleSpendingTx] ∧
    sampleSpendingTx.TxIn[2]? = some { PreviousOutPoint := sampleOutpoint } ∧
    sampleNotifier.spendNotifications.get sampleOutpoint = some [(1, sampleNtfn)] ∧
    (notificationDispatcherStep countingTracker sampleLib sampleWorld
        { b := sampleNotifier, bestHeight := 100 } (Msg.BlockConnected 1101 101)
      ).toOption.map (fun s => (s.bestHeight, s.b.spendNotifications, s.b.spendChans)) =
      some (101, [(sampleOutpoint, [(1, sampleNtfn)])], [SpendChan.make]) := by
  refine ⟨?_, ?_, ?_, ?_⟩
  · decide
  · decide
  · decide
  · rfl

theorem notifyBlockEpochs_frame {τ : Type} (sched : Nat → Bool) (b b1 : BitcoindNotifier τ)
    (newHeight : Int) (newSha : Hash)
    (h : notifyBlockEpochs sched b newHeight newSha = .ok b1) :
    ∃ clients, b1 = { b with blockEpochClients := clients } := by
  unfold notifyBlockEpochs at h
  cases hl : notifyBlockEpochsLoop b.quit sched { Height := newHeight, Hash := newSha }
      b.blockEpochClients with
  | ok clients =>
    simp only [hl, Outcome.bind, Outcome.ok.injEq] at h
    exact ⟨clients, h.symm⟩
  | panic p => simp [hl, Outcome.bind] at h
  | blocked => simp [hl, Outcome.bind] at h
  | timeout => simp [hl, Outcome.bind] at h

theorem BlockConnected_spend_frame {τ : Type} (ops : TxConfNotifier τ) (lib : Chainhash)
    (w : World) (s s1 : Dispatcher τ) (hash : Nat) (height : Int)
    (h : notificationDispatcherStep ops lib w s (Msg.BlockConnected hash height) = .ok s1) :
    s1.b.spendNotifications = s.b.spendNotifications ∧ s1.b.spendChans = s.b.spendChans := by
  simp only [notificationDispatcherStep] at h
  by_cases hh : height = wrapInt32 (s.bestHeight + 1)
  · simp only [hh, ne_eq, not_true_eq_false, if_false] at h
    cases hblk : w.be.GetBlock hash with
    | error err =>
      simp only [hblk, Outcome.ok.injEq] at h
      subst h
      exact ⟨rfl, rfl⟩
    | ok rawBlock =>
      simp only [hblk] at h
      cases hn : notifyBlockEpochs w.sched s.b (wrapInt32 (s.bestHeight + 1)) hash with
      | ok b1 =>
        obtain ⟨clients, hb1⟩ := notifyBlockEpochs_frame _ _ _ _ _ hn
        simp only [hn, Outcome.bind, Outcome.ok.injEq] at h
        subst h
        subst hb1
        exact ⟨rfl, rfl⟩
      | panic p => simp [hn, Outcome.bind] at h
      | blocked => simp [hn, Outcome.bind] at h
      | timeout => simp [hn, Outcome.bind] at h
  · simp only [hh, ne_eq, not_false_eq_true, if_true, Outcome.ok.injEq] at h
    subst h
    exact ⟨rfl, rfl⟩

theorem handleRelevantTx_first_spender {τ : Type} (b : BitcoindNotifier τ)
    (txRecord : TxRecord) (block : BlockMeta) (bestHeight : Int) (hinv : SpendInv b)
    (k : Nat) (txIn : TxIn) (clients : GoMap Nat spendNotification)
    (hk : txRecord.MsgTx.TxIn[k]? = some txIn) (hlt : k < 4294967296)
    (hget : b.spendNotifications.get txIn.PreviousOutPoint = some clients)
    (hfirst : ∀ (j : Nat) (t : TxIn), j < k → txRecord.MsgTx.TxIn[j]? = some t →
      t.PreviousOutPoint ≠ txIn.PreviousOutPoint) :
    ∃ b1, handleRelevantTx b { TxRecord := txRecord, Block := some block } bestHeight
        = .ok b1 ∧
      (∀ x ∈ clients, b1.spendChans[x.2.spendChan]? =
        some (SpendChan.dispatched
          (spendDetailOf txRecord.MsgTx block.Height txIn.PreviousOutPoint k))) ∧
      b1.spendNotifications.get txIn.PreviousOutPoint = none := by
  obtain ⟨b1, hrun, _, heq, _, _, hdisp⟩ :=
    handleRelevantTxLoop_spec txRecord.MsgTx block.Height txRecord.MsgTx.TxIn 0 b hinv
  refine ⟨b1, hrun, ?_, ?_⟩
  · intro x hx
    have := hdisp k txIn clients hk hget hfirst x hx
    have hw : wrapUint32 (0 + k) = k := by
      unfold wrapUint32
      omega
    rw [hw] at this
    exact this
  · have hidx : b1.spendNotifications =
        txRecord.MsgTx.TxIn.foldl (fun m txIn => GoMap.delete m txIn.PreviousOutPoint)
          b.spendNotifications := by
      rw [heq]
    rw [hidx, GoMap.get_foldl_delete]
    have : txIn.PreviousOutPoint ∈
        txRecord.MsgTx.TxIn.map (fun txIn => txIn.PreviousOutPoint) :=
      List.mem_map_of_mem _ (List.getElem?_mem hk)
    rw [if_pos this]

/-- C7, amended: spend detection is not part of a block connect. Whenever the
dispatcher step on a `BlockConnected` event completes, in order or not,
fetched or not, the spend index and every spend channel are as before: an
in-order, fetched block is only announced to the epoch clients and passed to
`ConnectTip`. The spend is dispatched by the step on the `RelevantTx` event
the backend delivers for the spending transaction with its block meta: in a
state satisfying the spend-index invariant, if outpoint O has registered
subscribers and input `k` (below 2^32) of the transaction is its first input
spending O, the step completes, each subscriber of O holds exactly one
`SpendDetail` with the hash of the transaction, input index `k` and the
height of the block meta, on a closed channel, and O is removed from the
index. -/
theorem spend_detection_on_RelevantTx {τ : Type} (ops : TxConfNotifier τ) (lib : Chainhash)
    (w : World) (s : Dispatcher τ) :
    (∀ (hash : Nat) (height : Int) (s1 : Dispatcher τ),
      notificationDispatcherStep ops lib w s (Msg.BlockConnected hash height) = .ok s1 →
      s1.b.spendNotifications = s.b.spendNotifications ∧
      s1.b.spendChans = s.b.spendChans) ∧
    (∀ (txRecord : TxRecord) (block : BlockMeta) (k : Nat) (txIn : TxIn)
        (clients : GoMap Nat spendNotification),
      SpendInv s.b →
      txRecord.MsgTx.TxIn[k]? = some txIn → k < 4294967296 →
      s.b.spendNotifications.get txIn.PreviousOutPoint = some clients →
      (∀ (j : Nat) (t : TxIn), j < k → txRecord.MsgTx.TxIn[j]? = some t →
        t.PreviousOutPoint ≠ txIn.PreviousOutPoint) →
      ∃ s1, notificationDispatcherStep ops lib w s
          (Msg.RelevantTx { TxRecord := txRecord, Block := some block }) = .ok s1 ∧
        (∀ x ∈ clients, s1.b.spendChans[x.2.spendChan]? =
          some { buf := [{ SpentOutPoint := txIn.PreviousOutPoint,
                           SpenderTxHash := txRecord.MsgTx.TxHash,
                           SpendingTx := txRecord.MsgTx,
                           SpenderInputIndex := k,
                           SpendingHeight := block.Height }],
                 closed := true, written := 1 }) ∧
        s1.b.spendNotifications.get txIn.PreviousOutPoint = none) := by
  refine ⟨fun hash height s1 h => BlockConnected_spend_frame ops lib w s s1 hash height h, ?_⟩
  intro txRecord block k txIn clients hinv hk hlt hget hfirst
  obtain ⟨b1, hrun, hch, hidx⟩ :=
    handleRelevantTx_first_spender s.b txRecord block s.bestHeight hinv k txIn clients
      hk hlt hget hfirst
  refine ⟨{ s with b := b1 }, ?_, hch, hidx⟩
  simp only [notificationDispatcherStep, hrun, Outcome.bind]

theorem spend_detection_on_RelevantTx_witness :
    notificationDispatcherStep countingTracker sampleLib sampleWorld sampleDispatcher
        (Msg.BlockConnected 1101 101) = .ok sampleConnected ∧
    (sampleConnected.b.spendNotifications = sampleDispatcher.b.spendNotifications ∧
      sampleConnected.b.spendChans = sampleDispatcher.b.spendChans) ∧
    SpendInv sampleConnected.b ∧
    sampleTxRecord.MsgTx.TxIn[2]? = some { PreviousOutPoint := sampleOutpoint } ∧
    sampleConnected.b.spendNotifications.get sampleOutpoint = some [(1, sampleNtfn)] ∧
    ∃ s1, notificationDispatcherStep countingTracker sampleLib sampleWorld sampleConnected
        (Msg.RelevantTx { TxRecord := sampleTxRecord, Block := some sampleBlockMeta })
        = .ok s1 ∧
      (∀ x ∈ [(1, sampleNtfn)], s1.b.spendChans[x.2.spendChan]? =
        some { buf := [{ SpentOutPoint := sampleOutpoint,
                         SpenderTxHash := sampleTxRecord.MsgTx.TxHash,
                         SpendingTx := sampleTxRecord.MsgTx,
                         SpenderInputIndex := 2,
                         SpendingHeight := sampleBlockMeta.Height }],
               closed := true, written := 1 }) ∧
      s1.b.spendNotifications.get sampleOutpoint = none :=
  ⟨by decide,
   (spend_detection_on_RelevantTx countingTracker sampleLib sampleWorld
      sampleDispatcher).1 1101 101 sampleConnected (by decide),
   sampleNotifier_inv.congr rfl rfl, by decide, by decide,
   (spend_detection_on_RelevantTx countingTracker sampleLib sampleWorld
      sampleConnected).2 sampleTxRecord sampleBlockMeta 2
      { PreviousOutPoint := sampleOutpoint } [(1, sampleNtfn)]
      (sampleNotifier_inv.congr rfl rfl) (by decide) (by decide) (by decide)
      (by
        intro j t hj ht
        have hj2 : j = 0 ∨ j = 1 := by omega
        rcases hj2 with rfl | rfl
        · simp [sampleTxRecord, sampleSpendingTx] at ht
          subst ht
          decide
        · simp [sampleTxRecord, sampleSpendingTx] at ht
          subst ht
          decide)⟩

/-! ## The manual scan for a confirmation -/

/-- C10: `confDetailsManually` is a first-match linear scan. For every txid,
height hint and current height below 2^32 - 1, writing `target` for the
text of the txid: (1) if the heights from the hint up to `h` excluded are
served and do not list `target`, and the block at `h`, with `h` between the
hint and the current height, is served and lists `target` first at position
`k` (below 2^32), the function returns, for any fuel above `h - heightHint`,
the confirmation with the hash the backend gave for height `h`, height `h`
and index `k`; (2) if every height from the hint to the current height is
served and none lists `target`, it returns (nil, no error) for any fuel
above the number of heights, (3) and whenever it returns (nil, no error)
every such height was served and none lists `target`, (4) in particular it
returns (nil, no error) at once when the hint exceeds the current height;
(5) if the heights before `h` are served without a match and a backend call
fails at `h`, it returns an error and no confirmation: a fresh error when
`GetBlockHash` fails, the wrapped error of `GetBlockVerbose` when that
fails. -/
theorem confDetailsManually_first_match (lib : Chainhash) (be : BitcoindClient)
    (txid : Hash) (heightHint currentHeight : Nat) (hcur : currentHeight < 4294967295) :
    (∀ (h : Nat) (hash : Hash) (blk : GetBlockVerboseResult) (k : Nat),
      heightHint ≤ h → h ≤ currentHeight →
      scansClean be (lib.HashString txid) heightHint h →
      be.GetBlockHash (h : Int) = .ok hash → be.GetBlockVerbose hash = .ok blk →
      firstOccurrence (lib.HashString txid) blk.Tx k → k < 4294967296 →
      ∀ fuel : Nat, h - heightHint < fuel →
        confDetailsManually lib be fuel txid heightHint currentHeight =
          some (.ok (some { BlockHash := hash, BlockHeight := h, TxIndex := k }))) ∧
    (scansClean be (lib.HashString txid) heightHint (currentHeight + 1) →
      ∀ fuel : Nat, currentHeight + 1 - heightHint < fuel →
        confDetailsManually lib be fuel txid heightHint currentHeight = some (.ok none)) ∧
    (∀ fuel : Nat,
      confDetailsManually lib be fuel txid heightHint currentHeight = some (.ok none) →
      scansClean be (lib.HashString txid) heightHint (currentHeight + 1)) ∧
    (currentHeight < heightHint → ∀ fuel : Nat, 0 < fuel →
      confDetailsManually lib be fuel txid heightHint currentHeight = some (.ok none)) ∧
    (∀ h : Nat, heightHint ≤ h → h ≤ currentHeight →
      scansClean be (lib.HashString txid) heightHint h →
      (∀ err, be.GetBlockHash (h : Int) = .error err →
        ∀ fuel : Nat, h - heightHint < fuel →
          confDetailsManually lib be fuel txid heightHint currentHeight =
            some (.error (.message 1))) ∧
      (∀ hash err, be.GetBlockHash (h : Int) = .ok hash →
        be.GetBlockVerbose hash = .error err →
        ∀ fuel : Nat, h - heightHint < fuel →
          confDetailsManually lib be fuel txid heightHint currentHeight =
            some (.error (.wrapped err)))) := by
  have hskip : ∀ (h fuel : Nat), heightHint ≤ h → h ≤ currentHeight + 1 →
      scansClean be (lib.HashString txid) heightHint h → h - heightHint < fuel →
      confDetailsManually lib be fuel txid heightHint currentHeight =
        confDetailsManuallyLoop be (lib.HashString txid) currentHeight
          (fuel - (h - heightHint) - 1 + 1) h := by
    intro h fuel hlo hhi hclean hfuel
    have hh : heightHint + (h - heightHint) = h := by omega
    unfold confDetailsManually
    rw [confDetailsManuallyLoop_skip be _ currentHeight hcur (h - heightHint) heightHint fuel
      (by rw [hh]; exact hclean) (by omega) (by omega), hh]
    congr 1
    omega
  refine ⟨?_, ?_, ?_, ?_, ?_⟩
  · intro h hash blk k hlo hhi hclean h1 h2 hk hklt fuel hfuel
    rw [hskip h fuel hlo (by omega) hclean hfuel, confDetailsManuallyLoop]
    have hfind := findTxIndex_first (lib.HashString txid) blk.Tx 0 k hk
    have hw : wrapUint32 (0 + k) = k := by
      unfold wrapUint32
      omega
    simp only [hhi, if_true, h1, h2, hfind, hw]
  · intro hclean fuel hfuel
    by_cases hle : heightHint ≤ currentHeight + 1
    · rw [hskip (currentHeight + 1) fuel hle (Nat.le_refl _) hclean hfuel,
        confDetailsManuallyLoop]
      simp
    · obtain ⟨fuel1, rfl⟩ : ∃ f, fuel = f + 1 := ⟨fuel - 1, by omega⟩
      unfold confDetailsManually
      rw [confDetailsManuallyLoop]
      have : ¬ heightHint ≤ currentHeight := by omega
      simp [this]
  · intro fuel h
    exact confDetailsManuallyLoop_nil be _ currentHeight hcur fuel heightHint h
  · intro hlt fuel hfuel
    obtain ⟨fuel1, rfl⟩ : ∃ f, fuel = f + 1 := ⟨fuel - 1, by omega⟩
    unfold confDetailsManually
    rw [confDetailsManuallyLoop]
    have : ¬ heightHint ≤ currentHeight := by omega
    simp [this]
  · intro h hlo hhi hclean
    refine ⟨?_, ?_⟩
    · intro err h1 fuel hfuel
      rw [hskip h fuel hlo (by omega) hclean hfuel, confDetailsManuallyLoop]
      simp only [hhi, if_true, h1]
    · intro hash err h1 h2 fuel hfuel
      rw [hskip h fuel hlo (by omega) hclean hfuel, confDetailsManuallyLoop]
      simp only [hhi, if_true, h1, h2]

theorem confDetailsManually_first_match_witness :
    (102 : Nat) < 4294967295 ∧
    scansClean sampleBackend (sampleLib.HashString 42) 100 101 ∧
    firstOccurrence (sampleLib.HashString 42) ["29", "2a"] 1 ∧
    confDetailsManually sampleLib sampleBackend 2 42 100 102 =
      some (.ok (some { BlockHash := 1101, BlockHeight := 101, TxIndex := 1 })) ∧
    (102 < 103 → ∀ fuel : Nat, 0 < fuel →
      confDetailsManually sampleLib sampleBackend fuel 42 103 102 = some (.ok none)) :=
  have hclean : scansClean sampleBackend (sampleLib.HashString 42) 100 101 := by
    intro h hlo hhi
    have h100 : h = 100 := by omega
    subst h100
    exact ⟨1100, { Height := 100, Tx := [] }, by decide, by decide, by decide⟩
  have hfirst : firstOccurrence (sampleLib.HashString 42) ["29", "2a"] 1 := by
    refine ⟨by decide, ?_⟩
    intro j hj
    have h0 : j = 0 := by omega
    subst h0
    decide
  ⟨by decide, hclean, hfirst,
   (confDetailsManually_first_match sampleLib sampleBackend 42 100 102 (by decide)).1
      101 1101 { Height := 101, Tx := ["29", "2a"] } 1 (by decide) (by decide) hclean
      (by decide) (by decide) hfirst (by decide) 2 (by decide),
   (confDetailsManually_first_match sampleLib sampleBackend 42 103 102
      (by decide)).2.2.2.1⟩

/-! ## The epoch stream -/

theorem enqueued_nil (c : blockEpochRegistration) : enqueued [] c = c := by
  simp [enqueued]

theorem enqueued_append (eps1 eps2 : List BlockEpoch) (c : blockEpochRegistration) :
    enqueued eps2 (enqueued eps1 c) = enqueued (eps1 ++ eps2) c := by
  simp [enqueued, List.append_assoc]

theorem liveEpochClient_enqueued (eps : List BlockEpoch) (c : blockEpochRegistration)
    (h : liveEpochClient c) : liveEpochClient (enqueued eps c) := h

theorem notifyBlockEpochsLoop_live (sched : Nat → Bool) (epoch : BlockEpoch)
    (clients : List (Nat × blockEpochRegistration))
    (hlive : ∀ e ∈ clients, liveEpochClient e.2) :
    notifyBlockEpochsLoop false sched epoch clients =
      .ok (clients.map fun e => (e.1, enqueued [epoch] e.2)) := by
  induction clients with
  | nil => rfl
  | cons e rest ih =>
    obtain ⟨id, c⟩ := e
    have hc : liveEpochClient c := hlive (id, c) (List.mem_cons_self _ _)
    have hsel : selectEpoch false (sched id) epoch c = .ok (enqueued [epoch] c) := by
      simp [selectEpoch, hc.1, hc.2, enqueued]
    simp only [notifyBlockEpochsLoop, hsel, Outcome.bind,
      ih (fun e1 he1 => hlive e1 (List.mem_cons_of_mem _ he1)), List.map_cons]

theorem epoch_step {τ : Type} (ops : TxConfNotifier τ) (lib : Chainhash) (w : World)
    (s : Dispatcher τ) (msg : Msg) (hchain : msg.isChainEvent = true)
    (hquit : s.b.quit = false) (hlive : ∀ e ∈ s.b.blockEpochClients, liveEpochClient e.2)
    (hinv : SpendInv s.b) :
    ∃ s1, notificationDispatcherStep ops lib w s msg = .ok s1 ∧
      s1.b.quit = false ∧ SpendInv s1.b ∧
      s1.b.blockEpochClients = s.b.blockEpochClients.map
        (fun e => (e.1, enqueued (connectedEpochs s.bestHeight [(w, msg)]) e.2)) ∧
      ∀ rest, connectedEpochs s.bestHeight ((w, msg) :: rest) =
        connectedEpochs s.bestHeight [(w, msg)] ++ connectedEpochs s1.bestHeight rest := by
  have hid : s.b.blockEpochClients = s.b.blockEpochClients.map
      (fun e => (e.1, enqueued [] e.2)) := by
    simp [enqueued_nil]
  cases msg with
  | BlockConnected hash height =>
    by_cases hh : height = wrapInt32 (s.bestHeight + 1)
    · subst hh
      cases hblk : w.be.GetBlock hash with
      | error err =>
        refine ⟨{ s with bestHeight := wrapInt32 (s.bestHeight + 1) }, ?_, hquit, hinv, ?_, ?_⟩
        · simp [notificationDispatcherStep, hblk]
        · simpa [connectedEpochs, hblk] using hid
        · intro rest
          simp [connectedEpochs, hblk]
      | ok rawBlock =>
        have hloop := notifyBlockEpochsLoop_live w.sched
          { Height := wrapInt32 (s.bestHeight + 1), Hash := hash } s.b.blockEpochClients hlive
        apply Outcome.ok_and
        · exact ⟨_, by
            simp only [notificationDispatcherStep, hblk, notifyBlockEpochs, hquit,
              hloop, Outcome.bind, ne_eq, not_true_eq_false, if_false]
            rfl⟩
        · intro s1 h
          simp only [notificationDispatcherStep, hblk, notifyBlockEpochs, hquit,
            hloop, Outcome.bind, ne_eq, not_true_eq_false, if_false] at h
          cases h
          refine ⟨rfl, hinv.congr rfl rfl, ?_, ?_⟩
          · simp [connectedEpochs, hblk]
          · intro rest
            simp [connectedEpochs, hblk]
    · refine ⟨s, ?_, hquit, hinv, ?_, ?_⟩
      · simp [notificationDispatcherStep, hh]
      · simpa [connectedEpochs, hh] using hid
      · intro rest
        simp [connectedEpochs, hh]
  | BlockDisconnected hash height =>
    by_cases hh : height = s.bestHeight
    · subst hh
      apply Outcome.ok_and
      · exact ⟨_, by
          simp only [notificationDispatcherStep, ne_eq, not_true_eq_false, if_false]
          rfl⟩
      · intro s1 h
        simp only [notificationDispatcherStep, ne_eq, not_true_eq_false, if_false] at h
        cases h
        refine ⟨hquit, hinv.congr rfl rfl, ?_, ?_⟩
        · simpa [connectedEpochs] using hid
        · intro rest
          simp [connectedEpochs]
    · refine ⟨s, ?_, hquit, hinv, ?_, ?_⟩
      · simp [notificationDispatcherStep, hh]
      · simpa [connectedEpochs, hh] using hid
      · intro rest
        simp [connectedEpochs, hh]
  | RelevantTx tx =>
    obtain ⟨b1, hrun, hinv1, hep⟩ := handleRelevantTx_inv s.b tx s.bestHeight hinv
    have hq : b1.quit = s.b.quit := by
      cases hblk : tx.Block with
      | none =>
        simp [handleRelevantTx, hblk] at hrun
        rw [← hrun]
      | some block =>
        obtain ⟨b2, hrun2, _, heq, _⟩ :=
          handleRelevantTxLoop_spec tx.TxRecord.MsgTx block.Height tx.TxRecord.MsgTx.TxIn
            0 s.b hinv
        simp only [handleRelevantTx, hblk, hrun2, Outcome.ok.injEq] at hrun
        subst hrun
        rw [heq]
    refine ⟨{ s with b := b1 }, ?_, hq.trans hquit, hinv1, ?_, ?_⟩
    · simp [notificationDispatcherStep, hrun, Outcome.bind]
    · show b1.blockEpochClients = _
      rw [hep]
      simpa [connectedEpochs] using hid
    · intro rest
      simp [connectedEpochs]
  | spendCancel msg => simp [Msg.isChainEvent] at hchain
  | epochCancel msg => simp [Msg.isChainEvent] at hchain
  | spendNotification msg => simp [Msg.isChainEvent] at hchain
  | confirmationNotification msg => simp [Msg.isChainEvent] at hchain
  | blockEpochRegistration msg => simp [Msg.isChainEvent] at hchain
  | registryRelevantTx msg => simp [Msg.isChainEvent] at hchain

theorem epoch_run {τ : Type} (ops : TxConfNotifier τ) (lib : Chainhash)
    (events : List (World × Msg)) :
    ∀ s : Dispatcher τ, (∀ ev ∈ events, ev.2.isChainEvent = true) →
      s.b.quit = false → (∀ e ∈ s.b.blockEpochClients, liveEpochClient e.2) →
      SpendInv s.b →
      ∃ s1, notificationDispatcher ops lib events s = .ok s1 ∧
        s1.b.blockEpochClients = s.b.blockEpochClients.map
          (fun e => (e.1, enqueued (connectedEpochs s.bestHeight events) e.2)) := by
  induction events with
  | nil =>
    intro s _ _ _ _
    exact ⟨s, rfl, by simp [connectedEpochs, enqueued_nil]⟩
  | cons ev rest ih =>
    intro s hchain hquit hlive hinv
    obtain ⟨w, msg⟩ := ev
    obtain ⟨s1, hstep, hquit1, hinv1, hcl1, hsplit⟩ :=
      epoch_step ops lib w s msg (hchain (w, msg) (List.mem_cons_self _ _)) hquit hlive hinv
    have hlive1 : ∀ e ∈ s1.b.blockEpochClients, liveEpochClient e.2 := by
      intro e he
      rw [hcl1] at he
      obtain ⟨e0, he0, rfl⟩ := List.mem_map.mp he
      exact liveEpochClient_enqueued _ _ (hlive e0 he0)
    obtain ⟨s2, hrun, hcl2⟩ :=
      ih s1 (fun ev1 h1 => hchain ev1 (List.mem_cons_of_mem _ h1)) hquit1 hlive1 hinv1
    refine ⟨s2, ?_, ?_⟩
    · simp only [notificationDispatcher, hstep, Outcome.bind]
      exact hrun
    · rw [hcl2, hcl1, List.map_map, hsplit rest]
      apply List.map_congr_left
      intro e _
      simp [enqueued_append]

theorem connectedEpochs_increasing (events : List (World × Msg)) :
    ∀ h : Int, (∀ ev ∈ events, ev.2.isDisconnect = false) →
      (∀ ev ∈ events, ∀ (hash : Nat) (height : Int),
        ev.2 = Msg.BlockConnected hash height → -2147483648 < height) →
      -2147483648 ≤ h → h ≤ 2147483647 →
      (∀ e ∈ connectedEpochs h events, h < e.Height) ∧
      (connectedEpochs h events).Pairwise (fun a b => a.Height < b.Height) := by
  induction events with
  | nil => intro h _ _ _ _; simp [connectedEpochs]
  | cons ev rest ih =>
    intro h hnd hmin hlo hhi
    obtain ⟨w, msg⟩ := ev
    have hnd1 : ∀ ev ∈ rest, ev.2.isDisconnect = false :=
      fun ev1 h1 => hnd ev1 (List.mem_cons_of_mem _ h1)
    have hmin1 : ∀ ev ∈ rest, ∀ (hash : Nat) (height : Int),
        ev.2 = Msg.BlockConnected hash height → -2147483648 < height :=
      fun ev1 h1 => hmin ev1 (List.mem_cons_of_mem _ h1)
    cases msg with
    | BlockConnected hash height =>
      have hgt := hmin (w, Msg.BlockConnected hash height) (List.mem_cons_self _ _)
        hash height rfl
      by_cases hh : height = wrapInt32 (h + 1)
      · have hnext : height = h + 1 ∧ h + 1 ≤ 2147483647 := by
          unfold wrapInt32 at hh
          omega
        obtain ⟨hall, hpw⟩ := ih height hnd1 hmin1 (by omega) (by omega)
        cases hblk : w.be.GetBlock hash with
        | error err =>
          simp only [connectedEpochs, hh, hblk, if_true]
          rw [← hh]
          exact ⟨fun e he => by have := hall e he; omega, hpw⟩
        | ok rawBlock =>
          simp only [connectedEpochs, hh, hblk, if_true]
          rw [← hh]
          refine ⟨?_, List.Pairwise.cons (fun e he => hall e he) hpw⟩
          intro e he
          rcases List.mem_cons.mp he with rfl | he1
          · show h < height
            omega
          · have := hall e he1
            omega
      · simp only [connectedEpochs, hh, if_false]
        exact ih h hnd1 hmin1 hlo hhi
    | BlockDisconnected hash height =>
      have := hnd (w, Msg.BlockDisconnected hash height) (List.mem_cons_self _ _)
      simp [Msg.isDisconnect] at this
    | RelevantTx tx => simpa [connectedEpochs] using ih h hnd1 hmin1 hlo hhi
    | spendCancel msg => simpa [connectedEpochs] using ih h hnd1 hmin1 hlo hhi
    | epochCancel msg => simpa [connectedEpochs] using ih h hnd1 hmin1 hlo hhi
    | spendNotification msg => simpa [connectedEpochs] using ih h hnd1 hmin1 hlo hhi
    | confirmationNotification msg => simpa [connectedEpochs] using ih h hnd1 hmin1 hlo hhi
    | blockEpochRegistration msg => simpa [connectedEpochs] using ih h hnd1 hmin1 hlo hhi
    | registryRelevantTx msg => simpa [connectedEpochs] using ih h hnd1 hmin1 hlo hhi

theorem heightOrdered_of_pairwise (eps : List BlockEpoch)
    (h : eps.Pairwise (fun a b => a.Height < b.Height)) : heightOrdered eps := by
  intro i j e1 e2 hi hj hlt
  rcases List.getElem?_eq_some.mp hi with ⟨hil, rfl⟩
  rcases List.getElem?_eq_some.mp hj with ⟨hjl, rfl⟩
  by_contra hij
  have hji : j ≤ i := by omega
  rcases Nat.lt_or_eq_of_le hji with hlt2 | heq
  · have := (List.pairwise_iff_getElem.mp h) j i hjl hil hlt2
    omega
  · subst heq
    omega

theorem GoMap.get_map_snd {κ ν : Type} [DecidableEq κ] (f : ν → ν) (m : GoMap κ ν) (k : κ) :
    GoMap.get (m.map fun e => (e.1, f e.2)) k = (GoMap.get m k).map f := by
  induction m with
  | nil => rfl
  | cons e rest ih =>
    obtain ⟨k1, v⟩ := e
    by_cases h : k1 = k
    · simp [GoMap.get, h]
    · simp only [List.map_cons, GoMap.get, h, if_false]
      exact ih

/-- C9, counterexample: the epoch stream is not ordered by height across a
reorganisation, and an epoch can be skipped during shutdown. After blocks
101 and 102 are connected, both disconnected and a block at height 101
connected again, the live client 7 has been handed the epochs of heights
101, 102, 101: the last one, of the lower height 101, comes after the one of
height 102. And with the quit channel closed and the select taking the quit
case, an in-order, fetched connect hands the client nothing. -/
theorem epochs_not_height_ordered :
    ((notificationDispatcher countingTracker sampleLib reorgEvents
        { b := epochNotifier, bestHeight := 100 }).toOption.bind
      (fun s => s.b.blockEpochClients.get 7)).map (fun c => c.epochQueue.received) =
      some [{ Height := 101, Hash := 1101 }, { Height := 102, Hash := 1102 },
            { Height := 101, Hash := 1101 }] ∧
    ¬ heightOrdered [{ Height := 101, Hash := 1101 }, { Height := 102, Hash := 1102 },
                     { Height := 101, Hash := 1101 }] ∧
    connectedEpochs 100 [(skippingWorld, Msg.BlockConnected 1101 101)] =
      [{ Height := 101, Hash := 1101 }] ∧
    ((notificationDispatcher countingTracker sampleLib
        [(skippingWorld, Msg.BlockConnected 1101 101)]
        { b := { epochNotifier with quit := true }, bestHeight := 100 }).toOption.bind
      (fun s => s.b.blockEpochClients.get 7)).map (fun c => c.epochQueue.received) =
      some [] := by
  refine ⟨by decide, ?_, by decide, by decide⟩
  intro h
  have := h 2 1 { Height := 101, Hash := 1101 } { Height := 102, Hash := 1102 } rfl rfl
    (by decide)
  omega

/-- C9, amended: the epoch stream follows the connects. For a dispatcher
state that is not shutting down, whose registered epoch clients are live and
whose spend index satisfies its invariant, and for every sequence of chain
events (block connects and disconnects, reorganisations included, and
relevant transactions), the dispatcher completes the sequence and every
registered epoch client has been handed, after what its queue held before,
exactly the epochs of the in-order, successfully fetched `BlockConnected`
events, in the order processed, each with that event's height and hash. When
the sequence holds no `BlockDisconnected` event, the best height is an
`int32` and no connect carries the lowest `int32`, an epoch of lower height
is always delivered before one of greater height. -/
theorem ordered_epochs {τ : Type} (ops : TxConfNotifier τ) (lib : Chainhash)
    (events : List (World × Msg)) (s : Dispatcher τ)
    (hchain : ∀ ev ∈ events, ev.2.isChainEvent = true)
    (hquit : s.b.quit = false)
    (hlive : ∀ e ∈ s.b.blockEpochClients, liveEpochClient e.2)
    (hinv : SpendInv s.b) :
    ∃ s1, notificationDispatcher ops lib events s = .ok s1 ∧
      (∀ (id : Nat) (c : blockEpochRegistration),
        s.b.blockEpochClients.get id = some c →
        s1.b.blockEpochClients.get id =
          some (enqueued (connectedEpochs s.bestHeight events) c)) ∧
      (∀ id : Nat, s.b.blockEpochClients.get id = none →
        s1.b.blockEpochClients.get id = none) ∧
      ((∀ ev ∈ events, ev.2.isDisconnect = false) →
        (∀ ev ∈ events, ∀ (hash : Nat) (height : Int),
          ev.2 = Msg.BlockConnected hash height → -2147483648 < height) →
        -2147483648 ≤ s.bestHeight → s.bestHeight ≤ 2147483647 →
        heightOrdered (connectedEpochs s.bestHeight events)) := by
  obtain ⟨s1, hrun, hcl⟩ := epoch_run ops lib events s hchain hquit hlive hinv
  refine ⟨s1, hrun, ?_, ?_, ?_⟩
  · intro id c hget
    rw [hcl, GoMap.get_map_snd, hget]
    rfl
  · intro id hget
    rw [hcl, GoMap.get_map_snd, hget]
    rfl
  · intro hnd hmin hlo hhi
    exact heightOrdered_of_pairwise _
      (connectedEpochs_increasing events s.bestHeight hnd hmin hlo hhi).2

theorem ordered_epochs_witness :
    (∀ ev ∈ connectEvents, ev.2.isChainEvent = true) ∧ epochNotifier.quit = false ∧
    (∀ e ∈ epochNotifier.blockEpochClients, liveEpochClient e.2) ∧
    SpendInv epochNotifier ∧
    (∀ ev ∈ connectEvents, ev.2.isDisconnect = false) ∧
    (∃ s1, notificationDispatcher countingTracker sampleLib connectEvents
        { b := epochNotifier, bestHeight := 100 } = .ok s1 ∧
      ∀ (id : Nat) (c : blockEpochRegistration),
        epochNotifier.blockEpochClients.get id = some c →
        s1.b.blockEpochClients.get id =
          some (enqueued (connectedEpochs 100 connectEvents) c)) ∧
    connectedEpochs 100 connectEvents =
      [{ Height := 101, Hash := 1101 }, { Height := 102, Hash := 1102 }] ∧
    heightOrdered (connectedEpochs 100 connectEvents) := by
  obtain ⟨s1, h1, h2, _, h4⟩ :=
    ordered_epochs countingTracker sampleLib connectEvents
      { b := epochNotifier, bestHeight := 100 } (by decide) rfl (by decide)
      (sampleNotifier_inv.congr rfl rfl)
  refine ⟨by decide, rfl, by decide, sampleNotifier_inv.congr rfl rfl, by decide,
    ⟨s1, h1, h2⟩, by decide, h4 (by decide) ?_ (by decide) (by decide)⟩
  intro ev hev hash height heq
  simp only [connectEvents, List.mem_cons, List.mem_singleton, List.not_mem_nil,
    or_false] at hev
  rcases hev with rfl | rfl | rfl
  · cases heq
    decide
  · cases heq
  · cases heq
    decide

/-! ## The historical rescan of a spend registration -/

/-- C8: the historical spend on register. For `RegisterSpendNtfn` with both
selects taking their send case and `NotifySpent` succeeding: (a) when
`GetTxOut` reports the output unspent, the call returns its event having
sent the subscription and nothing else, for any fuel, zero included, so that
no block is scanned; (b) the rescan bounds are `tip`, the backend's best
height, and `start`: the height of the block whose hash the transaction
index gives for the outpoint's own transaction when it knows one, and
otherwise (no transaction, an empty block hash, or the no-tx-info error) the
height of the block the backend has at `heightHint`, which is `heightHint`
itself as soon as the backend reports that height for the hash it returns
at `heightHint`; (c) when `GetTxOut` reports none, with `start` and `tip` in
the `int32` range: if `h` in `[start, tip]` is the lowest height whose block
holds a transaction with an input spending the outpoint (the heights before
it are served and hold none) and `tx` is the first such transaction of that
block, the call sends, after the subscription, exactly one `RelevantTx`,
built from `tx` and carrying that block's hash and the height `h`; (d) if
every block of `[start, tip]` is served and none holds such a transaction,
with `tip` below 2^31 - 1, the top of the `int32` range, the call sends the
subscription and nothing else. In (c) and (d) the call returns its event, for
any fuel above the number of heights scanned. -/
theorem historical_spend_on_register {τ : Type} (lib : Chainhash) (be : BitcoindClient)
    (b : BitcoindNotifier τ) (outpoint : OutPoint) (heightHint : Nat)
    (hnotify : be.NotifySpent [outpoint] = none) :
    (∀ (u : Unit) (fuel : Nat),
      be.GetTxOut outpoint.Hash outpoint.Index true = .ok (some u) →
      RegisterSpendNtfn lib be fuel false false b outpoint heightHint =
        some { b := (newSpendNotification b outpoint).1,
               sent := [Msg.spendNotification (newSpendNotification b outpoint).2],
               ret := .ok { Spend := (newSpendNotification b outpoint).2.spendChan,
                            Cancel := { op := outpoint,
                                        spendID := (newSpendNotification b outpoint).2.spendID } } }) ∧
    (∀ (tx : TxRawResult) (blockHash bestHash : Hash) (start tip : Int),
      be.GetRawTransactionVerbose outpoint.Hash = .ok (some tx) → tx.BlockHash ≠ "" →
      lib.NewHashFromStr tx.BlockHash = .ok blockHash →
      be.GetBlockHeight blockHash = .ok start → be.GetBestBlock = .ok (bestHash, tip) →
      rescanBounds lib be outpoint heightHint = .ok (start, tip)) ∧
    (∀ (blockHash bestHash : Hash) (tip : Int),
      (be.GetRawTransactionVerbose outpoint.Hash = .ok none ∨
       (∃ tx, be.GetRawTransactionVerbose outpoint.Hash = .ok (some tx) ∧ tx.BlockHash = "") ∨
       be.GetRawTransactionVerbose outpoint.Hash = .error (.rpc ErrRPCNoTxInfo)) →
      be.GetBlockHash (heightHint : Int) = .ok blockHash →
      be.GetBlockHeight blockHash = .ok (heightHint : Int) →
      be.GetBestBlock = .ok (bestHash, tip) →
      rescanBounds lib be outpoint heightHint = .ok ((heightHint : Int), tip)) ∧
    (∀ (blockHash bestHash : Hash) (start tip : Int),
      rescanStartsAt lib be outpoint heightHint blockHash →
      be.GetBlockHeight blockHash = .ok start → be.GetBestBlock = .ok (bestHash, tip) →
      rescanBounds lib be outpoint heightHint = .ok (start, tip)) ∧
    (∀ (start tip h : Int) (hash : Hash) (blk : MsgBlock) (tx : MsgTx) (fuel : Nat),
      be.GetTxOut outpoint.Hash outpoint.Index true = .ok none →
      rescanBounds lib be outpoint heightHint = .ok (start, tip) →
      -2147483648 ≤ start → tip ≤ 2147483647 → start ≤ h → h ≤ tip →
      rescanClean be outpoint start h →
      be.GetBlockHash h = .ok hash → be.GetBlock hash = .ok blk →
      firstSpender outpoint blk.Transactions tx →
      (h - start).toNat < fuel →
      RegisterSpendNtfn lib be fuel false false b outpoint heightHint =
        some { b := (newSpendNotification b outpoint).1,
               sent := [Msg.spendNotification (newSpendNotification b outpoint).2,
                        Msg.registryRelevantTx
                          { TxRecord := { MsgTx := tx, Hash := tx.TxHash,
                                          Received := blk.Header.Timestamp },
                            Block := some { Hash := blk.BlockHash, Height := h,
                                            Time := blk.Header.Timestamp } }],
               ret := .ok { Spend := (newSpendNotification b outpoint).2.spendChan,
                            Cancel := { op := outpoint,
                                        spendID := (newSpendNotification b outpoint).2.spendID } } }) ∧
    (∀ (start tip : Int) (fuel : Nat),
      be.GetTxOut outpoint.Hash outpoint.Index true = .ok none →
      rescanBounds lib be outpoint heightHint = .ok (start, tip) →
      -2147483648 ≤ start → tip < 2147483647 →
      rescanClean be outpoint start (tip + 1) →
      (tip + 1 - start).toNat < fuel →
      RegisterSpendNtfn lib be fuel false false b outpoint heightHint =
        some { b := (newSpendNotification b outpoint).1,
               sent := [Msg.spendNotification (newSpendNotification b outpoint).2],
               ret := .ok { Spend := (newSpendNotification b outpoint).2.spendChan,
                            Cancel := { op := outpoint,
                                        spendID := (newSpendNotification b outpoint).2.spendID } } }) := by
  refine ⟨?_, ?_, ?_, ?_, ?_, ?_⟩
  · intro u fuel hout
    simp [RegisterSpendNtfn, hnotify, hout]
  · intro tx blockHash bestHash start tip htx hne hparse hheight hbest
    simp [rescanBounds, htx, hne, hparse, hheight, hbest]
  · intro blockHash bestHash tip htx hhash hheight hbest
    rcases htx with htx | ⟨tx, htx, hempty⟩ | htx
    · simp [rescanBounds, htx, hhash, hheight, hbest]
    · simp [rescanBounds, htx, hempty, hhash, hheight, hbest]
    · simp [rescanBounds, htx, notNoTxInfo, hhash, hheight, hbest]
  · intro blockHash bestHash start tip hstart hheight hbest
    rw [rescanBounds_of_start lib be outpoint heightHint blockHash hstart, hheight, hbest]
  · intro start tip h hash blk tx fuel hout hbounds hlo hhi hsh hht hclean hhash hblk hfirst hfuel
    have hn : start + ((h - start).toNat : Int) = h := by
      rw [Int.toNat_of_nonneg (by omega)]
      omega
    have hloop : rescanLoop be outpoint tip fuel start =
        some (.ok (some (rescanRelevantTx blk h tx))) := by
      rw [rescanLoop_skip be outpoint tip (h - start).toNat start fuel hlo
        (by rw [hn]; omega) (by rw [hn]; exact hclean) (by rw [hn]; omega) (by omega), hn]
      obtain ⟨fuel1, hf1⟩ : ∃ f, fuel - (h - start).toNat = f + 1 :=
        ⟨fuel - (h - start).toNat - 1, by omega⟩
      rw [hf1, rescanLoop]
      simp only [hht, if_true, hhash, hblk, find_spender_first outpoint _ tx hfirst]
    simp only [RegisterSpendNtfn, Bool.false_eq_true, if_false, hnotify, hout, hbounds, hloop]
    rfl
  · intro start tip fuel hout hbounds hlo hhi hclean hfuel
    have hloop : rescanLoop be outpoint tip fuel start = some (.ok none) := by
      by_cases hst : start ≤ tip + 1
      · have hn : start + ((tip + 1 - start).toNat : Int) = tip + 1 := by
          rw [Int.toNat_of_nonneg (by omega)]
          omega
        rw [rescanLoop_skip be outpoint tip (tip + 1 - start).toNat start fuel hlo
          (by rw [hn]; omega) (by rw [hn]; exact hclean) (by rw [hn]) (by omega), hn]
        obtain ⟨fuel1, hf1⟩ : ∃ f, fuel - (tip + 1 - start).toNat = f + 1 :=
          ⟨fuel - (tip + 1 - start).toNat - 1, by omega⟩
        rw [hf1, rescanLoop]
        have : ¬ tip + 1 ≤ tip := by omega
        simp only [this, if_false]
      · obtain ⟨fuel1, rfl⟩ : ∃ f, fuel = f + 1 := ⟨fuel - 1, by omega⟩
        rw [rescanLoop]
        have : ¬ start ≤ tip := by omega
        simp only [this, if_false]
    simp only [RegisterSpendNtfn, Bool.false_eq_true, if_false, hnotify, hout, hbounds, hloop]

/-- A remark on the bound of the no-spender case: at the top of the `int32`
range the loop counter of the rescan wraps. With a best height of 2^31 - 1
and the rescan starting there, the one block of `[start, tip]` served and
without transactions, the counter wraps to -2^31; a backend answering for
that height with a block holding a spending transaction makes the call
inject a `RelevantTx`. No chain reaches that height. -/
theorem rescanLoop_wraps_at_top :
    topBackend.GetTxOut sampleOutpoint.Hash sampleOutpoint.Index true = .ok none ∧
    rescanBounds sampleLib topBackend sampleOutpoint 2147483647 =
      .ok (2147483647, 2147483647) ∧
    rescanClean topBackend sampleOutpoint 2147483647 (2147483647 + 1) ∧
    (RegisterSpendNtfn sampleLib topBackend 3 false false
        (BitcoindNotifier.new 0 : BitcoindNotifier Nat) sampleOutpoint 2147483647).map
      (fun r => (r.sent, r.ret)) =
      some ([Msg.spendNotification sampleNtfn,
             Msg.registryRelevantTx
               { TxRecord := { MsgTx := sampleSpendingTx, Hash := 42, Received := 0 },
                 Block := some { Hash := 2, Height := -2147483648, Time := 0 } }],
            .ok { Spend := 0, Cancel := { op := sampleOutpoint, spendID := 1 } }) := by
  refine ⟨by decide, by decide, ?_, by decide⟩
  intro i hlo hhi
  have hi : i = 2147483647 := by omega
  subst hi
  exact ⟨1, { Header := { Timestamp := 0, hash := 1 }, Transactions := [] },
    by decide, by decide, by simp⟩

/-- C8, witness: the sample backend, rescans from the height hint 100 to the
tip 102; the outpoint spent in the block at height 101, and an outpoint
spent nowhere. -/
theorem historical_spend_on_register_witness :
    sampleBackend.NotifySpent [sampleOutpoint] = none ∧
    rescanBounds sampleLib sampleBackend sampleOutpoint 100 = .ok (100, 102) ∧
    rescanClean sampleBackend sampleOutpoint 100 101 ∧
    firstSpender sampleOutpoint [sampleSpendingTx] sampleSpendingTx ∧
    RegisterSpendNtfn sampleLib sampleBackend 2 false false
        (BitcoindNotifier.new 0 : BitcoindNotifier Nat) sampleOutpoint 100 =
      some { b := (newSpendNotification (BitcoindNotifier.new 0) sampleOutpoint).1,
             sent := [Msg.spendNotification
                        (newSpendNotification (BitcoindNotifier.new 0 : BitcoindNotifier Nat)
                          sampleOutpoint).2,
                      Msg.registryRelevantTx
                        { TxRecord := { MsgTx := sampleSpendingTx,
                                        Hash := sampleSpendingTx.TxHash, Received := 0 },
                          Block := some { Hash := 1101, Height := 101, Time := 0 } }],
             ret := .ok { Spend := 0, Cancel := { op := sampleOutpoint, spendID := 1 } } } ∧
    rescanClean sampleBackend { Hash := 8, Index := 0 } 100 (102 + 1) ∧
    RegisterSpendNtfn sampleLib sampleBackend 4 false false
        (BitcoindNotifier.new 0 : BitcoindNotifier Nat) { Hash := 8, Index := 0 } 100 =
      some { b := (newSpendNotification (BitcoindNotifier.new 0) { Hash := 8, Index := 0 }).1,
             sent := [Msg.spendNotification
                        (newSpendNotification (BitcoindNotifier.new 0 : BitcoindNotifier Nat)
                          { Hash := 8, Index := 0 }).2],
             ret := .ok { Spend := 0,
                          Cancel := { op := { Hash := 8, Index := 0 }, spendID := 1 } } } := by
  have hclean : rescanClean sampleBackend sampleOutpoint 100 101 := by
    intro i hlo hhi
    have hi : i = 100 := by omega
    subst hi
    exact ⟨1100, { Header := { Timestamp := 0, hash := 1100 }, Transactions := [] },
      by decide, by decide, by simp⟩
  have hfirst : firstSpender sampleOutpoint [sampleSpendingTx] sampleSpendingTx :=
    ⟨0, rfl, ⟨{ PreviousOutPoint := sampleOutpoint }, by decide, rfl⟩,
      fun j t hj _ => by omega⟩
  have hclean2 : rescanClean sampleBackend { Hash := 8, Index := 0 } 100 (102 + 1) := by
    intro i hlo hhi
    have hi : i = 100 ∨ i = 101 ∨ i = 102 := by omega
    rcases hi with rfl | rfl | rfl
    · exact ⟨1100, { Header := { Timestamp := 0, hash := 1100 }, Transactions := [] },
        by decide, by decide, by simp⟩
    · exact ⟨1101, { Header := { Timestamp := 0, hash := 1101 },
                     Transactions := [sampleSpendingTx] },
        by decide, by decide, by decide⟩
    · exact ⟨1102, { Header := { Timestamp := 0, hash := 1102 }, Transactions := [] },
        by decide, by decide, by simp⟩
  exact ⟨rfl, by decide, hclean, hfirst,
    (historical_spend_on_register sampleLib sampleBackend (BitcoindNotifier.new 0)
      sampleOutpoint 100 rfl).2.2.2.2.1 100 102 101 1101
      { Header := { Timestamp := 0, hash := 1101 }, Transactions := [sampleSpendingTx] }
      sampleSpendingTx 2 (by decide) (by decide) (by decide) (by decide) (by decide)
      (by decide) hclean (by decide) (by decide) hfirst (by decide),
    hclean2,
    (historical_spend_on_register sampleLib sampleBackend (BitcoindNotifier.new 0)
      { Hash := 8, Index := 0 } 100 rfl).2.2.2.2.2 100 102 4 (by decide) (by decide)
      (by decide) (by decide) hclean2 (by decide)⟩

/-! ## The lookup through the transaction index -/

theorem notNoTxInfo_iff (err : Error) :
    notNoTxInfo err = true ↔ err ≠ Error.rpc ErrRPCNoTxInfo := by
  cases err with
  | rpc code =>
    by_cases h : code = ErrRPCNoTxInfo
    · simp [notNoTxInfo, h]
    · simp [notNoTxInfo, h]
  | backend tag => simp [notNoTxInfo]
  | shuttingDown => simp [notNoTxInfo]
  | wrapped cause => simp [notNoTxInfo]
  | message tag => simp [notNoTxInfo]

/-- C11: `confDetailsFromTxIndex` by cases, for every txid. (a) If the query of
the transaction index fails with the no-tx-info code, or returns no
transaction, or returns a transaction whose containing block hash is empty,
the result is (nil, no error). (b) If it fails with any other error, the
result is an error, wrapping that one. (c) If it returns a transaction with a
non-empty block hash that parses to `blockHash`, and the block is retrieved:
when the block's tx-id list contains the text of the txid, first at position
`k`, the result is the confirmation with `blockHash`, the block's height and
index `k` (height and position being `uint32` values); when the list does not
contain it, the result is an error and no confirmation. A block hash that
does not parse, or a block that cannot be retrieved, gives an error too. -/
theorem confDetailsFromTxIndex_cases (lib : Chainhash) (be : BitcoindClient) (txid : Hash) :
    (be.GetRawTransactionVerbose txid = .error (.rpc ErrRPCNoTxInfo) →
      confDetailsFromTxIndex lib be txid = .ok none) ∧
    (be.GetRawTransactionVerbose txid = .ok none →
      confDetailsFromTxIndex lib be txid = .ok none) ∧
    (∀ tx : TxRawResult, be.GetRawTransactionVerbose txid = .ok (some tx) →
      tx.BlockHash = "" → confDetailsFromTxIndex lib be txid = .ok none) ∧
    (∀ err : Error, be.GetRawTransactionVerbose txid = .error err →
      err ≠ Error.rpc ErrRPCNoTxInfo →
      confDetailsFromTxIndex lib be txid = .error (.wrapped err)) ∧
    (∀ (tx : TxRawResult) (blockHash : Hash) (block : GetBlockVerboseResult),
      be.GetRawTransactionVerbose txid = .ok (some tx) → tx.BlockHash ≠ "" →
      lib.NewHashFromStr tx.BlockHash = .ok blockHash →
      be.GetBlockVerbose blockHash = .ok block →
      (∀ k : Nat, firstOccurrence (lib.HashString txid) block.Tx k → k < 4294967296 →
        0 ≤ block.Height → block.Height < 4294967296 →
        confDetailsFromTxIndex lib be txid =
          .ok (some { BlockHash := blockHash, BlockHeight := block.Height.toNat,
                      TxIndex := k })) ∧
      (lib.HashString txid ∉ block.Tx →
        confDetailsFromTxIndex lib be txid = .error (.message 0))) ∧
    (∀ (tx : TxRawResult) (err : Error),
      be.GetRawTransactionVerbose txid = .ok (some tx) → tx.BlockHash ≠ "" →
      lib.NewHashFromStr tx.BlockHash = .error err →
      confDetailsFromTxIndex lib be txid = .error (.wrapped err)) ∧
    (∀ (tx : TxRawResult) (blockHash : Hash) (err : Error),
      be.GetRawTransactionVerbose txid = .ok (some tx) → tx.BlockHash ≠ "" →
      lib.NewHashFromStr tx.BlockHash = .ok blockHash →
      be.GetBlockVerbose blockHash = .error err →
      confDetailsFromTxIndex lib be txid = .error (.wrapped err)) := by
  refine ⟨?_, ?_, ?_, ?_, ?_, ?_, ?_⟩
  · intro h
    simp [confDetailsFromTxIndex, h, notNoTxInfo]
  · intro h
    simp [confDetailsFromTxIndex, h]
  · intro tx h hempty
    simp [confDetailsFromTxIndex, h, hempty]
  · intro err h hne
    have hno := (notNoTxInfo_iff err).mpr hne
    simp [confDetailsFromTxIndex, h, hno]
  · intro tx blockHash block h hne hparse hblock
    refine ⟨?_, ?_⟩
    · intro k hk hklt hlo hhi
      have hfind := findTxIndex_first (lib.HashString txid) block.Tx 0 k hk
      have hw : wrapUint32 (0 + k) = k := by
        unfold wrapUint32
        omega
      have hheight : toUint32 block.Height = block.Height.toNat := by
        unfold toUint32
        rw [Int.emod_eq_of_lt hlo hhi]
      simp only [confDetailsFromTxIndex, h, hne, if_false, hparse, hblock, hfind, hw, hheight]
    · intro hnot
      have hfind := (findTxIndex_none (lib.HashString txid) block.Tx 0).mpr hnot
      simp only [confDetailsFromTxIndex, h, hne, if_false, hparse, hblock, hfind]
  · intro tx err h hne hparse
    simp only [confDetailsFromTxIndex, h, hne, if_false, hparse]
  · intro tx blockHash err h hne hparse hblock
    simp only [confDetailsFromTxIndex, h, hne, if_false, hparse, hblock]

theorem confDetailsFromTxIndex_cases_witness :
    indexedBackend.GetRawTransactionVerbose 7 = .error (.rpc ErrRPCNoTxInfo) ∧
    confDetailsFromTxIndex indexLib indexedBackend 7 = .ok none ∧
    indexedBackend.GetRawTransactionVerbose 41 = .ok (some { BlockHash := "" }) ∧
    confDetailsFromTxIndex indexLib indexedBackend 41 = .ok none ∧
    brokenIndexBackend.GetRawTransactionVerbose 7 = .error (.rpc (-1)) ∧
    confDetailsFromTxIndex indexLib brokenIndexBackend 7 = .error (.wrapped (.rpc (-1))) ∧
    firstOccurrence (indexLib.HashString 42) ["29", "2a"] 1 ∧
    confDetailsFromTxIndex indexLib indexedBackend 42 =
      .ok (some { BlockHash := 1101, BlockHeight := 101, TxIndex := 1 }) ∧
    indexLib.HashString 40 ∉ ["29", "2a"] ∧
    confDetailsFromTxIndex indexLib indexedBackend 40 = .error (.message 0) :=
  have hfirst : firstOccurrence (indexLib.HashString 42) ["29", "2a"] 1 := by
    refine ⟨by decide, ?_⟩
    intro j hj
    have h0 : j = 0 := by omega
    subst h0
    decide
  ⟨by decide,
   (confDetailsFromTxIndex_cases indexLib indexedBackend 7).1 (by decide),
   by decide,
   (confDetailsFromTxIndex_cases indexLib indexedBackend 41).2.2.1
      { BlockHash := "" } (by decide) rfl,
   by decide,
   (confDetailsFromTxIndex_cases indexLib brokenIndexBackend 7).2.2.2.1
      (.rpc (-1)) (by decide) (by decide),
   hfirst,
   ((confDetailsFromTxIndex_cases indexLib indexedBackend 42).2.2.2.2.1
      { BlockHash := "b101" } 1101 { Height := 101, Tx := ["29", "2a"] }
      (by decide) (by decide) (by decide) (by decide)).1 1 hfirst (by decide)
      (by decide) (by decide),
   by decide,
   ((confDetailsFromTxIndex_cases indexLib indexedBackend 40).2.2.2.2.1
      { BlockHash := "b101" } 1101 { Height := 101, Tx := ["29", "2a"] }
      (by decide) (by decide) (by decide) (by decide)).2 (by decide)⟩

/-! ## Cancellations -/

theorem spendCancel_unknown_id_faults {τ : Type} (ops : TxConfNotifier τ) (lib : Chainhash)
    (w : World) (s : Dispatcher τ) (msg : spendCancel)
    (clients : GoMap Nat spendNotification)
    (hop : s.b.spendNotifications.get msg.op = some clients)
    (hid : clients.get msg.spendID = none) :
    notificationDispatcherStep ops lib w s (Msg.spendCancel msg) = .panic .nilDeref := by
  simp [notificationDispatcherStep, hop, hid]

theorem epochCancel_unknown_id_faults {τ : Type} (ops : TxConfNotifier τ) (lib : Chainhash)
    (w : World) (s : Dispatcher τ) (msg : epochCancel)
    (hid : s.b.blockEpochClients.get msg.epochID = none) :
    notificationDispatcherStep ops lib w s (Msg.epochCancel msg) = .panic .nilDeref := by
  simp [notificationDispatcherStep, hid]

/-- C12, the code at the failing inputs: a second cancellation faults. From
the fresh notifier, a spend subscription for an outpoint is registered and
cancelled: the first cancellation completes, closes the subscription's
channel with nothing written to it and removes the spend id, but leaves the
outpoint in the index with an empty set; the second cancellation of the same
subscription then finds the outpoint, reads the missing entry and stops the
dispatcher on a nil-pointer fault. Likewise for an epoch subscription: the
first cancellation stops its queue, closes its channels with nothing handed
to it and removes it; the second one, like the cancellation of an epoch id
that was never registered, looks up a missing registration and faults. -/
theorem second_cancellation_faults :
    (systemRun countingTracker sampleLib (doubleCancelEvents.take 2)
        (Dispatcher.init 0 100)).toOption.map
      (fun s => (s.b.spendNotifications, s.b.spendChans)) =
      some ([(sampleOutpoint, [])], [{ buf := [], closed := true, written := 0 }]) ∧
    systemRun countingTracker sampleLib doubleCancelEvents (Dispatcher.init 0 100)
      = .panic .nilDeref ∧
    (notificationDispatcher countingTracker sampleLib (doubleEpochCancelEvents.take 2)
        epochCaller).toOption.map (fun s => (s.b.blockEpochClients, s.b.retired)) =
      some ([], [{ epochID := 1, epochQueue := { received := [], stopped := true },
                   cancelClosed := true, epochClosed := true }]) ∧
    notificationDispatcher countingTracker sampleLib doubleEpochCancelEvents epochCaller
      = .panic .nilDeref ∧
    notificationDispatcherStep countingTracker sampleLib sampleWorld (Dispatcher.init 0 100)
      (Msg.epochCancel { epochID := 5 }) = .panic .nilDeref := by
  refine ⟨?_, ?_, ?_, ?_, ?_⟩
  · rfl
  · decide
  · rfl
  · decide
  · decide

/-! ## A block that cannot be fetched -/

theorem handleRelevantTx_frame {τ : Type} (b : BitcoindNotifier τ) (tx : RelevantTx)
    (bestHeight : Int) (hinv : SpendInv b) :
    ∃ b1, handleRelevantTx b tx bestHeight = .ok b1 ∧ SpendInv b1 ∧
      b1.txConfNotifier = b.txConfNotifier ∧ b1.calls = b.calls ∧
      b1.blockEpochClients = b.blockEpochClients ∧ b1.quit = b.quit := by
  cases hblk : tx.Block with
  | none => exact ⟨b, by simp [handleRelevantTx, hblk], hinv, rfl, rfl, rfl, rfl⟩
  | some block =>
    obtain ⟨b1, hrun, hinv1, heq, _⟩ :=
      handleRelevantTxLoop_spec tx.TxRecord.MsgTx block.Height tx.TxRecord.MsgTx.TxIn 0 b hinv
    refine ⟨b1, by simp [handleRelevantTx, hblk, hrun], hinv1, ?_, ?_, ?_, ?_⟩ <;> rw [heq]

theorem quiet_run {τ : Type} (ops : TxConfNotifier τ) (lib : Chainhash)
    (mid : List (World × Msg)) :
    ∀ s : Dispatcher τ, quietEvents s.bestHeight mid = true →
      (∀ ev ∈ mid, ∀ (hash : Nat) (height : Int),
        ev.2 = Msg.BlockConnected hash height → -2147483648 < height) →
      -2147483648 ≤ s.bestHeight → s.bestHeight ≤ 2147483647 → SpendInv s.b →
      ∃ s2, notificationDispatcher ops lib mid s = .ok s2 ∧
        s2.b.txConfNotifier = s.b.txConfNotifier ∧ s2.b.calls = s.b.calls ∧
        s2.b.blockEpochClients = s.b.blockEpochClients ∧ s2.b.quit = s.b.quit ∧
        SpendInv s2.b ∧ s.bestHeight ≤ s2.bestHeight ∧ s2.bestHeight ≤ 2147483647 := by
  induction mid with
  | nil =>
    intro s _ _ _ hhi hinv
    exact ⟨s, rfl, rfl, rfl, rfl, rfl, hinv, le_refl _, hhi⟩
  | cons ev rest ih =>
    intro s hq hmin hlo hhi hinv
    obtain ⟨w, msg⟩ := ev
    have hmin1 : ∀ ev ∈ rest, ∀ (hash : Nat) (height : Int),
        ev.2 = Msg.BlockConnected hash height → -2147483648 < height :=
      fun ev1 h1 => hmin ev1 (List.mem_cons_of_mem _ h1)
    cases msg with
    | BlockConnected hash height =>
      have hgt := hmin (w, Msg.BlockConnected hash height) (List.mem_cons_self _ _)
        hash height rfl
      by_cases hh : height = wrapInt32 (s.bestHeight + 1)
      · have hnext : height = s.bestHeight + 1 ∧ s.bestHeight + 1 ≤ 2147483647 := by
          unfold wrapInt32 at hh
          omega
        cases hblk : w.be.GetBlock hash with
        | ok rawBlock => simp [quietEvents, hh, hblk] at hq
        | error err =>
          simp only [quietEvents, hh, hblk, if_true] at hq
          rw [← hh] at hq
          obtain ⟨s2, hrun, h1, h2, h3, h4, h5, h6, h7⟩ :=
            ih { s with bestHeight := height } hq hmin1 (by simp only; omega)
              (by simp only; omega) hinv
          refine ⟨s2, ?_, h1, h2, h3, h4, h5, ?_, h7⟩
          · have hstep : notificationDispatcherStep ops lib w s
                (Msg.BlockConnected hash height) = .ok { s with bestHeight := height } := by
              simp only [notificationDispatcherStep, hblk]
              rw [if_neg (by simpa using hh)]
            simp only [notificationDispatcher, hstep, Outcome.bind]
            exact hrun
          · simp only at h6
            omega
      · simp only [quietEvents, hh, if_false] at hq
        obtain ⟨s2, hrun, h1, h2, h3, h4, h5, h6, h7⟩ := ih s hq hmin1 hlo hhi hinv
        refine ⟨s2, ?_, h1, h2, h3, h4, h5, h6, h7⟩
        have hstep : notificationDispatcherStep ops lib w s
            (Msg.BlockConnected hash height) = .ok s := by
          simp [notificationDispatcherStep, hh]
        simp only [notificationDispatcher, hstep, Outcome.bind]
        exact hrun
    | BlockDisconnected hash height =>
      by_cases hh : height = s.bestHeight
      · simp [quietEvents, hh] at hq
      · simp only [quietEvents, hh, if_false] at hq
        obtain ⟨s2, hrun, h1, h2, h3, h4, h5, h6, h7⟩ := ih s hq hmin1 hlo hhi hinv
        refine ⟨s2, ?_, h1, h2, h3, h4, h5, h6, h7⟩
        have hstep : notificationDispatcherStep ops lib w s
            (Msg.BlockDisconnected hash height) = .ok s := by
          simp [notificationDispatcherStep, hh]
        simp only [notificationDispatcher, hstep, Outcome.bind]
        exact hrun
    | RelevantTx tx =>
      simp only [quietEvents] at hq
      obtain ⟨b1, hb1, hinv1, g1, g2, g3, g4⟩ :=
        handleRelevantTx_frame s.b tx s.bestHeight hinv
      obtain ⟨s2, hrun, h1, h2, h3, h4, h5, h6, h7⟩ :=
        ih { s with b := b1 } hq hmin1 hlo hhi hinv1
      refine ⟨s2, ?_, h1.trans g1, h2.trans g2, h3.trans g3, h4.trans g4, h5, h6, h7⟩
      have hstep : notificationDispatcherStep ops lib w s (Msg.RelevantTx tx) =
          .ok { s with b := b1 } := by
        simp [notificationDispatcherStep, hb1, Outcome.bind]
      simp only [notificationDispatcher, hstep, Outcome.bind]
      exact hrun
    | spendCancel msg => simp [quietEvents] at hq
    | epochCancel msg => simp [quietEvents] at hq
    | spendNotification msg => simp [quietEvents] at hq
    | confirmationNotification msg => simp [quietEvents] at hq
    | blockEpochRegistration msg => simp [quietEvents] at hq
    | registryRelevantTx msg => simp [quietEvents] at hq

theorem connect_step_live {τ : Type} (ops : TxConfNotifier τ) (lib : Chainhash) (w : World)
    (s : Dispatcher τ) (hash : Nat) (height : Int) (rawBlock : MsgBlock)
    (hh : height = wrapInt32 (s.bestHeight + 1))
    (hblk : w.be.GetBlock hash = .ok rawBlock)
    (hquit : s.b.quit = false)
    (hlive : ∀ e ∈ s.b.blockEpochClients, liveEpochClient e.2) :
    notificationDispatcherStep ops lib w s (Msg.BlockConnected hash height) =
      .ok { b := { s.b with
                   blockEpochClients := s.b.blockEpochClients.map
                     (fun e => (e.1, enqueued [{ Height := height, Hash := hash }] e.2)),
                   txConfNotifier :=
                     (ops.ConnectTip s.b.txConfNotifier hash (toUint32 height)
                       rawBlock.Transactions).2,
                   calls := s.b.calls ++
                     [Call.ConnectTip hash (toUint32 height) rawBlock.Transactions] },
            bestHeight := height } := by
  have hloop := notifyBlockEpochsLoop_live w.sched
    { Height := height, Hash := hash } s.b.blockEpochClients hlive
  simp only [notificationDispatcherStep, hblk, notifyBlockEpochs, hquit, hloop, Outcome.bind]
  rw [if_neg (by simpa using hh)]

/-- C13, counterexample: the gap closes when the unfetched block is
disconnected. Best height and the tracker's current height are both 100. The
connect at height 101 cannot be fetched; the block is disconnected again,
which lowers the best height to 100 (the tracker rejects the disconnect and
stays at 100); the next in-order connect that is fetched is at height 101,
and it is passed to `ConnectTip` with exactly the tracker's current height
plus one, so the assertion holds and the tracker moves to 101. -/
theorem gap_closed_by_disconnect :
    trackedDispatcher.bestHeight = 100 ∧
    trackedDispatcher.b.txConfNotifier.currentHeight = 100 ∧
    (sampleWorld.be.GetBlock 9101).toOption = none ∧
    (notificationDispatcher (specTracker unitBook) sampleLib orphanEvents
        trackedDispatcher).toOption.map
      (fun s => (s.b.calls, s.b.txConfNotifier.currentHeight, s.bestHeight)) =
      some ([Call.DisconnectTip 101, Call.ConnectTip 1101 101 [sampleSpendingTx]],
            101, 101) ∧
    ((specTracker unitBook).ConnectTip trackedDispatcher.b.txConfNotifier 1101 101
        [sampleSpendingTx]).1 = none ∧
    toUint32 101 = wrapUint32 (trackedDispatcher.b.txConfNotifier.currentHeight + 1) := by
  refine ⟨rfl, rfl, by decide, ?_, by decide, by decide⟩
  rfl

theorem Outcome.bind_ok {σ ρ : Type} (o : Outcome σ) (f : σ → Outcome ρ) (r : ρ)
    (h : o.bind f = .ok r) : ∃ x, o = .ok x ∧ f x = .ok r := by
  cases o with
  | ok x => exact ⟨x, rfl, h⟩
  | panic p => simp [Outcome.bind] at h
  | blocked => simp [Outcome.bind] at h
  | timeout => simp [Outcome.bind] at h

theorem handleRelevantTxLoop_tracker {τ : Type} (msgTx : MsgTx) (height : Int) :
    ∀ (inputs : List TxIn) (i : Nat) (b b1 : BitcoindNotifier τ),
      handleRelevantTxLoop msgTx height inputs i b = .ok b1 →
      b1.txConfNotifier = b.txConfNotifier ∧ b1.calls = b.calls := by
  intro inputs
  induction inputs with
  | nil =>
    intro i b b1 h
    simp only [handleRelevantTxLoop, Outcome.ok.injEq] at h
    subst h
    exact ⟨rfl, rfl⟩
  | cons txIn rest ih =>
    intro i b b1 h
    rw [handleRelevantTxLoop] at h
    cases hget : b.spendNotifications.get txIn.PreviousOutPoint with
    | none =>
      simp only [hget] at h
      exact ih (i + 1) b b1 h
    | some clients =>
      simp only [hget] at h
      obtain ⟨chans, _, h2⟩ := Outcome.bind_ok _ _ _ h
      have h3 := ih (i + 1) _ b1 h2
      exact h3

theorem handleRelevantTx_tracker {τ : Type} (b b1 : BitcoindNotifier τ) (tx : RelevantTx)
    (bestHeight : Int) (h : handleRelevantTx b tx bestHeight = .ok b1) :
    b1.txConfNotifier = b.txConfNotifier ∧ b1.calls = b.calls := by
  unfold handleRelevantTx at h
  cases hblk : tx.Block with
  | none =>
    simp only [hblk, Outcome.ok.injEq] at h
    subst h
    exact ⟨rfl, rfl⟩
  | some block =>
    simp only [hblk] at h
    exact handleRelevantTxLoop_tracker _ _ _ _ _ _ h

theorem notifyBlockEpochsLoop_running (quit : Bool) (sched : Nat → Bool) (epoch : BlockEpoch)
    (clients : List (Nat × blockEpochRegistration))
    (hrun : ∀ e ∈ clients, e.2.epochQueue.stopped = false) :
    ∃ clients1, notifyBlockEpochsLoop quit sched epoch clients = .ok clients1 := by
  induction clients with
  | nil => exact ⟨[], rfl⟩
  | cons e rest ih =>
    obtain ⟨id, c⟩ := e
    have hc : c.epochQueue.stopped = false := hrun (id, c) (List.mem_cons_self _ _)
    obtain ⟨rest1, hrest⟩ := ih (fun e1 he1 => hrun e1 (List.mem_cons_of_mem _ he1))
    have hsel : ∃ c1, selectEpoch quit (sched id) epoch c = .ok c1 := by
      unfold selectEpoch
      simp only [hc, Bool.not_false, Bool.not_true, Bool.or_false, if_true]
      split
      · exact ⟨_, rfl⟩
      · exact ⟨_, rfl⟩
    obtain ⟨c1, hc1⟩ := hsel
    exact ⟨(id, c1) :: rest1, by simp only [notifyBlockEpochsLoop, hc1, hrest, Outcome.bind]⟩

theorem connect_step_running {τ : Type} (ops : TxConfNotifier τ) (lib : Chainhash) (w : World)
    (s : Dispatcher τ) (hash : Nat) (height : Int) (rawBlock : MsgBlock)
    (hh : height = wrapInt32 (s.bestHeight + 1))
    (hblk : w.be.GetBlock hash = .ok rawBlock)
    (hrun : ∀ e ∈ s.b.blockEpochClients, e.2.epochQueue.stopped = false) :
    ∃ s1, notificationDispatcherStep ops lib w s (Msg.BlockConnected hash height) = .ok s1 ∧
      s1.b.calls = s.b.calls ++
        [Call.ConnectTip hash (toUint32 height) rawBlock.Transactions] ∧
      s1.b.txConfNotifier =
        (ops.ConnectTip s.b.txConfNotifier hash (toUint32 height) rawBlock.Transactions).2 ∧
      s1.bestHeight = height := by
  obtain ⟨clients1, hloop⟩ := notifyBlockEpochsLoop_running s.b.quit w.sched
    { Height := height, Hash := hash } s.b.blockEpochClients hrun
  have hstep : notificationDispatcherStep ops lib w s (Msg.BlockConnected hash height) =
      .ok { b := { s.b with
                   blockEpochClients := clients1,
                   txConfNotifier :=
                     (ops.ConnectTip s.b.txConfNotifier hash (toUint32 height)
                       rawBlock.Transactions).2,
                   calls := s.b.calls ++
                     [Call.ConnectTip hash (toUint32 height) rawBlock.Transactions] },
            bestHeight := height } := by
    simp only [notificationDispatcherStep, hblk, notifyBlockEpochs, hloop, Outcome.bind]
    rw [if_neg (by simpa using hh)]
  exact ⟨_, hstep, rfl, rfl, rfl⟩

theorem filter_isTip_append_other (calls : List Call) (c : Call) (hc : c.isTip = false) :
    (calls ++ [c]).filter Call.isTip = calls.filter Call.isTip := by
  simp [List.filter_append, hc]

theorem gap_step {β : Type} (bk : TrackerBook β) (lib : Chainhash) (w : World)
    (s s1 : Dispatcher (Tracker β)) (msg : Msg)
    (hmsg : ∀ hash height, msg ≠ Msg.BlockConnected hash height)
    (hmsg2 : ∀ hash height, msg ≠ Msg.BlockDisconnected hash height)
    (h : notificationDispatcherStep (specTracker bk) lib w s msg = .ok s1) :
    s1.b.txConfNotifier.currentHeight = s.b.txConfNotifier.currentHeight ∧
    s1.b.calls.filter Call.isTip = s.b.calls.filter Call.isTip ∧
    s1.bestHeight = s.bestHeight := by
  cases msg with
  | BlockConnected hash height => exact absurd rfl (hmsg hash height)
  | BlockDisconnected hash height => exact absurd rfl (hmsg2 hash height)
  | spendCancel m =>
    simp only [notificationDispatcherStep] at h
    cases hget : s.b.spendNotifications.get m.op with
    | none =>
      simp only [hget, Outcome.ok.injEq] at h
      subst h
      exact ⟨rfl, rfl, rfl⟩
    | some clients =>
      simp only [hget] at h
      cases hid : clients.get m.spendID with
      | none => simp [hid] at h
      | some ntfn =>
        simp only [hid] at h
        obtain ⟨chans, _, h2⟩ := Outcome.bind_ok _ _ _ h
        simp only [Outcome.ok.injEq] at h2
        subst h2
        exact ⟨rfl, rfl, rfl⟩
  | epochCancel m =>
    simp only [notificationDispatcherStep] at h
    cases hget : s.b.blockEpochClients.get m.epochID with
    | none => simp [hget] at h
    | some reg =>
      simp only [hget] at h
      by_cases h1 : reg.cancelClosed = true
      · simp [h1] at h
      · by_cases h2 : reg.epochClosed = true
        · simp [h1, h2] at h
        · simp only [h1, h2, Bool.false_eq_true, if_false, Outcome.ok.injEq] at h
          subst h
          exact ⟨rfl, rfl, rfl⟩
  | spendNotification m =>
    simp only [notificationDispatcherStep, Outcome.ok.injEq] at h
    subst h
    exact ⟨rfl, filter_isTip_append_other _ _ rfl, rfl⟩
  | confirmationNotification m =>
    simp only [notificationDispatcherStep] at h
    cases hres : historicalConfDetails lib w.be w.fuel m.ConfNtfn.TxID m.heightHint
        (toUint32 (match w.be.GetBestBlock with
          | .ok (_, height) => height
          | .error _ => 0)) with
    | none => simp [hres] at h
    | some res =>
      simp only [hres, Outcome.ok.injEq] at h
      subst h
      refine ⟨?_, filter_isTip_append_other _ _ rfl, rfl⟩
      simp only [specTracker]
      split <;> rfl
  | blockEpochRegistration m =>
    simp only [notificationDispatcherStep, Outcome.ok.injEq] at h
    subst h
    exact ⟨rfl, rfl, rfl⟩
  | registryRelevantTx m =>
    simp only [notificationDispatcherStep] at h
    obtain ⟨b1, hb1, h2⟩ := Outcome.bind_ok _ _ _ h
    simp only [Outcome.ok.injEq] at h2
    subst h2
    obtain ⟨g1, g2⟩ := handleRelevantTx_tracker _ _ _ _ hb1
    exact ⟨by simp only [g1], by simp only [g2], rfl⟩
  | RelevantTx m =>
    simp only [notificationDispatcherStep] at h
    obtain ⟨b1, hb1, h2⟩ := Outcome.bind_ok _ _ _ h
    simp only [Outcome.ok.injEq] at h2
    subst h2
    obtain ⟨g1, g2⟩ := handleRelevantTx_tracker _ _ _ _ hb1
    exact ⟨by simp only [g1], by simp only [g2], rfl⟩

theorem gap_run {β : Type} (bk : TrackerBook β) (lib : Chainhash)
    (mid : List (World × Msg)) :
    ∀ s s2 : Dispatcher (Tracker β), gapKept s.bestHeight mid = true →
      (∀ ev ∈ mid, ∀ (hash : Nat) (height : Int),
        ev.2 = Msg.BlockConnected hash height → -2147483648 < height) →
      -2147483648 ≤ s.bestHeight → s.bestHeight ≤ 2147483647 →
      notificationDispatcher (specTracker bk) lib mid s = .ok s2 →
      s2.b.txConfNotifier.currentHeight = s.b.txConfNotifier.currentHeight ∧
      s2.b.calls.filter Call.isTip = s.b.calls.filter Call.isTip ∧
      s.bestHeight ≤ s2.bestHeight ∧ s2.bestHeight ≤ 2147483647 := by
  induction mid with
  | nil =>
    intro s s2 _ _ _ hhi hrun
    simp only [notificationDispatcher, Outcome.ok.injEq] at hrun
    subst hrun
    exact ⟨rfl, rfl, le_refl _, hhi⟩
  | cons ev rest ih =>
    intro s s2 hq hmin hlo hhi hrun
    obtain ⟨w, msg⟩ := ev
    have hmin1 : ∀ ev ∈ rest, ∀ (hash : Nat) (height : Int),
        ev.2 = Msg.BlockConnected hash height → -2147483648 < height :=
      fun ev1 h1 => hmin ev1 (List.mem_cons_of_mem _ h1)
    rw [notificationDispatcher] at hrun
    obtain ⟨s1, hstep, hrest⟩ := Outcome.bind_ok _ _ _ hrun
    have other : (∀ hash height, msg ≠ Msg.BlockConnected hash height) →
        (∀ hash height, msg ≠ Msg.BlockDisconnected hash height) →
        gapKept s.bestHeight rest = true →
        s2.b.txConfNotifier.currentHeight = s.b.txConfNotifier.currentHeight ∧
        s2.b.calls.filter Call.isTip = s.b.calls.filter Call.isTip ∧
        s.bestHeight ≤ s2.bestHeight ∧ s2.bestHeight ≤ 2147483647 := by
      intro hm1 hm2 hq1
      obtain ⟨g1, g2, g3⟩ := gap_step bk lib w s s1 msg hm1 hm2 hstep
      obtain ⟨h1, h2, h3, h4⟩ := ih s1 s2 (by rw [g3]; exact hq1) hmin1
        (by rw [g3]; exact hlo) (by rw [g3]; exact hhi) hrest
      exact ⟨h1.trans g1, h2.trans g2, by rw [← g3]; exact h3, h4⟩
    cases msg with
    | BlockConnected hash height =>
      have hgt := hmin (w, Msg.BlockConnected hash height) (List.mem_cons_self _ _)
        hash height rfl
      by_cases hh : height = wrapInt32 (s.bestHeight + 1)
      · have hnext : height = s.bestHeight + 1 ∧ s.bestHeight + 1 ≤ 2147483647 := by
          unfold wrapInt32 at hh
          omega
        cases hblk : w.be.GetBlock hash with
        | ok rawBlock => simp [gapKept, hh, hblk] at hq
        | error err =>
          simp only [gapKept, hh, hblk, if_true] at hq
          rw [← hh] at hq
          have hs1 : s1 = { s with bestHeight := height } := by
            simp only [notificationDispatcherStep, hblk] at hstep
            rw [if_neg (by simpa using hh)] at hstep
            simp only [Outcome.ok.injEq] at hstep
            exact hstep.symm
          subst hs1
          obtain ⟨h1, h2, h3, h4⟩ := ih _ s2 hq hmin1 (by simp only; omega)
            (by simp only; omega) hrest
          simp only at h1 h2 h3
          exact ⟨h1, h2, by omega, h4⟩
      · simp only [gapKept, hh, if_false] at hq
        have hs1 : s1 = s := by
          simp only [notificationDispatcherStep] at hstep
          rw [if_pos (by simpa using hh)] at hstep
          simp only [Outcome.ok.injEq] at hstep
          exact hstep.symm
        subst hs1
        exact ih _ s2 hq hmin1 hlo hhi hrest
    | BlockDisconnected hash height =>
      by_cases hh : height = s.bestHeight
      · simp [gapKept, hh] at hq
      · simp only [gapKept, hh, if_false] at hq
        have hs1 : s1 = s := by
          simp only [notificationDispatcherStep] at hstep
          rw [if_pos (by simpa using hh)] at hstep
          simp only [Outcome.ok.injEq] at hstep
          exact hstep.symm
        subst hs1
        exact ih _ s2 hq hmin1 hlo hhi hrest
    | spendCancel m => exact other (by simp) (by simp) (by simpa [gapKept] using hq)
    | epochCancel m => exact other (by simp) (by simp) (by simpa [gapKept] using hq)
    | spendNotification m => exact other (by simp) (by simp) (by simpa [gapKept] using hq)
    | confirmationNotification m =>
      exact other (by simp) (by simp) (by simpa [gapKept] using hq)
    | blockEpochRegistration m =>
      exact other (by simp) (by simp) (by simpa [gapKept] using hq)
    | registryRelevantTx m => exact other (by simp) (by simp) (by simpa [gapKept] using hq)
    | RelevantTx m => exact other (by simp) (by simp) (by simpa [gapKept] using hq)
/-- C13, amended: a block that cannot be fetched leaves a gap between the best
height and the tracker, until an in-order disconnect closes it. In a
dispatcher state whose best height and tracker current height both equal
`h`, with `h + 1` an `int32`:
(1) the step on a `BlockConnected` event at height `h + 1` whose `GetBlock`
call fails returns the same state but for the best height, now `h + 1`: no
epoch is enqueued, `ConnectTip` is not called and the tracker's current
height stays `h`.
(2) Let the dispatcher then complete any sequence of received values, of any
kind (chain events, registrations, cancellations, injected relevant
transactions), that holds no in-order `BlockDisconnected` event and no
in-order fetched `BlockConnected` event, connect heights above the lowest
`int32`. The tracker's current height is still `h`, no `ConnectTip` or
`DisconnectTip` call was made, the best height is at least `h + 1`, and the
next in-order `BlockConnected` event that is fetched, the epoch queues
running, is processed to the end and passed to `ConnectTip` with a height
different from the tracker's current height plus one: the tracker's ordering
assertion fails and the tracker is unchanged.
(3) When what follows are chain events only (the notifier not shutting down,
its epoch clients live, the spend index well formed), the dispatcher does
complete them, with the tracker, the record of its calls and the epoch queues
unchanged, and the next in-order fetched connect fails the assertion as in
(2).
(4) When the unfetched block is disconnected right away, the dispatcher
passes the disconnect to `DisconnectTip`, whose assertion fails, and lowers
the best height to `h` again; the next connect at `h + 1` that is fetched is
passed to `ConnectTip` with the tracker's current height plus one, and the
tracker moves to `h + 1`. -/
theorem fetch_failure_leaves_gap {β : Type} (bk : TrackerBook β) (lib : Chainhash)
    (w1 : World) (s : Dispatcher (Tracker β)) (hash1 : Nat) (err : Error)
    (hcur : (s.b.txConfNotifier.currentHeight : Int) = s.bestHeight)
    (hrange : s.bestHeight + 1 ≤ 2147483647)
    (hfail : w1.be.GetBlock hash1 = .error err) :
    notificationDispatcherStep (specTracker bk) lib w1 s
        (Msg.BlockConnected hash1 (s.bestHeight + 1)) =
      .ok { s with bestHeight := s.bestHeight + 1 } ∧
    (∀ (mid : List (World × Msg)) (s2 : Dispatcher (Tracker β)),
      gapKept (s.bestHeight + 1) mid = true →
      (∀ ev ∈ mid, ∀ (hash : Nat) (height : Int),
        ev.2 = Msg.BlockConnected hash height → -2147483648 < height) →
      notificationDispatcher (specTracker bk) lib
          ((w1, Msg.BlockConnected hash1 (s.bestHeight + 1)) :: mid) s = .ok s2 →
      s2.b.txConfNotifier.currentHeight = s.b.txConfNotifier.currentHeight ∧
      s2.b.calls.filter Call.isTip = s.b.calls.filter Call.isTip ∧
      s.bestHeight + 1 ≤ s2.bestHeight ∧
      ∀ (w2 : World) (hash2 : Nat) (height2 : Int) (rawBlock : MsgBlock),
        height2 = wrapInt32 (s2.bestHeight + 1) →
        w2.be.GetBlock hash2 = .ok rawBlock →
        (∀ e ∈ s2.b.blockEpochClients, e.2.epochQueue.stopped = false) →
        toUint32 height2 ≠ wrapUint32 (s2.b.txConfNotifier.currentHeight + 1) ∧
        (specTracker bk).ConnectTip s2.b.txConfNotifier hash2 (toUint32 height2)
            rawBlock.Transactions = (some ErrOutOfOrder, s2.b.txConfNotifier) ∧
        ∃ s3, notificationDispatcherStep (specTracker bk) lib w2 s2
            (Msg.BlockConnected hash2 height2) = .ok s3 ∧
          s3.b.calls = s2.b.calls ++
            [Call.ConnectTip hash2 (toUint32 height2) rawBlock.Transactions] ∧
          s3.b.txConfNotifier = s2.b.txConfNotifier ∧
          s3.bestHeight = height2) ∧
    (∀ mid : List (World × Msg),
      quietEvents (s.bestHeight + 1) mid = true →
      (∀ ev ∈ mid, ∀ (hash : Nat) (height : Int),
        ev.2 = Msg.BlockConnected hash height → -2147483648 < height) →
      s.b.quit = false →
      (∀ e ∈ s.b.blockEpochClients, liveEpochClient e.2) →
      SpendInv s.b →
      ∃ s2, notificationDispatcher (specTracker bk) lib
          ((w1, Msg.BlockConnected hash1 (s.bestHeight + 1)) :: mid) s = .ok s2 ∧
        s2.b.txConfNotifier = s.b.txConfNotifier ∧ s2.b.calls = s.b.calls ∧
        s2.b.blockEpochClients = s.b.blockEpochClients ∧
        ∀ (w2 : World) (hash2 : Nat) (height2 : Int) (rawBlock : MsgBlock),
          height2 = wrapInt32 (s2.bestHeight + 1) → -2147483648 < height2 →
          w2.be.GetBlock hash2 = .ok rawBlock →
          toUint32 height2 ≠ wrapUint32 (s.b.txConfNotifier.currentHeight + 1) ∧
          (specTracker bk).ConnectTip s2.b.txConfNotifier hash2 (toUint32 height2)
              rawBlock.Transactions = (some ErrOutOfOrder, s.b.txConfNotifier) ∧
          ∃ s3, notificationDispatcherStep (specTracker bk) lib w2 s2
              (Msg.BlockConnected hash2 height2) = .ok s3 ∧
            s3.b.calls = s.b.calls ++
              [Call.ConnectTip hash2 (toUint32 height2) rawBlock.Transactions] ∧
            s3.b.txConfNotifier = s.b.txConfNotifier) ∧
    (∀ (w2 w3 : World) (hash2 hash3 : Nat) (rawBlock : MsgBlock),
      w3.be.GetBlock hash3 = .ok rawBlock →
      (∀ e ∈ s.b.blockEpochClients, e.2.epochQueue.stopped = false) →
      (specTracker bk).DisconnectTip s.b.txConfNotifier (toUint32 (s.bestHeight + 1)) =
        (some ErrOutOfOrder, s.b.txConfNotifier) ∧
      toUint32 (s.bestHeight + 1) = wrapUint32 (s.b.txConfNotifier.currentHeight + 1) ∧
      ((specTracker bk).ConnectTip s.b.txConfNotifier hash3 (toUint32 (s.bestHeight + 1))
        rawBlock.Transactions).1 = none ∧
      notificationDispatcher (specTracker bk) lib
          [(w1, Msg.BlockConnected hash1 (s.bestHeight + 1)),
           (w2, Msg.BlockDisconnected hash2 (s.bestHeight + 1))] s =
        .ok { s with b := { s.b with
                calls := s.b.calls ++ [Call.DisconnectTip (toUint32 (s.bestHeight + 1))] } } ∧
      ∃ s3, notificationDispatcher (specTracker bk) lib
          [(w1, Msg.BlockConnected hash1 (s.bestHeight + 1)),
           (w2, Msg.BlockDisconnected hash2 (s.bestHeight + 1)),
           (w3, Msg.BlockConnected hash3 (s.bestHeight + 1))] s = .ok s3 ∧
        s3.bestHeight = s.bestHeight + 1 ∧
        s3.b.txConfNotifier.currentHeight = s.b.txConfNotifier.currentHeight + 1 ∧
        s3.b.calls = s.b.calls ++
          [Call.DisconnectTip (toUint32 (s.bestHeight + 1)),
           Call.ConnectTip hash3 (toUint32 (s.bestHeight + 1)) rawBlock.Transactions]) := by
  have hwrap : wrapInt32 (s.bestHeight + 1) = s.bestHeight + 1 := by
    unfold wrapInt32
    omega
  have hstep : notificationDispatcherStep (specTracker bk) lib w1 s
      (Msg.BlockConnected hash1 (s.bestHeight + 1)) =
      .ok { s with bestHeight := s.bestHeight + 1 } := by
    simp only [notificationDispatcherStep, hfail]
    rw [if_neg (by simp [hwrap])]
  refine ⟨hstep, ?_, ?_, ?_⟩
  · intro mid s2 hq hmin hrun
    simp only [notificationDispatcher, hstep, Outcome.bind] at hrun
    obtain ⟨h1, h2, h3, h4⟩ :=
      gap_run bk lib mid { s with bestHeight := s.bestHeight + 1 } s2 hq hmin
        (by simp only; omega) hrange hrun
    simp only at h1 h2 h3
    refine ⟨h1, h2, h3, ?_⟩
    intro w2 hash2 height2 rawBlock hh hblk hqueues
    have hne : toUint32 height2 ≠ wrapUint32 (s2.b.txConfNotifier.currentHeight + 1) := by
      rw [h1]
      unfold toUint32 wrapUint32
      unfold wrapInt32 at hh
      omega
    have hassert : (specTracker bk).ConnectTip s2.b.txConfNotifier hash2 (toUint32 height2)
        rawBlock.Transactions = (some ErrOutOfOrder, s2.b.txConfNotifier) := by
      simp only [specTracker]
      rw [if_neg hne]
    obtain ⟨s3, hs3, g1, g2, g3⟩ :=
      connect_step_running (specTracker bk) lib w2 s2 hash2 height2 rawBlock hh hblk hqueues
    exact ⟨hne, hassert, s3, hs3, g1, by rw [g2, hassert], g3⟩
  · intro mid hq hmin hquit hlive hinv
    obtain ⟨s2, hrun, h1, h2, h3, h4, _, h6, h7⟩ :=
      quiet_run (specTracker bk) lib mid { s with bestHeight := s.bestHeight + 1 } hq hmin
        (by simp only; omega) hrange hinv
    simp only at h1 h2 h3 h4 h6
    refine ⟨s2, ?_, h1, h2, h3, ?_⟩
    · simp only [notificationDispatcher, hstep, Outcome.bind]
      exact hrun
    · intro w2 hash2 height2 rawBlock hh hgt hblk
      have hnext : height2 = s2.bestHeight + 1 ∧ s2.bestHeight + 1 ≤ 2147483647 := by
        unfold wrapInt32 at hh
        omega
      have hcast : ((toUint32 height2 : Nat) : Int) = height2 := by
        unfold toUint32
        rw [Int.emod_eq_of_lt (by omega) (by omega), Int.toNat_of_nonneg (by omega)]
      have hne : toUint32 height2 ≠ wrapUint32 (s.b.txConfNotifier.currentHeight + 1) := by
        intro heq
        have hc : ((wrapUint32 (s.b.txConfNotifier.currentHeight + 1) : Nat) : Int) =
            s.bestHeight + 1 := by
          unfold wrapUint32
          omega
        rw [heq, hc] at hcast
        omega
      have hassert : (specTracker bk).ConnectTip s2.b.txConfNotifier hash2 (toUint32 height2)
          rawBlock.Transactions = (some ErrOutOfOrder, s.b.txConfNotifier) := by
        rw [h1]
        simp only [specTracker]
        rw [if_neg hne]
      refine ⟨hne, hassert, ?_⟩
      have hlive2 : ∀ e ∈ s2.b.blockEpochClients, liveEpochClient e.2 := by
        rw [h3]
        exact hlive
      rw [connect_step_live (specTracker bk) lib w2 s2 hash2 height2 rawBlock hh hblk
        (h4.trans hquit) hlive2]
      refine ⟨_, rfl, ?_, ?_⟩
      · simp only [h2]
      · simp only [hassert]
  · intro w2 w3 hash2 hash3 rawBlock hblk hqueues
    have hup : toUint32 (s.bestHeight + 1) = s.b.txConfNotifier.currentHeight + 1 := by
      unfold toUint32
      omega
    have hw : wrapUint32 (s.b.txConfNotifier.currentHeight + 1) =
        s.b.txConfNotifier.currentHeight + 1 := by
      unfold wrapUint32
      omega
    have hdis : (specTracker bk).DisconnectTip s.b.txConfNotifier
        (toUint32 (s.bestHeight + 1)) = (some ErrOutOfOrder, s.b.txConfNotifier) := by
      simp only [specTracker]
      rw [if_neg (by omega)]
    have hcon : (specTracker bk).ConnectTip s.b.txConfNotifier hash3
        (toUint32 (s.bestHeight + 1)) rawBlock.Transactions =
        (none, { currentHeight := toUint32 (s.bestHeight + 1),
                 book := bk.connect s.b.txConfNotifier.book hash3
                   (toUint32 (s.bestHeight + 1)) rawBlock.Transactions }) := by
      simp only [specTracker]
      rw [if_pos (by omega)]
    have hback : wrapInt32 (s.bestHeight + 1 - 1) = s.bestHeight := by
      unfold wrapInt32
      omega
    have hstep2 : notificationDispatcherStep (specTracker bk) lib w2
        { s with bestHeight := s.bestHeight + 1 }
        (Msg.BlockDisconnected hash2 (s.bestHeight + 1)) =
        .ok { s with b := { s.b with
                calls := s.b.calls ++
                  [Call.DisconnectTip (toUint32 (s.bestHeight + 1))] } } := by
      simp only [notificationDispatcherStep, ne_eq, not_true_eq_false, if_false, hdis, hback]
    have hrun2 : notificationDispatcher (specTracker bk) lib
        [(w1, Msg.BlockConnected hash1 (s.bestHeight + 1)),
         (w2, Msg.BlockDisconnected hash2 (s.bestHeight + 1))] s =
        .ok { s with b := { s.b with
                calls := s.b.calls ++
                  [Call.DisconnectTip (toUint32 (s.bestHeight + 1))] } } := by
      simp only [notificationDispatcher, hstep, hstep2, Outcome.bind]
    obtain ⟨s3, hs3, g1, g2, g3⟩ :=
      connect_step_running (specTracker bk) lib w3
        { s with b := { s.b with
            calls := s.b.calls ++ [Call.DisconnectTip (toUint32 (s.bestHeight + 1))] } }
        hash3 (s.bestHeight + 1) rawBlock hwrap.symm hblk hqueues
    refine ⟨hdis, by rw [hup, hw], by rw [hcon], hrun2, s3, ?_, g3, ?_, ?_⟩
    · simp only [notificationDispatcher, hstep, hstep2, hs3, Outcome.bind]
    · rw [g2]
      show ((specTracker bk).ConnectTip s.b.txConfNotifier hash3
        (toUint32 (s.bestHeight + 1)) rawBlock.Transactions).2.currentHeight = _
      rw [hcon]
      exact hup
    · rw [g1]
      show (s.b.calls ++ [Call.DisconnectTip (toUint32 (s.bestHeight + 1))]) ++
        [Call.ConnectTip hash3 (toUint32 (s.bestHeight + 1)) rawBlock.Transactions] = _
      rw [List.append_assoc]
      rfl

/-- C13, witness: best height and tracker height 100, the block of hash 9101
at height 101 cannot be fetched; a confirmation and an epoch registration, a
spend cancellation, a stale disconnect and a second unfetched block follow;
the block at height 103 is fetched and fails the tracker's assertion. -/
theorem fetch_failure_leaves_gap_witness :
    ((trackedDispatcher.b.txConfNotifier.currentHeight : Int) = trackedDispatcher.bestHeight) ∧
    trackedDispatcher.bestHeight + 1 ≤ 2147483647 ∧
    sampleWorld.be.GetBlock 9101 = .error (.rpc (-5)) ∧
    gapKept (trackedDispatcher.bestHeight + 1) busySample = true ∧
    notificationDispatcherStep (specTracker unitBook) sampleLib sampleWorld trackedDispatcher
        (Msg.BlockConnected 9101 (trackedDispatcher.bestHeight + 1)) =
      .ok { trackedDispatcher with bestHeight := trackedDispatcher.bestHeight + 1 } ∧
    ∃ s2, notificationDispatcher (specTracker unitBook) sampleLib
        ((sampleWorld, Msg.BlockConnected 9101 (trackedDispatcher.bestHeight + 1)) ::
          busySample) trackedDispatcher = .ok s2 ∧
      s2.bestHeight = 102 ∧
      s2.b.txConfNotifier.currentHeight = 100 ∧
      toUint32 103 ≠ wrapUint32 (s2.b.txConfNotifier.currentHeight + 1) ∧
      ∃ s3, notificationDispatcherStep (specTracker unitBook) sampleLib sampleWorld s2
          (Msg.BlockConnected 1102 103) = .ok s3 ∧
        s3.b.calls = s2.b.calls ++ [Call.ConnectTip 1102 (toUint32 103) []] ∧
        s3.b.txConfNotifier = s2.b.txConfNotifier := by
  have hmin : ∀ ev ∈ busySample, ∀ (hash : Nat) (height : Int),
      ev.2 = Msg.BlockConnected hash height → -2147483648 < height := by
    intro ev hev hash height heq
    simp only [busySample, List.mem_cons, List.mem_singleton, List.not_mem_nil,
      or_false] at hev
    rcases hev with rfl | rfl | rfl | rfl | rfl
    · cases heq
    · cases heq
    · cases heq
    · cases heq
    · cases heq
      decide
  have hsome : (notificationDispatcher (specTracker unitBook) sampleLib
      ((sampleWorld, Msg.BlockConnected 9101 (trackedDispatcher.bestHeight + 1)) ::
        busySample) trackedDispatcher).toOption.map
      (fun s => (s.bestHeight, s.b.txConfNotifier.currentHeight,
        decide (∀ e ∈ s.b.blockEpochClients, e.2.epochQueue.stopped = false))) =
      some (102, 100, true) := by decide
  have hthm := fetch_failure_leaves_gap unitBook sampleLib sampleWorld trackedDispatcher
    9101 (.rpc (-5)) (by decide) (by decide) (by decide)
  cases hrun : notificationDispatcher (specTracker unitBook) sampleLib
      ((sampleWorld, Msg.BlockConnected 9101 (trackedDispatcher.bestHeight + 1)) ::
        busySample) trackedDispatcher with
  | ok s2 =>
    rw [hrun] at hsome
    simp only [Outcome.toOption, Option.map_some', Option.some.injEq, Prod.mk.injEq,
      decide_eq_true_eq] at hsome
    obtain ⟨hbest, hheight, hqueues⟩ := hsome
    obtain ⟨_, _, _, hnext⟩ := hthm.2.1 busySample s2 (by decide) hmin hrun
    obtain ⟨hne, _, s3, hs3, hcalls, htr, _⟩ :=
      hnext sampleWorld 1102 103
        { Header := { Timestamp := 0, hash := 1102 }, Transactions := [] }
        (by rw [hbest]; decide) (by decide) hqueues
    exact ⟨by decide, by decide, by decide, by decide, hthm.1,
      s2, rfl, hbest, hheight, hne, s3, hs3, hcalls, htr⟩
  | panic p => rw [hrun] at hsome; simp [Outcome.toOption] at hsome
  | blocked => rw [hrun] at hsome; simp [Outcome.toOption] at hsome
  | timeout => rw [hrun] at hsome; simp [Outcome.toOption] at hsome

end Bitcoind
